import Mathlib

/-!
# cpyamf.util.BufferedByteStream

A shallow embedding of `src/cpyamf/util.c`: the typed integer codec
(`pack_uint`, `pack_int`, `unpack_uint`, `unpack_int`) and the stream methods
built on a cStringIO output object.

Host assumptions, fixed throughout: `sizeof(long) == 8`, little-endian memory
layout, `char` signed, `>>` on a negative `long` arithmetic.

A C `unsigned long` is a `Nat` reduced modulo `2 ^ 64`; a C `long` is an `Int`
where only shifts and comparisons act on it (`pack_int`) and its 64-bit
two's-complement pattern (a `Nat`) where bitwise operators act on it
(`unpack_int`).  A Python integer argument is an `Int`.  Length and count
arguments (`n` of `read`, `pos` of `seek`) are the C `long` obtained after the
host's argument conversion.
-/

namespace Cpyamf

/-! ## Bytes and machine words -/

/-- One `char` of buffer memory, as its unsigned value. -/
abbrev Byte := Fin 256

/-- The conversion `(char) x`: the low eight bits. -/
def toByte (x : Nat) : Byte := ⟨x % 256, Nat.mod_lt x (by decide)⟩

/-- The constant `SIZEOF_LONG` of the modelled host. -/
def SIZEOF_LONG : Nat := 8

/-- Number of values of an `unsigned long`. -/
def ULONG_MOD : Nat := 2 ^ (8 * SIZEOF_LONG)

/-- The greatest `long`. -/
def LONG_MAX : Int := 2 ^ (8 * SIZEOF_LONG - 1) - 1

/-- The least `long`. -/
def LONG_MIN : Int := -(2 ^ (8 * SIZEOF_LONG - 1))

/-- The 64-bit two's-complement pattern of a `long`. -/
def long_bits (x : Int) : Nat := (x % (ULONG_MOD : Int)).toNat

/-- The `long` a 64-bit pattern stands for. -/
def long_of_bits (p : Nat) : Int :=
  if p % ULONG_MOD < 2 ^ (8 * SIZEOF_LONG - 1) then ((p % ULONG_MOD : Nat) : Int)
  else ((p % ULONG_MOD : Nat) : Int) - (ULONG_MOD : Int)

/-- The byte `((char *)&x)[k]` of an `unsigned long` on a little-endian host. -/
def ulong_mem (x : Nat) (k : Nat) : Byte := toByte (x / 256 ^ k)

/-- The byte `((char *)&x)[k]` of a `long` on a little-endian host. -/
def long_mem (x : Int) (k : Nat) : Byte := toByte (long_bits x / 256 ^ k)

/-- The conversion `(long) *(char *)buf` of one byte, `char` being signed. -/
def char_value (b : Byte) : Int := if b.val < 128 then (b.val : Int) else (b.val : Int) - 256

/-! ## Byte orders and exceptions -/

def ENDIAN_NETWORK : Char := '!'

def ENDIAN_NATIVE : Char := '@'

def ENDIAN_LITTLE : Char := '<'

def ENDIAN_BIG : Char := '>'

/-- The Python exceptions the module raises.  In the words of the
specification: `ValueError` with "buffer is closed" is ClosedStream, `EOFError`
is EndOfStream, `IOError` is ShortRead, `OverflowError` is Overflow. -/
inductive PyExc where
  | ValueError
  | EOFError
  | IOError
  | OverflowError
  | TypeError
  | SystemError
  | UnicodeDecodeError
  | LookupError
  deriving DecidableEq, Repr

deriving instance DecidableEq for Except

/-! ## The cStringIO output object -/

/-- The cStringIO output object behind `self->buffer`: `buf` holds the
`string_size` bytes of content, `pos` is the cursor. -/
structure Oobject where
  buf : List Byte
  pos : Nat
  deriving DecidableEq, Repr

/-- Modelled from the spec: `PycStringIO->NewOutput` belongs to the host's
cStringIO module, not to this repository; it creates empty storage with the
cursor at 0 (the size is a capacity hint only). -/
def NewOutput (_size : Nat) : Oobject := { buf := [], pos := 0 }

/-- Modelled from the spec: `PycStringIO->cread` belongs to the host's
cStringIO module; it reads up to `n` bytes starting at the cursor without going
past the end (all remaining bytes when `n < 0`), advances the cursor by the
number of bytes read and returns them. -/
def cread (io : Oobject) (n : Int) : List Byte × Oobject :=
  let l : Int := (io.buf.length : Int) - (io.pos : Int)
  let m : Int := if n < 0 ∨ n > l then (if l < 0 then 0 else l) else n
  ((io.buf.drop io.pos).take m.toNat, { io with pos := io.pos + m.toNat })

/-- Modelled from the spec: `PycStringIO->cwrite` belongs to the host's
cStringIO module; it overwrites or appends the bytes `c` at the cursor, growing
the storage as needed (a gap left by a seek past the end reads as zero bytes),
and advances the cursor by their number. -/
def cwrite (io : Oobject) (c : List Byte) : Oobject :=
  let padded := io.buf ++ List.replicate (io.pos - io.buf.length) (0 : Byte)
  { buf := padded.take io.pos ++ c ++ padded.drop (io.pos + c.length),
    pos := io.pos + c.length }

/-- Modelled from the spec: the `seek` method of the cStringIO output object;
`mode` 0 is absolute, 1 relative to the cursor, 2 relative to the end, and a
negative target is clamped to 0. -/
def O_seek (io : Oobject) (position : Int) (mode : Int) : Oobject :=
  let target : Int :=
    if mode = 2 then position + (io.buf.length : Int)
    else if mode = 1 then position + (io.pos : Int)
    else position
  { io with pos := (if target < 0 then 0 else target).toNat }

/-! ## The stream object -/

/-- The struct `BufferedByteStream` of `util.h`: `buffer` is `none` when the
C pointer is `NULL` (the stream is closed). -/
structure BufferedByteStream where
  buffer : Option Oobject
  endian : Char
  deriving DecidableEq, Repr

/-- What a method leaves behind: its return value or the exception it raised,
and the stream after the call. -/
abbrev Result (α : Type) := Except PyExc α × BufferedByteStream

/-- The function `get_long`: `PyLong_AsLong` raises `OverflowError` outside the
range of a `long`. -/
def get_long (v : Int) : Except PyExc Int :=
  if v < LONG_MIN ∨ v > LONG_MAX then .error .OverflowError else .ok v

/-- The function `get_ulong`: `PyLong_AsUnsignedLong` raises `OverflowError` on a
negative value and beyond the range of an `unsigned long`. -/
def get_ulong (v : Int) : Except PyExc Nat :=
  if v < 0 ∨ v ≥ (ULONG_MOD : Int) then .error .OverflowError else .ok v.toNat

/-! ## unpack -/

/-- The `do ... while (--num_bytes > 0)` loop shared by `unpack_uint` and
`unpack_int`, on the 64-bit pattern of `x`: `bytes` is the moving pointer,
`num_bytes` the count still to go. -/
def unpack_loop (endian : Char) : Nat → Nat → List Byte → Nat
  | 0, x, _ => x
  | num_bytes + 1, x, bytes =>
    if endian = ENDIAN_BIG ∨ endian = ENDIAN_NETWORK then
      unpack_loop endian num_bytes
        (((x <<< 8) % ULONG_MOD) ||| (bytes.getD 0 0).val) (bytes.drop 1)
    else
      unpack_loop endian num_bytes
        (((x <<< 8) % ULONG_MOD) ||| (bytes.getD num_bytes 0).val) bytes

/-- The function `unpack_uint`, returning the value of the Python integer. -/
def unpack_uint (endian : Char) (buf : List Byte) (num_bytes : Nat) : Int :=
  ((unpack_loop endian num_bytes 0 buf : Nat) : Int)

/-- The function `unpack_int`: the same loop, then
`x |= -(x & (1L << ((8 * num_bytes) - 1)))` when `SIZEOF_LONG > num_bytes`. -/
def unpack_int (endian : Char) (buf : List Byte) (num_bytes : Nat) : Int :=
  let x := unpack_loop endian num_bytes 0 buf
  let x :=
    if SIZEOF_LONG > num_bytes then
      x ||| ((ULONG_MOD - (x &&& ((1 <<< (8 * num_bytes - 1)) % ULONG_MOD))) % ULONG_MOD)
    else x
  long_of_bits x

/-! ## pack -/

/-- The `while (i > 0)` loop of `pack_uint`.  The `switch` has no `default`:
for any other `endian` neither `i` nor `buf` changes, so the loop is given
`fuel` and returns `none` when it is used up. -/
def pack_uint_loop (endian : Char) (num_bytes : Nat) :
    Nat → Nat → Nat → List Byte → Option (List Byte)
  | 0, _, i, buf => if i = 0 then some buf else none
  | fuel + 1, x, i, buf =>
    if i = 0 then some buf
    else if endian = ENDIAN_BIG ∨ endian = ENDIAN_NETWORK then
      pack_uint_loop endian num_bytes fuel (x >>> 8) (i - 1) (buf.set (i - 1) (toByte x))
    else if endian = ENDIAN_LITTLE then
      pack_uint_loop endian num_bytes fuel (x >>> 8) (i - 1)
        (buf.set (num_bytes - i) (toByte x))
    else if endian = ENDIAN_NATIVE then
      pack_uint_loop endian num_bytes fuel (x >>> 8) (i - 1)
        (buf.set (num_bytes - i) (ulong_mem x (num_bytes - i)))
    else
      pack_uint_loop endian num_bytes fuel (x >>> 8) i buf

/-- The function `pack_uint` on the two fields of `self` (the callers have
checked that `self->buffer` is not `NULL`); `none` when `fuel` does not suffice
for the loop. -/
def pack_uint (fuel : Nat) (endian : Char) (io : Oobject) (x : Nat) (num_bytes : Nat) :
    Option (Except PyExc Oobject) :=
  if num_bytes ≠ SIZEOF_LONG ∧ x ≥ (1 <<< (num_bytes * 8)) % ULONG_MOD then
    some (.error .OverflowError)
  else
    match pack_uint_loop endian num_bytes fuel x num_bytes (List.replicate num_bytes 0) with
    | none => none
    | some buf => some (.ok (cwrite io (buf.take num_bytes)))

/-- The `while (i > 0)` loop of `pack_int`, with the same missing `default`. -/
def pack_int_loop (endian : Char) (num_bytes : Nat) :
    Nat → Int → Nat → List Byte → Option (List Byte)
  | 0, _, i, buf => if i = 0 then some buf else none
  | fuel + 1, x, i, buf =>
    if i = 0 then some buf
    else if endian = ENDIAN_BIG ∨ endian = ENDIAN_NETWORK then
      pack_int_loop endian num_bytes fuel (x >>> (8 : Nat)) (i - 1) (buf.set (i - 1) (long_mem x 0))
    else if endian = ENDIAN_LITTLE then
      pack_int_loop endian num_bytes fuel (x >>> (8 : Nat)) (i - 1)
        (buf.set (num_bytes - i) (long_mem x 0))
    else if endian = ENDIAN_NATIVE then
      pack_int_loop endian num_bytes fuel (x >>> (8 : Nat)) (i - 1)
        (buf.set (num_bytes - i) (long_mem x (num_bytes - i)))
    else
      pack_int_loop endian num_bytes fuel (x >>> (8 : Nat)) i buf

/-- The function `pack_int` on the two fields of `self`; `maxint` is
`1 << (8 * num_bytes - 1)` and `minint` its negation. -/
def pack_int (fuel : Nat) (endian : Char) (io : Oobject) (x : Int) (num_bytes : Nat) :
    Option (Except PyExc Oobject) :=
  let maxint : Int := long_of_bits (1 <<< (num_bytes * 8 - 1))
  let minint : Int := -maxint
  if num_bytes ≠ SIZEOF_LONG ∧ (x ≥ maxint ∨ x < minint) then
    some (.error .OverflowError)
  else
    match pack_int_loop endian num_bytes fuel x num_bytes (List.replicate num_bytes 0) with
    | none => none
    | some buf => some (.ok (cwrite io (buf.take num_bytes)))

/-! ## Stream methods -/

/-- The allocator `BufferedByteStream_new`: no storage yet, byte order
`ENDIAN_NETWORK`. -/
def BufferedByteStream_new : BufferedByteStream :=
  { buffer := none, endian := ENDIAN_NETWORK }

/-- The method `tell`. -/
def BufferedByteStream_tell (self : BufferedByteStream) : Result Int :=
  match self.buffer with
  | none => (.error .ValueError, self)
  | some io => (.ok (io.pos : Int), self)

/-- The method `seek(pos, mode)`; `obj_mode` is `none` when the argument is
omitted and then stands for 0. -/
def BufferedByteStream_seek (self : BufferedByteStream) (obj_pos : Int)
    (obj_mode : Option Int) : Result Unit :=
  match self.buffer with
  | none => (.error .ValueError, self)
  | some io =>
    let mode : Int := match obj_mode with
      | none => 0
      | some m => m
    (.ok (), { self with buffer := some (O_seek io obj_pos mode) })

/-- The method `read(n)`; `obj_n` is `none` when the argument is omitted, and
`n` then keeps its initial value -1. -/
def BufferedByteStream_read (self : BufferedByteStream) (obj_n : Option Int) :
    Result (List Byte) :=
  match self.buffer with
  | none => (.error .ValueError, self)
  | some io =>
    let n : Int := match obj_n with
      | none => -1
      | some v => v
    let (buf, io1) := cread io n
    let self1 := { self with buffer := some io1 }
    if n > (buf.length : Int) then
      if buf.length > 0 then (.error .IOError, self1) else (.error .EOFError, self1)
    else (.ok buf, self1)

/-- The method `read_uchar`. -/
def BufferedByteStream_read_uchar (self : BufferedByteStream) : Result Int :=
  match self.buffer with
  | none => (.error .ValueError, self)
  | some io =>
    let (buf, io1) := cread io 1
    let self1 := { self with buffer := some io1 }
    if buf.length ≠ 1 then (.error .EOFError, self1)
    else (.ok ((buf.getD 0 0).val : Int), self1)

/-- The method `write_uchar`; `(char *)&val` addresses the low byte of `val`. -/
def BufferedByteStream_write_uchar (self : BufferedByteStream) (c : Int) : Result Unit :=
  match self.buffer with
  | none => (.error .ValueError, self)
  | some io =>
    match get_ulong c with
    | .error e => (.error e, self)
    | .ok val =>
      if val > 255 then (.error .OverflowError, self)
      else (.ok (), { self with buffer := some (cwrite io [ulong_mem val 0]) })

/-- The method `read_char`. -/
def BufferedByteStream_read_char (self : BufferedByteStream) : Result Int :=
  match self.buffer with
  | none => (.error .ValueError, self)
  | some io =>
    let (buf, io1) := cread io 1
    let self1 := { self with buffer := some io1 }
    if buf.length ≠ 1 then (.error .EOFError, self1)
    else (.ok (char_value (buf.getD 0 0)), self1)

/-- The method `write_char`. -/
def BufferedByteStream_write_char (self : BufferedByteStream) (c : Int) : Result Unit :=
  match self.buffer with
  | none => (.error .ValueError, self)
  | some io =>
    match get_long c with
    | .error e => (.error e, self)
    | .ok val =>
      if val < -128 ∨ val > 127 then (.error .OverflowError, self)
      else (.ok (), { self with buffer := some (cwrite io [long_mem val 0]) })

/-- The method `read_ushort`. -/
def BufferedByteStream_read_ushort (self : BufferedByteStream) : Result Int :=
  match self.buffer with
  | none => (.error .ValueError, self)
  | some io =>
    let (buf, io1) := cread io 2
    let self1 := { self with buffer := some io1 }
    if buf.length ≠ 2 then (.error .EOFError, self1)
    else (.ok (unpack_uint self.endian buf 2), self1)

/-- The method `write_ushort`; `none` when `fuel` does not suffice for the
loop of `pack_uint`. -/
def BufferedByteStream_write_ushort (fuel : Nat) (self : BufferedByteStream) (c : Int) :
    Option (Result Unit) :=
  match self.buffer with
  | none => some (.error .ValueError, self)
  | some io =>
    match get_ulong c with
    | .error e => some (.error e, self)
    | .ok val =>
      if val > 65535 then some (.error .OverflowError, self)
      else
        match pack_uint fuel self.endian io val 2 with
        | none => none
        | some (.error e) => some (.error e, self)
        | some (.ok io1) => some (.ok (), { self with buffer := some io1 })

/-- The method `read_short`. -/
def BufferedByteStream_read_short (self : BufferedByteStream) : Result Int :=
  match self.buffer with
  | none => (.error .ValueError, self)
  | some io =>
    let (buf, io1) := cread io 2
    let self1 := { self with buffer := some io1 }
    if buf.length ≠ 2 then (.error .EOFError, self1)
    else (.ok (unpack_int self.endian buf 2), self1)

/-- The method `write_short`. -/
def BufferedByteStream_write_short (fuel : Nat) (self : BufferedByteStream) (c : Int) :
    Option (Result Unit) :=
  match self.buffer with
  | none => some (.error .ValueError, self)
  | some io =>
    match get_long c with
    | .error e => some (.error e, self)
    | .ok val =>
      if val < -32768 ∨ val > 32767 then some (.error .OverflowError, self)
      else
        match pack_int fuel self.endian io val 2 with
        | none => none
        | some (.error e) => some (.error e, self)
        | some (.ok io1) => some (.ok (), { self with buffer := some io1 })

/-- The method `read_ulong`. -/
def BufferedByteStream_read_ulong (self : BufferedByteStream) : Result Int :=
  match self.buffer with
  | none => (.error .ValueError, self)
  | some io =>
    let (buf, io1) := cread io 4
    let self1 := { self with buffer := some io1 }
    if buf.length ≠ 4 then (.error .EOFError, self1)
    else (.ok (unpack_uint self.endian buf 4), self1)

/-- The method `write_ulong`. -/
def BufferedByteStream_write_ulong (fuel : Nat) (self : BufferedByteStream) (c : Int) :
    Option (Result Unit) :=
  match self.buffer with
  | none => some (.error .ValueError, self)
  | some io =>
    match get_ulong c with
    | .error e => some (.error e, self)
    | .ok val =>
      match pack_uint fuel self.endian io val 4 with
      | none => none
      | some (.error e) => some (.error e, self)
      | some (.ok io1) => some (.ok (), { self with buffer := some io1 })

/-- The method `read_long`.  The count returned by `cread` is not looked at,
and `unpack_int` reads four bytes at `buf` in any case: those past the end of
the content are whatever the allocation holds there, given by `stale`. -/
def BufferedByteStream_read_long (self : BufferedByteStream) (stale : List Byte) :
    Result Int :=
  match self.buffer with
  | none => (.error .ValueError, self)
  | some io =>
    let (buf, io1) := cread io 4
    (.ok (unpack_int self.endian (buf ++ stale) 4), { self with buffer := some io1 })

/-- The method `write_long`. -/
def BufferedByteStream_write_long (fuel : Nat) (self : BufferedByteStream) (c : Int) :
    Option (Result Unit) :=
  match self.buffer with
  | none => some (.error .ValueError, self)
  | some io =>
    match get_long c with
    | .error e => some (.error e, self)
    | .ok val =>
      match pack_int fuel self.endian io val 4 with
      | none => none
      | some (.error e) => some (.error e, self)
      | some (.ok io1) => some (.ok (), { self with buffer := some io1 })

/-- The method `read_float`, up to the decoding: the result is the four bytes
handed to `memcpy` or `_PyFloat_Unpack4`. -/
def BufferedByteStream_read_float (self : BufferedByteStream) : Result (List Byte) :=
  match self.buffer with
  | none => (.error .ValueError, self)
  | some io =>
    let (buf, io1) := cread io 4
    let self1 := { self with buffer := some io1 }
    if buf.length ≠ 4 then (.error .EOFError, self1) else (.ok buf, self1)

/-- The method `read_double`, up to the decoding: the result is the eight bytes
handed to `memcpy` or `_PyFloat_Unpack8`. -/
def BufferedByteStream_read_double (self : BufferedByteStream) : Result (List Byte) :=
  match self.buffer with
  | none => (.error .ValueError, self)
  | some io =>
    let (buf, io1) := cread io 8
    let self1 := { self with buffer := some io1 }
    if buf.length ≠ 8 then (.error .EOFError, self1) else (.ok buf, self1)

/-- Whether `b` is a continuation byte `10xxxxxx`. -/
def is_continuation (b : Byte) : Bool := 0x80 ≤ b.val && b.val < 0xC0

/-- Whether `v`, decoded from a sequence of `total` bytes, is admissible: not
an overlong form, not a surrogate, not above `0x10FFFF`. -/
def utf8_valid (total v : Nat) : Bool :=
  if total = 2 then decide (0x80 ≤ v)
  else if total = 3 then decide (0x800 ≤ v ∧ ¬ (0xD800 ≤ v ∧ v ≤ 0xDFFF))
  else decide (0x10000 ≤ v ∧ v ≤ 0x10FFFF)

/-- Strict UTF-8 decoding, byte by byte: `need` continuation bytes are still
expected for the code point whose bits so far are `acc` and whose sequence has
`total` bytes.  `none` on a stray or missing continuation byte, an invalid lead
byte or an inadmissible value. -/
def utf8_decode_from : List Byte → Nat → Nat → Nat → Option (List Char)
  | [], need, _, _ => if need = 0 then some [] else none
  | b :: rest, need, acc, total =>
    if need = 0 then
      if b.val < 0x80 then
        (utf8_decode_from rest 0 0 0).map (fun cs => Char.ofNat b.val :: cs)
      else if b.val < 0xC0 then none
      else if b.val < 0xE0 then utf8_decode_from rest 1 (b.val - 0xC0) 2
      else if b.val < 0xF0 then utf8_decode_from rest 2 (b.val - 0xE0) 3
      else if b.val < 0xF8 then utf8_decode_from rest 3 (b.val - 0xF0) 4
      else none
    else if is_continuation b then
      if need = 1 then
        if utf8_valid total (acc * 64 + (b.val - 0x80)) then
          (utf8_decode_from rest 0 0 0).map
            (fun cs => Char.ofNat (acc * 64 + (b.val - 0x80)) :: cs)
        else none
      else utf8_decode_from rest (need - 1) (acc * 64 + (b.val - 0x80)) total
    else none

/-- Strict UTF-8 decoding of a byte string into code points. -/
def utf8_decode (s : List Byte) : Option (List Char) := utf8_decode_from s 0 0 0

/-- Modelled from the spec: `PyCodec_LookupError` belongs to the host; it finds
the error handler registered under `name`, and raises `LookupError` when no
handler has that name. -/
def PyCodec_LookupError (name : String) : Except PyExc String :=
  if name = "strict" ∨ name = "ignore" ∨ name = "replace" ∨ name = "xmlcharrefreplace"
      ∨ name = "backslashreplace" then .ok name
  else .error .LookupError

/-- Modelled from the spec: `PyUnicode_DecodeUTF8` belongs to the host; it
decodes the bytes as UTF-8.  Only on an invalid sequence is the handler named
by `errors` looked up: an unknown name raises `LookupError`, and the handler
`strict` (no replacement, no skipping) raises the DecodeError.  The handlers
that go on decoding are never named by `util.c`; for them the result is here
that of `strict`. -/
def PyUnicode_DecodeUTF8 (s : List Byte) (errors : String) : Except PyExc String :=
  match utf8_decode s with
  | some cs => .ok (String.mk cs)
  | none =>
    match PyCodec_LookupError errors with
    | .error e => .error e
    | .ok _ => .error .UnicodeDecodeError

/-- The method `read_utf8_string(len)`.  A `num_bytes` of -1 returns `NULL` with
no exception set, which the interpreter reports as `SystemError`; the decoder
is handed the handler name `""`. -/
def BufferedByteStream_read_utf8_string (self : BufferedByteStream) (len : Int) :
    Result String :=
  match self.buffer with
  | none => (.error .ValueError, self)
  | some io =>
    if len = -1 then (.error .SystemError, self)
    else
      let (buf, io1) := cread io len
      let self1 := { self with buffer := some io1 }
      if (buf.length : Int) ≠ len then (.error .EOFError, self1)
      else
        match PyUnicode_DecodeUTF8 buf "" with
        | .error e => (.error e, self1)
        | .ok t => (.ok t, self1)

/-! ## More of the cStringIO output object -/

/-- Number of bytes up to and including the first line feed of `bytes`, all of
them when there is none. -/
def line_length : List Byte → Nat
  | [] => 0
  | b :: rest => if b.val = 10 then 1 else 1 + line_length rest

/-- Modelled from the spec: `PycStringIO->creadline` belongs to the host's
cStringIO module; it reads from the cursor up to and including the next line
terminator, or to the end of the buffer if none is found, and advances the
cursor accordingly. -/
def creadline (io : Oobject) : List Byte × Oobject :=
  let rest := io.buf.drop io.pos
  let l := line_length rest
  (rest.take l, { io with pos := io.pos + l })

/-- The loop of the `readlines` method of the cStringIO output object: lines are
read until an empty one, or until `hint > 0` bytes have been collected.  Every
line read is non-empty, so `fuel` beyond the number of remaining bytes is never
used up. -/
def IO_readlines_loop (hint : Int) :
    Nat → Oobject → Int → List (List Byte) → List (List Byte) × Oobject
  | 0, io, _, result => (result, io)
  | fuel + 1, io, length, result =>
    let (line, io1) := creadline io
    if line.length = 0 then (result, io1)
    else if hint > 0 ∧ length + (line.length : Int) ≥ hint then (result ++ [line], io1)
    else IO_readlines_loop hint fuel io1 (length + (line.length : Int)) (result ++ [line])

/-- Modelled from the spec: the `readlines` method of the cStringIO output
object; it produces the ordered sequence of remaining lines. -/
def IO_readlines (io : Oobject) (hint : Int) : List (List Byte) × Oobject :=
  IO_readlines_loop hint (io.buf.length + 1) io 0 []

/-- Modelled from the spec: the `writelines` method of the cStringIO output
object; it writes each item in order with `cwrite`. -/
def O_writelines (io : Oobject) (lines : List (List Byte)) : Oobject :=
  lines.foldl cwrite io

/-- Modelled from the spec: the `getvalue` method of the cStringIO output
object; it returns the entire contents regardless of the cursor. -/
def IO_getval (io : Oobject) : List Byte := io.buf

/-! ## Construction -/

/-- The objects `BufferedByteStream_init_` tells apart in `buf_obj`.  A source
stream is given by the storage and byte order of an open stream other than
`self` (on a closed one `cread` would be handed `NULL`); `string` is a `str`;
`has_getvalue` an object whose `getvalue()` returns `val`; `file_like` an
object with `read`, `seek` and `tell` over `content` with its cursor at `pos`;
`other` anything else. -/
inductive BufObj where
  | stream (io : Oobject) (endian : Char)
  | string (s : List Byte)
  | has_getvalue (val : List Byte)
  | file_like (content : List Byte) (pos : Nat)
  | other
  deriving DecidableEq, Repr

/-- The function `BufferedByteStream_init_`; `buf_obj` is `none` for `NULL` and
for `None`.  The result carries `self` and the source after the call. -/
def BufferedByteStream_init_ (self : BufferedByteStream) (buf_obj : Option BufObj)
    (rewind : Int) : Except PyExc Unit × BufferedByteStream × Option BufObj :=
  let io0 : Oobject := match self.buffer with
    | none => NewOutput 128
    | some io => io
  let finish (io : Oobject) (src : Option BufObj) :
      Except PyExc Unit × BufferedByteStream × Option BufObj :=
    let io1 := if rewind = 1 then O_seek io 0 0 else io
    (.ok (), { self with buffer := some io1 }, src)
  match buf_obj with
  | none => finish io0 none
  | some (.stream other endian) =>
    let old_pos : Int := (other.pos : Int)
    let other1 := O_seek other 0 0
    let (str, other2) := cread other1 (-1)
    let io1 := cwrite io0 str
    let other3 := O_seek other2 old_pos 0
    finish io1 (some (.stream other3 endian))
  | some (.string str) => finish (cwrite io0 str) (some (.string str))
  | some (.has_getvalue val) => finish (cwrite io0 val) (some (.has_getvalue val))
  | some (.file_like content pos) =>
    finish (cwrite io0 content) (some (.file_like content pos))
  | some .other => (.error .TypeError, { self with buffer := some io0 }, some .other)

/-- The Python wrapper `BufferedByteStream_init`. -/
def BufferedByteStream_init (self : BufferedByteStream) (buf_obj : Option BufObj) :
    Except PyExc Unit × BufferedByteStream × Option BufObj :=
  BufferedByteStream_init_ self buf_obj 1

/-! ## More stream methods -/

/-- The method `remaining`: `tell`, `seek(0, 2)`, `tell`, `seek(cur_pos, 0)`, and
the difference of the two positions. -/
def BufferedByteStream_remaining (self : BufferedByteStream) : Result Int :=
  match self.buffer with
  | none => (.error .ValueError, self)
  | some io =>
    let cur_pos : Int := (io.pos : Int)
    let io1 := O_seek io 0 2
    let end_pos : Int := (io1.pos : Int)
    let io2 := O_seek io1 cur_pos 0
    (.ok (end_pos - cur_pos), { self with buffer := some io2 })

/-- The method `at_eof`. -/
def BufferedByteStream_at_eof (self : BufferedByteStream) : Result Bool :=
  match self.buffer with
  | none => (.error .ValueError, self)
  | some _ =>
    match BufferedByteStream_remaining self with
    | (.ok remaining, self1) => (.ok (remaining == 0), self1)
    | (.error e, self1) => (.error e, self1)

/-- The method `peek(size)`; `obj_size` is `none` when the argument is omitted,
and `size` then keeps its initial value 1. -/
def BufferedByteStream_peek (self : BufferedByteStream) (obj_size : Option Int) :
    Result (List Byte) :=
  match self.buffer with
  | none => (.error .ValueError, self)
  | some io =>
    let size : Int := match obj_size with
      | none => 1
      | some v => v
    let old_pos : Int := (io.pos : Int)
    let (buf, io1) := cread io size
    let io2 := O_seek io1 old_pos 0
    (.ok buf, { self with buffer := some io2 })

/-- The method `readline`. -/
def BufferedByteStream_readline (self : BufferedByteStream) : Result (List Byte) :=
  match self.buffer with
  | none => (.error .ValueError, self)
  | some io =>
    let (buf, io1) := creadline io
    (.ok buf, { self with buffer := some io1 })

/-- The value a callee reads through the format `"i"`, a C `int`, from the
`long` it was handed: its low 32 bits, signed. -/
def int_of_long (v : Int) : Int :=
  if v % 4294967296 < 2147483648 then v % 4294967296 else v % 4294967296 - 4294967296

/-- The method `readlines(sizehint)`; `sizehint` is 0 when the argument is
omitted, and reaches the `readlines` of the storage through the format `"i"`. -/
def BufferedByteStream_readlines (self : BufferedByteStream) (obj_sizehint : Option Int) :
    Result (List (List Byte)) :=
  match self.buffer with
  | none => (.error .ValueError, self)
  | some io =>
    let sizehint : Int := match obj_sizehint with
      | none => 0
      | some v => v
    let (lines, io1) := IO_readlines io (int_of_long sizehint)
    (.ok lines, { self with buffer := some io1 })

/-- The method `write(obj)`, `obj` being a `str`. -/
def BufferedByteStream_write (self : BufferedByteStream) (obj : List Byte) : Result Unit :=
  match self.buffer with
  | none => (.error .ValueError, self)
  | some io => (.ok (), { self with buffer := some (cwrite io obj) })

/-- The method `writelines(iterable)`, the items being `str`. -/
def BufferedByteStream_writelines (self : BufferedByteStream) (iterable : List (List Byte)) :
    Result Unit :=
  match self.buffer with
  | none => (.error .ValueError, self)
  | some io => (.ok (), { self with buffer := some (O_writelines io iterable) })

/-- The method `getvalue`. -/
def BufferedByteStream_getvalue (self : BufferedByteStream) : Result (List Byte) :=
  match self.buffer with
  | none => (.error .ValueError, self)
  | some io => (.ok (IO_getval io), self)

/-- The method `truncate(size)`: the storage is dropped and `BufferedByteStream_init_`
called with no source; `obj_size` is not looked at. -/
def BufferedByteStream_truncate (self : BufferedByteStream) (_obj_size : Option Int) :
    Result Unit :=
  match self.buffer with
  | none => (.error .ValueError, self)
  | some _ =>
    let self1 : BufferedByteStream := { self with buffer := none }
    (.ok (), (BufferedByteStream_init_ self1 none 0).2.1)

/-- The method `flush`: the `flush` of the cStringIO output object does nothing. -/
def BufferedByteStream_flush (self : BufferedByteStream) : Result Unit :=
  match self.buffer with
  | none => (.error .ValueError, self)
  | some _ => (.ok (), self)

/-- The method `close`. -/
def BufferedByteStream_close (self : BufferedByteStream) : Result Unit :=
  match self.buffer with
  | some _ => (.ok (), { self with buffer := none })
  | none => (.ok (), self)

/-- The slot `BufferedByteStream___len__`: 0 on a closed stream, else `tell`,
`seek(0, 2)`, `tell`, `seek(cur_pos, 0)` and the end position. -/
def BufferedByteStream___len__ (self : BufferedByteStream) : Result Int :=
  match self.buffer with
  | none => (.ok 0, self)
  | some io =>
    let cur_pos : Int := (io.pos : Int)
    let io1 := O_seek io 0 2
    let end_pos : Int := (io1.pos : Int)
    let io2 := O_seek io1 cur_pos 0
    (.ok end_pos, { self with buffer := some io2 })

/-! ## Floats and text: the write side -/

/-- The method `write_float`.  The Python float `c` is given as the 64-bit
pattern `x` of its C `double`; `PyFloat_Pack4 x le` are the four bytes
`_PyFloat_Pack4` leaves in `buf`, and `stack` is what the local `buf` holds on
entry, written as it is when no `case` of the `switch` matches. -/
def BufferedByteStream_write_float (PyFloat_Pack4 : Nat → Bool → List Byte)
    (stack : List Byte) (self : BufferedByteStream) (x : Nat) : Result Unit :=
  match self.buffer with
  | none => (.error .ValueError, self)
  | some io =>
    let buf : List Byte :=
      if self.endian = ENDIAN_NATIVE then (List.range 4).map (ulong_mem x)
      else if self.endian = ENDIAN_NETWORK ∨ self.endian = ENDIAN_BIG then PyFloat_Pack4 x false
      else if self.endian = ENDIAN_LITTLE then PyFloat_Pack4 x true
      else stack
    (.ok (), { self with buffer := some (cwrite io (buf.take 4)) })

/-- The method `write_double`, with `PyFloat_Pack8` and `stack` as for
`write_float`. -/
def BufferedByteStream_write_double (PyFloat_Pack8 : Nat → Bool → List Byte)
    (stack : List Byte) (self : BufferedByteStream) (x : Nat) : Result Unit :=
  match self.buffer with
  | none => (.error .ValueError, self)
  | some io =>
    let buf : List Byte :=
      if self.endian = ENDIAN_NATIVE then (List.range 8).map (ulong_mem x)
      else if self.endian = ENDIAN_NETWORK ∨ self.endian = ENDIAN_BIG then PyFloat_Pack8 x false
      else if self.endian = ENDIAN_LITTLE then PyFloat_Pack8 x true
      else stack
    (.ok (), { self with buffer := some (cwrite io (buf.take 8)) })

/-- The argument of `write_utf8_string`: a `unicode` text, a `str`, or anything
else. -/
inductive TextObj where
  | unicode (t : String)
  | str (s : List Byte)
  | other
  deriving DecidableEq, Repr

/-- The UTF-8 bytes of one code point. -/
def utf8_encode_char (v : Nat) : List Byte :=
  if v ≤ 0x7F then [toByte v]
  else if v ≤ 0x7FF then [toByte (0xC0 + v / 64), toByte (0x80 + v % 64)]
  else if v ≤ 0xFFFF then
    [toByte (0xE0 + v / 4096), toByte (0x80 + v / 64 % 64), toByte (0x80 + v % 64)]
  else
    [toByte (0xF0 + v / 262144), toByte (0x80 + v / 4096 % 64), toByte (0x80 + v / 64 % 64),
      toByte (0x80 + v % 64)]

/-- Modelled from the spec: `PyUnicode_AsUTF8String` belongs to the host; it
encodes the text as UTF-8. -/
def PyUnicode_AsUTF8String (t : String) : List Byte :=
  t.data.flatMap (fun ch => utf8_encode_char ch.val.toNat)

/-- Modelled from the spec: `PyString_AsEncodedObject(s, "utf8", "strict")`
belongs to the host; a `str` is first decoded as ASCII, which fails on a byte
above 127, and then encoded as UTF-8, which leaves ASCII bytes as they are. -/
def PyString_AsEncodedObject (s : List Byte) : Except PyExc (List Byte) :=
  if s.all (fun b => b.val < 128) then .ok s else .error .UnicodeDecodeError

/-- The method `write_utf8_string`. -/
def BufferedByteStream_write_utf8_string (self : BufferedByteStream) (s : TextObj) :
    Result Unit :=
  match self.buffer with
  | none => (.error .ValueError, self)
  | some io =>
    match s with
    | .unicode t =>
      (.ok (), { self with buffer := some (cwrite io (PyUnicode_AsUTF8String t)) })
    | .str b =>
      match PyString_AsEncodedObject b with
      | .error e => (.error e, self)
      | .ok encoded => (.ok (), { self with buffer := some (cwrite io encoded) })
    | .other => (.error .TypeError, self)

/-- The contents and cursor of an open stream built directly from its parts. -/
def open_stream (endian : Char) (buf : List Byte) (pos : Nat) : BufferedByteStream :=
  { buffer := some { buf := buf, pos := pos }, endian := endian }

/-! ## Concatenation -/

/-- The right operand of `+`: the left operand itself (`A + A`), another open
stream given by its storage and byte order, or an object that is not a stream. -/
inductive AddObj where
  | same
  | stream (io : Oobject) (endian : Char)
  | not_a_stream
  deriving DecidableEq, Repr

/-- The storage of a source stream after `BufferedByteStream_init_`. -/
def source_storage (src : Option BufObj) (dflt : Oobject) : Oobject :=
  match src with
  | some (.stream io _) => io
  | _ => dflt

/-- The slot `BufferedByteStream___add__` with an open left operand, given by its
storage and byte order (on a closed operand `cread` would be handed `NULL`).
The result carries the new stream or the exception, the storage of the left
operand after the call and the right operand after the call. -/
def BufferedByteStream___add__ (self_io : Oobject) (self_endian : Char) (other : AddObj) :
    Except PyExc BufferedByteStream × Oobject × AddObj :=
  let new0 : BufferedByteStream := { buffer := some (NewOutput 128), endian := self_endian }
  match other with
  | .not_a_stream => (.error .ValueError, self_io, .not_a_stream)
  | .same =>
    let r1 := BufferedByteStream_init_ new0 (some (.stream self_io self_endian)) 0
    let self1 := source_storage r1.2.2 self_io
    let r2 := BufferedByteStream_init_ r1.2.1 (some (.stream self1 self_endian)) 1
    let self2 := source_storage r2.2.2 self1
    (.ok (BufferedByteStream_seek r2.2.1 0 none).2, self2, .same)
  | .stream o_io o_endian =>
    let r1 := BufferedByteStream_init_ new0 (some (.stream self_io self_endian)) 0
    let self1 := source_storage r1.2.2 self_io
    let r2 := BufferedByteStream_init_ r1.2.1 (some (.stream o_io o_endian)) 1
    let o1 := source_storage r2.2.2 o_io
    (.ok (BufferedByteStream_seek r2.2.1 0 none).2, self1, .stream o1 o_endian)

/-! ## Sequences of operations -/

/-- The public operations of a stream.  The typed integer writes carry the fuel
given to the pack loop; `add` continues with the sum `self + other`, `radd`
with the sum `other + self`. -/
inductive Op where
  | seek (pos : Int) (mode : Int)
  | read (n : Option Int)
  | peek (size : Option Int)
  | write (b : List Byte)
  | read_uchar
  | read_char
  | read_ushort
  | read_short
  | read_ulong
  | read_long (stale : List Byte)
  | read_float
  | read_double
  | read_utf8_string (len : Int)
  | write_uchar (v : Int)
  | write_char (v : Int)
  | write_ushort (fuel : Nat) (v : Int)
  | write_short (fuel : Nat) (v : Int)
  | write_ulong (fuel : Nat) (v : Int)
  | write_long (fuel : Nat) (v : Int)
  | write_float (pack : Nat → Bool → List Byte) (stack : List Byte) (x : Nat)
  | write_double (pack : Nat → Bool → List Byte) (stack : List Byte) (x : Nat)
  | write_utf8_string (s : TextObj)
  | truncate (size : Option Int)
  | add (other : AddObj)
  | radd (io : Oobject) (endian : Char)
  | readline
  | readlines (sizehint : Option Int)
  | writelines (lines : List (List Byte))
  | tell
  | getvalue
  | remaining
  | at_eof
  | len
  | flush
  | close

/-- The stream one goes on with after a call that has returned (a typed write
that has not returned within its fuel, and a sum that raised or whose operand
is closed, leave the stream one had). -/
def apply_op (op : Op) (s : BufferedByteStream) : BufferedByteStream :=
  match op with
  | .seek pos mode => (BufferedByteStream_seek s pos (some mode)).2
  | .read n => (BufferedByteStream_read s n).2
  | .peek size => (BufferedByteStream_peek s size).2
  | .write b => (BufferedByteStream_write s b).2
  | .read_uchar => (BufferedByteStream_read_uchar s).2
  | .read_char => (BufferedByteStream_read_char s).2
  | .read_ushort => (BufferedByteStream_read_ushort s).2
  | .read_short => (BufferedByteStream_read_short s).2
  | .read_ulong => (BufferedByteStream_read_ulong s).2
  | .read_long stale => (BufferedByteStream_read_long s stale).2
  | .read_float => (BufferedByteStream_read_float s).2
  | .read_double => (BufferedByteStream_read_double s).2
  | .read_utf8_string len => (BufferedByteStream_read_utf8_string s len).2
  | .write_uchar v => (BufferedByteStream_write_uchar s v).2
  | .write_char v => (BufferedByteStream_write_char s v).2
  | .write_ushort fuel v => ((BufferedByteStream_write_ushort fuel s v).map Prod.snd).getD s
  | .write_short fuel v => ((BufferedByteStream_write_short fuel s v).map Prod.snd).getD s
  | .write_ulong fuel v => ((BufferedByteStream_write_ulong fuel s v).map Prod.snd).getD s
  | .write_long fuel v => ((BufferedByteStream_write_long fuel s v).map Prod.snd).getD s
  | .write_float pack stack x => (BufferedByteStream_write_float pack stack s x).2
  | .write_double pack stack x => (BufferedByteStream_write_double pack stack s x).2
  | .write_utf8_string t => (BufferedByteStream_write_utf8_string s t).2
  | .truncate size => (BufferedByteStream_truncate s size).2
  | .add other =>
    match s.buffer with
    | none => s
    | some io =>
      match (BufferedByteStream___add__ io s.endian other).1 with
      | .ok sum => sum
      | .error _ => s
  | .radd io endian =>
    match s.buffer with
    | none => s
    | some self_io =>
      match (BufferedByteStream___add__ io endian (.stream self_io s.endian)).1 with
      | .ok sum => sum
      | .error _ => s
  | .readline => (BufferedByteStream_readline s).2
  | .readlines sizehint => (BufferedByteStream_readlines s sizehint).2
  | .writelines lines => (BufferedByteStream_writelines s lines).2
  | .tell => (BufferedByteStream_tell s).2
  | .getvalue => (BufferedByteStream_getvalue s).2
  | .remaining => (BufferedByteStream_remaining s).2
  | .at_eof => (BufferedByteStream_at_eof s).2
  | .len => (BufferedByteStream___len__ s).2
  | .flush => (BufferedByteStream_flush s).2
  | .close => (BufferedByteStream_close s).2

/-- The stream after a sequence of operations. -/
def run : List Op → BufferedByteStream → BufferedByteStream
  | [], s => s
  | op :: ops, s => run ops (apply_op op s)

/-- The position `seek(pos, mode)` aims at, before a negative one is clamped. -/
def seek_target (io : Oobject) (pos mode : Int) : Int :=
  if mode = 2 then pos + (io.buf.length : Int)
  else if mode = 1 then pos + (io.pos : Int)
  else pos

/-- The operation is not a `seek` aiming beyond the end of the contents. -/
def within_end (op : Op) (s : BufferedByteStream) : Prop :=
  match op, s.buffer with
  | .seek pos mode, some io => seek_target io pos mode ≤ (io.buf.length : Int)
  | _, _ => True

/-- No `seek` of the sequence aims beyond the end the contents have when it is
issued. -/
def seeks_within_end : List Op → BufferedByteStream → Prop
  | [], _ => True
  | op :: ops, s => within_end op s ∧ seeks_within_end ops (apply_op op s)

/-- The cursor invariant `0 <= position <= length` of an open stream. -/
def cursor_ok (s : BufferedByteStream) : Prop :=
  match s.buffer with
  | none => True
  | some io => io.pos ≤ io.buf.length

/-- A closed stream: `self->buffer` is `NULL`. -/
def closed_stream (endian : Char) : BufferedByteStream :=
  { buffer := none, endian := endian }

/-- The bytes of a value in the byte order `e`, given least significant first:
most significant first under `ENDIAN_BIG` and `ENDIAN_NETWORK`, as given
otherwise. -/
def ordered (e : Char) (le : List Byte) : List Byte :=
  if e = ENDIAN_BIG ∨ e = ENDIAN_NETWORK then le.reverse else le

/-- The storage `io1` is what a write of exactly `n` bytes at the cursor `pos`
leaves of the contents `buf`: the cursor has advanced by `n`, the length is the
greater of the old length and the new cursor, and every offset outside
`[pos, pos + n)` reads as before (an offset in a gap past the old end reads as
zero). -/
def stored_at (buf : List Byte) (pos n : Nat) (io1 : Oobject) : Prop :=
  io1.pos = pos + n ∧
  io1.buf.length = max buf.length (pos + n) ∧
  (∀ j, j < pos → io1.buf.getD j 0 = buf.getD j 0) ∧
  (∀ j, pos + n ≤ j → io1.buf[j]? = buf[j]?)

/-! ## Auxiliary facts -/

theorem endian_cases {e : Char} (h : e = ENDIAN_BIG ∨ e = ENDIAN_NETWORK ∨ e = ENDIAN_LITTLE) :
    (e = ENDIAN_BIG ∨ e = ENDIAN_NETWORK) ∨
      (¬ (e = ENDIAN_BIG ∨ e = ENDIAN_NETWORK) ∧ e = ENDIAN_LITTLE) := by
  rcases h with h | h | h
  · exact Or.inl (Or.inl h)
  · exact Or.inl (Or.inr h)
  · subst h
    exact Or.inr ⟨by decide, rfl⟩

theorem pack_uint_loop_done (e : Char) (nb fuel x : Nat) (buf : List Byte) :
    pack_uint_loop e nb fuel x 0 buf = some buf := by
  cases fuel <;> simp [pack_uint_loop]

theorem pack_int_loop_done (e : Char) (nb fuel : Nat) (x : Int) (buf : List Byte) :
    pack_int_loop e nb fuel x 0 buf = some buf := by
  cases fuel <;> simp [pack_int_loop]

theorem pack_uint_loop_big2 {e : Char} (he : e = ENDIAN_BIG ∨ e = ENDIAN_NETWORK)
    {fuel : Nat} (hf : 2 ≤ fuel) (x : Nat) :
    pack_uint_loop e 2 fuel x 2 (List.replicate 2 0) = some [toByte (x / 256), toByte x] := by
  obtain ⟨f, rfl⟩ := Nat.exists_eq_add_of_le' hf
  simp [pack_uint_loop, if_pos he, pack_uint_loop_done, List.replicate,
    Nat.shiftRight_eq_div_pow]

theorem pack_uint_loop_little2 {e : Char} (hb : ¬ (e = ENDIAN_BIG ∨ e = ENDIAN_NETWORK))
    (he : e = ENDIAN_LITTLE) {fuel : Nat} (hf : 2 ≤ fuel) (x : Nat) :
    pack_uint_loop e 2 fuel x 2 (List.replicate 2 0) = some [toByte x, toByte (x / 256)] := by
  obtain ⟨f, rfl⟩ := Nat.exists_eq_add_of_le' hf
  simp [pack_uint_loop, if_neg hb, if_pos he, pack_uint_loop_done, List.replicate,
    Nat.shiftRight_eq_div_pow]

theorem pack_uint_loop_big4 {e : Char} (he : e = ENDIAN_BIG ∨ e = ENDIAN_NETWORK)
    {fuel : Nat} (hf : 4 ≤ fuel) (x : Nat) :
    pack_uint_loop e 4 fuel x 4 (List.replicate 4 0)
      = some [toByte (x / 256 / 256 / 256), toByte (x / 256 / 256), toByte (x / 256),
          toByte x] := by
  obtain ⟨f, rfl⟩ := Nat.exists_eq_add_of_le' hf
  simp [pack_uint_loop, if_pos he, pack_uint_loop_done, List.replicate,
    Nat.shiftRight_eq_div_pow]

theorem pack_uint_loop_little4 {e : Char} (hb : ¬ (e = ENDIAN_BIG ∨ e = ENDIAN_NETWORK))
    (he : e = ENDIAN_LITTLE) {fuel : Nat} (hf : 4 ≤ fuel) (x : Nat) :
    pack_uint_loop e 4 fuel x 4 (List.replicate 4 0)
      = some [toByte x, toByte (x / 256), toByte (x / 256 / 256),
          toByte (x / 256 / 256 / 256)] := by
  obtain ⟨f, rfl⟩ := Nat.exists_eq_add_of_le' hf
  simp [pack_uint_loop, if_neg hb, if_pos he, pack_uint_loop_done, List.replicate,
    Nat.shiftRight_eq_div_pow]

theorem shiftRight_eight (x : Int) : x >>> (8 : Nat) = x / 256 := by
  rw [Int.shiftRight_eq_div_pow]
  norm_num

theorem pack_int_loop_big2 {e : Char} (he : e = ENDIAN_BIG ∨ e = ENDIAN_NETWORK)
    {fuel : Nat} (hf : 2 ≤ fuel) (x : Int) :
    pack_int_loop e 2 fuel x 2 (List.replicate 2 0)
      = some [long_mem (x / 256) 0, long_mem x 0] := by
  obtain ⟨f, rfl⟩ := Nat.exists_eq_add_of_le' hf
  simp [pack_int_loop, if_pos he, pack_int_loop_done, List.replicate, shiftRight_eight]

theorem pack_int_loop_little2 {e : Char} (hb : ¬ (e = ENDIAN_BIG ∨ e = ENDIAN_NETWORK))
    (he : e = ENDIAN_LITTLE) {fuel : Nat} (hf : 2 ≤ fuel) (x : Int) :
    pack_int_loop e 2 fuel x 2 (List.replicate 2 0)
      = some [long_mem x 0, long_mem (x / 256) 0] := by
  obtain ⟨f, rfl⟩ := Nat.exists_eq_add_of_le' hf
  simp [pack_int_loop, if_neg hb, if_pos he, pack_int_loop_done, List.replicate, shiftRight_eight]

theorem pack_int_loop_big4 {e : Char} (he : e = ENDIAN_BIG ∨ e = ENDIAN_NETWORK)
    {fuel : Nat} (hf : 4 ≤ fuel) (x : Int) :
    pack_int_loop e 4 fuel x 4 (List.replicate 4 0)
      = some [long_mem (x / 256 / 256 / 256) 0, long_mem (x / 256 / 256) 0,
          long_mem (x / 256) 0, long_mem x 0] := by
  obtain ⟨f, rfl⟩ := Nat.exists_eq_add_of_le' hf
  simp [pack_int_loop, if_pos he, pack_int_loop_done, List.replicate, shiftRight_eight]

theorem pack_int_loop_little4 {e : Char} (hb : ¬ (e = ENDIAN_BIG ∨ e = ENDIAN_NETWORK))
    (he : e = ENDIAN_LITTLE) {fuel : Nat} (hf : 4 ≤ fuel) (x : Int) :
    pack_int_loop e 4 fuel x 4 (List.replicate 4 0)
      = some [long_mem x 0, long_mem (x / 256) 0, long_mem (x / 256 / 256) 0,
          long_mem (x / 256 / 256 / 256) 0] := by
  obtain ⟨f, rfl⟩ := Nat.exists_eq_add_of_le' hf
  simp [pack_int_loop, if_neg hb, if_pos he, pack_int_loop_done, List.replicate, shiftRight_eight]

theorem long_mem_zero (x : Int) : long_mem x 0 = toByte (x % 256).toNat := by
  apply Fin.ext
  simp only [long_mem, toByte, long_bits, ULONG_MOD, SIZEOF_LONG]
  norm_num
  omega

theorem shl_or (x : Nat) (b : Byte) (hx : x < 2 ^ 56) :
    ((x <<< 8) % ULONG_MOD) ||| b.val = x * 256 + b.val := by
  have hb : b.val < 2 ^ 8 := b.isLt
  have hlt : x * 2 ^ 8 < ULONG_MOD := by
    simp only [ULONG_MOD, SIZEOF_LONG]
    omega
  rw [Nat.shiftLeft_eq, Nat.mod_eq_of_lt hlt, Nat.mul_comm x (2 ^ 8),
    ← Nat.mul_add_lt_is_or hb x]
  omega

theorem unpack_loop_big2 {e : Char} (he : e = ENDIAN_BIG ∨ e = ENDIAN_NETWORK)
    (b0 b1 : Byte) (rest : List Byte) :
    unpack_loop e 2 0 (b0 :: b1 :: rest) = b0.val * 256 + b1.val := by
  have h0 := b0.isLt
  simp only [unpack_loop, if_pos he, List.getD_cons_zero, List.drop_succ_cons, List.drop_zero]
  rw [shl_or 0 b0 (by norm_num), shl_or _ b1 (by omega)]
  omega

theorem unpack_loop_little2 {e : Char} (hb : ¬ (e = ENDIAN_BIG ∨ e = ENDIAN_NETWORK))
    (b0 b1 : Byte) (rest : List Byte) :
    unpack_loop e 2 0 (b0 :: b1 :: rest) = b1.val * 256 + b0.val := by
  have h1 := b1.isLt
  simp only [unpack_loop, if_neg hb, List.getD_cons_zero, List.getD_cons_succ]
  rw [shl_or 0 b1 (by norm_num), shl_or _ b0 (by omega)]
  omega

theorem unpack_loop_big4 {e : Char} (he : e = ENDIAN_BIG ∨ e = ENDIAN_NETWORK)
    (b0 b1 b2 b3 : Byte) (rest : List Byte) :
    unpack_loop e 4 0 (b0 :: b1 :: b2 :: b3 :: rest)
      = b0.val * 256 ^ 3 + b1.val * 256 ^ 2 + b2.val * 256 + b3.val := by
  have h0 := b0.isLt
  have h1 := b1.isLt
  have h2 := b2.isLt
  simp only [unpack_loop, if_pos he, List.getD_cons_zero, List.drop_succ_cons, List.drop_zero]
  rw [shl_or 0 b0 (by norm_num), shl_or _ b1 (by omega), shl_or _ b2 (by omega),
    shl_or _ b3 (by omega)]
  omega

theorem unpack_loop_little4 {e : Char} (hb : ¬ (e = ENDIAN_BIG ∨ e = ENDIAN_NETWORK))
    (b0 b1 b2 b3 : Byte) (rest : List Byte) :
    unpack_loop e 4 0 (b0 :: b1 :: b2 :: b3 :: rest)
      = b3.val * 256 ^ 3 + b2.val * 256 ^ 2 + b1.val * 256 + b0.val := by
  have h1 := b1.isLt
  have h2 := b2.isLt
  have h3 := b3.isLt
  simp only [unpack_loop, if_neg hb, List.getD_cons_zero, List.getD_cons_succ]
  rw [shl_or 0 b3 (by norm_num), shl_or _ b2 (by omega), shl_or _ b1 (by omega),
    shl_or _ b0 (by omega)]
  omega

theorem ordered_length (e : Char) (le : List Byte) : (ordered e le).length = le.length := by
  unfold ordered
  split <;> simp

theorem pack_uint_two {e : Char}
    (he : e = ENDIAN_BIG ∨ e = ENDIAN_NETWORK ∨ e = ENDIAN_LITTLE) {fuel : Nat}
    (hf : 2 ≤ fuel) (io : Oobject) {x : Nat} (hx : x < 65536) :
    pack_uint fuel e io x 2
      = some (.ok (cwrite io (ordered e [toByte x, toByte (x / 256)]))) := by
  have hov : ¬ (2 ≠ SIZEOF_LONG ∧ x ≥ (1 <<< (2 * 8)) % ULONG_MOD) := by
    simp only [ULONG_MOD, SIZEOF_LONG]
    norm_num
    omega
  rcases endian_cases he with h | ⟨hb, h⟩
  · rw [pack_uint, if_neg hov, pack_uint_loop_big2 h hf]
    simp [ordered, if_pos h]
  · rw [pack_uint, if_neg hov, pack_uint_loop_little2 hb h hf]
    simp [ordered, if_neg hb]

theorem pack_uint_four {e : Char}
    (he : e = ENDIAN_BIG ∨ e = ENDIAN_NETWORK ∨ e = ENDIAN_LITTLE) {fuel : Nat}
    (hf : 4 ≤ fuel) (io : Oobject) {x : Nat} (hx : x < 4294967296) :
    pack_uint fuel e io x 4
      = some (.ok (cwrite io (ordered e
          [toByte x, toByte (x / 256), toByte (x / 256 / 256),
            toByte (x / 256 / 256 / 256)]))) := by
  have hov : ¬ (4 ≠ SIZEOF_LONG ∧ x ≥ (1 <<< (4 * 8)) % ULONG_MOD) := by
    simp only [ULONG_MOD, SIZEOF_LONG]
    norm_num
    omega
  rcases endian_cases he with h | ⟨hb, h⟩
  · rw [pack_uint, if_neg hov, pack_uint_loop_big4 h hf]
    simp [ordered, if_pos h]
  · rw [pack_uint, if_neg hov, pack_uint_loop_little4 hb h hf]
    simp [ordered, if_neg hb]

theorem pack_int_two {e : Char}
    (he : e = ENDIAN_BIG ∨ e = ENDIAN_NETWORK ∨ e = ENDIAN_LITTLE) {fuel : Nat}
    (hf : 2 ≤ fuel) (io : Oobject) {x : Int} (hlo : -32768 ≤ x) (hhi : x < 32768) :
    pack_int fuel e io x 2
      = some (.ok (cwrite io (ordered e
          [toByte (x % 256).toNat, toByte (x / 256 % 256).toNat]))) := by
  have hov : ¬ (2 ≠ SIZEOF_LONG ∧
      (x ≥ long_of_bits (1 <<< (2 * 8 - 1)) ∨ x < -long_of_bits (1 <<< (2 * 8 - 1)))) := by
    simp only [long_of_bits, ULONG_MOD, SIZEOF_LONG]
    norm_num
    omega
  rcases endian_cases he with h | ⟨hb, h⟩
  · simp only [pack_int]
    rw [if_neg hov, pack_int_loop_big2 h hf]
    simp [ordered, if_pos h, long_mem_zero]
  · simp only [pack_int]
    rw [if_neg hov, pack_int_loop_little2 hb h hf]
    simp [ordered, if_neg hb, long_mem_zero]

theorem pack_int_four {e : Char}
    (he : e = ENDIAN_BIG ∨ e = ENDIAN_NETWORK ∨ e = ENDIAN_LITTLE) {fuel : Nat}
    (hf : 4 ≤ fuel) (io : Oobject) {x : Int} (hlo : -2147483648 ≤ x)
    (hhi : x < 2147483648) :
    pack_int fuel e io x 4
      = some (.ok (cwrite io (ordered e
          [toByte (x % 256).toNat, toByte (x / 256 % 256).toNat,
            toByte (x / 256 / 256 % 256).toNat,
            toByte (x / 256 / 256 / 256 % 256).toNat]))) := by
  have hov : ¬ (4 ≠ SIZEOF_LONG ∧
      (x ≥ long_of_bits (1 <<< (4 * 8 - 1)) ∨ x < -long_of_bits (1 <<< (4 * 8 - 1)))) := by
    simp only [long_of_bits, ULONG_MOD, SIZEOF_LONG]
    norm_num
    omega
  rcases endian_cases he with h | ⟨hb, h⟩
  · simp only [pack_int]
    rw [if_neg hov, pack_int_loop_big4 h hf]
    simp [ordered, if_pos h, long_mem_zero]
  · simp only [pack_int]
    rw [if_neg hov, pack_int_loop_little4 hb h hf]
    simp [ordered, if_neg hb, long_mem_zero]

theorem unpack_loop_two (e : Char) (b0 b1 : Byte) (rest : List Byte) :
    unpack_loop e 2 0 (ordered e [b0, b1] ++ rest) = b1.val * 256 + b0.val := by
  by_cases h : e = ENDIAN_BIG ∨ e = ENDIAN_NETWORK
  · simp [ordered, if_pos h, unpack_loop_big2 h]
  · simp [ordered, if_neg h, unpack_loop_little2 h]

theorem unpack_loop_four (e : Char) (b0 b1 b2 b3 : Byte) (rest : List Byte) :
    unpack_loop e 4 0 (ordered e [b0, b1, b2, b3] ++ rest)
      = b3.val * 256 ^ 3 + b2.val * 256 ^ 2 + b1.val * 256 + b0.val := by
  by_cases h : e = ENDIAN_BIG ∨ e = ENDIAN_NETWORK
  · simp [ordered, if_pos h, unpack_loop_big4 h]
  · simp [ordered, if_neg h, unpack_loop_little4 h]

theorem cwrite_split (io : Oobject) (c : List Byte) :
    ∃ pre post, pre.length = io.pos ∧ (cwrite io c).buf = pre ++ c ++ post := by
  refine ⟨(io.buf ++ List.replicate (io.pos - io.buf.length) (0 : Byte)).take io.pos,
    (io.buf ++ List.replicate (io.pos - io.buf.length) (0 : Byte)).drop (io.pos + c.length),
    ?_, rfl⟩
  simp
  omega

theorem cread_exact (pre c post : List Byte) :
    cread { buf := pre ++ c ++ post, pos := pre.length } (c.length : Int)
      = (c, { buf := pre ++ c ++ post, pos := pre.length + c.length }) := by
  have h : ¬ ((c.length : Int) < 0 ∨
      (c.length : Int) > ((pre ++ c ++ post).length : Int) - (pre.length : Int)) := by
    simp
  simp only [cread, if_neg h]
  simp [List.take_left']

theorem cread_after_cwrite (io : Oobject) (c : List Byte) :
    cread { buf := (cwrite io c).buf, pos := io.pos } (c.length : Int) = (c, cwrite io c) := by
  obtain ⟨pre, post, hlen, hbuf⟩ := cwrite_split io c
  have hpos : (cwrite io c).pos = io.pos + c.length := rfl
  have hw : cwrite io c = { buf := pre ++ c ++ post, pos := pre.length + c.length } := by
    cases hc : cwrite io c with
    | mk b p =>
      rw [hc] at hbuf hpos
      simp only at hbuf hpos
      rw [hbuf, hpos, hlen]
  rw [hbuf, ← hlen, cread_exact, hw]

theorem cread_back (io : Oobject) (c : List Byte) (n : Int) (hn : n = (c.length : Int)) :
    cread { buf := (cwrite io c).buf, pos := io.pos } n = (c, cwrite io c) := by
  subst hn
  exact cread_after_cwrite io c

theorem seek_back (e : Char) (io : Oobject) (c : List Byte) :
    BufferedByteStream_seek { buffer := some (cwrite io c), endian := e } (io.pos : Int) none
      = (.ok (), { buffer := some { buf := (cwrite io c).buf, pos := io.pos }, endian := e }) := by
  have h : ¬ ((io.pos : Int) < 0) := by omega
  simp [BufferedByteStream_seek, O_seek, if_neg h]

theorem get_ulong_ok {v : Int} (h0 : 0 ≤ v) (h1 : v < 18446744073709551616) :
    get_ulong v = .ok v.toNat := by
  have h : ¬ (v < 0 ∨ v ≥ (ULONG_MOD : Int)) := by
    simp only [ULONG_MOD, SIZEOF_LONG]
    norm_num
    omega
  rw [get_ulong, if_neg h]

theorem get_long_ok {v : Int} (h0 : -9223372036854775808 ≤ v) (h1 : v < 9223372036854775808) :
    get_long v = .ok v := by
  have h : ¬ (v < LONG_MIN ∨ v > LONG_MAX) := by
    simp only [LONG_MIN, LONG_MAX, SIZEOF_LONG]
    norm_num
    omega
  rw [get_long, if_neg h]

theorem write_uchar_ok (e : Char) (io : Oobject) {v : Int} (h0 : 0 ≤ v) (h1 : v < 256) :
    BufferedByteStream_write_uchar { buffer := some io, endian := e } v
      = (.ok (), { buffer := some (cwrite io [toByte v.toNat]), endian := e }) := by
  have hv : ¬ (v.toNat > 255) := by omega
  simp only [BufferedByteStream_write_uchar, get_ulong_ok h0 (by omega), if_neg hv, ulong_mem]
  simp

theorem write_char_ok (e : Char) (io : Oobject) {v : Int} (h0 : -128 ≤ v) (h1 : v < 128) :
    BufferedByteStream_write_char { buffer := some io, endian := e } v
      = (.ok (), { buffer := some (cwrite io [toByte (v % 256).toNat]), endian := e }) := by
  have hv : ¬ (v < -128 ∨ v > 127) := by omega
  simp only [BufferedByteStream_write_char, get_long_ok (by omega : -9223372036854775808 ≤ v)
    (by omega), if_neg hv, long_mem_zero]

theorem write_ushort_ok {e : Char}
    (he : e = ENDIAN_BIG ∨ e = ENDIAN_NETWORK ∨ e = ENDIAN_LITTLE) {fuel : Nat}
    (hf : 2 ≤ fuel) (io : Oobject) {v : Int} (h0 : 0 ≤ v) (h1 : v < 65536) :
    BufferedByteStream_write_ushort fuel { buffer := some io, endian := e } v
      = some (.ok (), { buffer := some (cwrite io (ordered e
          [toByte v.toNat, toByte (v.toNat / 256)])), endian := e }) := by
  have hv : ¬ (v.toNat > 65535) := by omega
  simp only [BufferedByteStream_write_ushort, get_ulong_ok h0 (by omega), if_neg hv,
    pack_uint_two he hf io (by omega : v.toNat < 65536)]

theorem write_ulong_ok {e : Char}
    (he : e = ENDIAN_BIG ∨ e = ENDIAN_NETWORK ∨ e = ENDIAN_LITTLE) {fuel : Nat}
    (hf : 4 ≤ fuel) (io : Oobject) {v : Int} (h0 : 0 ≤ v) (h1 : v < 4294967296) :
    BufferedByteStream_write_ulong fuel { buffer := some io, endian := e } v
      = some (.ok (), { buffer := some (cwrite io (ordered e
          [toByte v.toNat, toByte (v.toNat / 256), toByte (v.toNat / 256 / 256),
            toByte (v.toNat / 256 / 256 / 256)])), endian := e }) := by
  simp only [BufferedByteStream_write_ulong, get_ulong_ok h0 (by omega),
    pack_uint_four he hf io (by omega : v.toNat < 4294967296)]

theorem write_short_ok {e : Char}
    (he : e = ENDIAN_BIG ∨ e = ENDIAN_NETWORK ∨ e = ENDIAN_LITTLE) {fuel : Nat}
    (hf : 2 ≤ fuel) (io : Oobject) {v : Int} (h0 : -32768 ≤ v) (h1 : v < 32768) :
    BufferedByteStream_write_short fuel { buffer := some io, endian := e } v
      = some (.ok (), { buffer := some (cwrite io (ordered e
          [toByte (v % 256).toNat, toByte (v / 256 % 256).toNat])), endian := e }) := by
  have hv : ¬ (v < -32768 ∨ v > 32767) := by omega
  simp only [BufferedByteStream_write_short, get_long_ok (by omega : -9223372036854775808 ≤ v)
    (by omega), if_neg hv, pack_int_two he hf io h0 h1]

theorem write_long_ok {e : Char}
    (he : e = ENDIAN_BIG ∨ e = ENDIAN_NETWORK ∨ e = ENDIAN_LITTLE) {fuel : Nat}
    (hf : 4 ≤ fuel) (io : Oobject) {v : Int} (h0 : -2147483648 ≤ v) (h1 : v < 2147483648) :
    BufferedByteStream_write_long fuel { buffer := some io, endian := e } v
      = some (.ok (), { buffer := some (cwrite io (ordered e
          [toByte (v % 256).toNat, toByte (v / 256 % 256).toNat,
            toByte (v / 256 / 256 % 256).toNat,
            toByte (v / 256 / 256 / 256 % 256).toNat])), endian := e }) := by
  simp only [BufferedByteStream_write_long, get_long_ok (by omega : -9223372036854775808 ≤ v)
    (by omega), pack_int_four he hf io h0 h1]

theorem unpack_uint_two (e : Char) (b0 b1 : Byte) :
    unpack_uint e (ordered e [b0, b1]) 2 = ((b1.val * 256 + b0.val : Nat) : Int) := by
  have h := unpack_loop_two e b0 b1 []
  rw [List.append_nil] at h
  rw [unpack_uint, h]

theorem unpack_uint_four (e : Char) (b0 b1 b2 b3 : Byte) :
    unpack_uint e (ordered e [b0, b1, b2, b3]) 4
      = ((b3.val * 256 ^ 3 + b2.val * 256 ^ 2 + b1.val * 256 + b0.val : Nat) : Int) := by
  have h := unpack_loop_four e b0 b1 b2 b3 []
  rw [List.append_nil] at h
  rw [unpack_uint, h]

theorem read_uchar_back (e : Char) (io : Oobject) (b : Byte) :
    BufferedByteStream_read_uchar
        { buffer := some { buf := (cwrite io [b]).buf, pos := io.pos }, endian := e }
      = (.ok (b.val : Int), { buffer := some (cwrite io [b]), endian := e }) := by
  simp [BufferedByteStream_read_uchar, cread_back io [b] 1 (by simp)]

theorem read_char_back (e : Char) (io : Oobject) (b : Byte) :
    BufferedByteStream_read_char
        { buffer := some { buf := (cwrite io [b]).buf, pos := io.pos }, endian := e }
      = (.ok (char_value b), { buffer := some (cwrite io [b]), endian := e }) := by
  simp [BufferedByteStream_read_char, cread_back io [b] 1 (by simp)]

theorem read_ushort_back (e : Char) (io : Oobject) (c : List Byte) (hc : c.length = 2) :
    BufferedByteStream_read_ushort
        { buffer := some { buf := (cwrite io c).buf, pos := io.pos }, endian := e }
      = (.ok (unpack_uint e c 2), { buffer := some (cwrite io c), endian := e }) := by
  simp [BufferedByteStream_read_ushort, cread_back io c 2 (by simp [hc]), hc]

theorem read_short_back (e : Char) (io : Oobject) (c : List Byte) (hc : c.length = 2) :
    BufferedByteStream_read_short
        { buffer := some { buf := (cwrite io c).buf, pos := io.pos }, endian := e }
      = (.ok (unpack_int e c 2), { buffer := some (cwrite io c), endian := e }) := by
  simp [BufferedByteStream_read_short, cread_back io c 2 (by simp [hc]), hc]

theorem read_ulong_back (e : Char) (io : Oobject) (c : List Byte) (hc : c.length = 4) :
    BufferedByteStream_read_ulong
        { buffer := some { buf := (cwrite io c).buf, pos := io.pos }, endian := e }
      = (.ok (unpack_uint e c 4), { buffer := some (cwrite io c), endian := e }) := by
  simp [BufferedByteStream_read_ulong, cread_back io c 4 (by simp [hc]), hc]

theorem read_long_back (e : Char) (io : Oobject) (c stale : List Byte) (hc : c.length = 4) :
    BufferedByteStream_read_long
        { buffer := some { buf := (cwrite io c).buf, pos := io.pos }, endian := e } stale
      = (.ok (unpack_int e (c ++ stale) 4), { buffer := some (cwrite io c), endian := e }) := by
  simp [BufferedByteStream_read_long, cread_back io c 4 (by simp [hc])]

theorem or_high (k a lo : Nat) (hlo : lo < 2 ^ k)
    (h2 : 2 ^ k * 1 ||| 2 ^ k * a = 2 ^ k * a) :
    (2 ^ k + lo) ||| (2 ^ k * a) = 2 ^ k * a + lo := by
  have h1 : 2 ^ k + lo = 2 ^ k * 1 ||| lo := by
    rw [← Nat.mul_add_lt_is_or hlo 1]
    omega
  rw [h1, Nat.or_comm (2 ^ k * 1) lo, Nat.or_assoc, h2, Nat.or_comm,
    ← Nat.mul_add_lt_is_or hlo a]

theorem sign_or (k a x : Nat) (hx : x < 2 ^ (k + 1))
    (h2 : 2 ^ k * 1 ||| 2 ^ k * a = 2 ^ k * a) :
    x ||| ((2 ^ k * (a + 1) - (x &&& 2 ^ k)) % (2 ^ k * (a + 1)))
      = if x < 2 ^ k then x else 2 ^ k * a + (x - 2 ^ k) := by
  have hpos : 0 < 2 ^ k := Nat.pow_pos (by decide)
  have hpow : 2 ^ (k + 1) = 2 * 2 ^ k := by
    rw [Nat.pow_succ]
    omega
  rw [Nat.and_two_pow, Nat.testBit_to_div_mod]
  by_cases h : x < 2 ^ k
  · have hd : x / 2 ^ k = 0 := Nat.div_eq_of_lt h
    simp [hd, h]
  · have hd : x / 2 ^ k = 1 := by
      apply Nat.div_eq_of_lt_le <;> omega
    have hsub : 2 ^ k * (a + 1) - 2 ^ k = 2 ^ k * a := by
      rw [Nat.mul_add, Nat.mul_one]
      omega
    have hlt : 2 ^ k * a < 2 ^ k * (a + 1) := by
      rw [Nat.mul_add, Nat.mul_one]
      omega
    simp only [hd, if_neg h]
    simp only [Nat.one_mod, decide_True, Bool.toNat_true, Nat.one_mul, hsub,
      Nat.mod_eq_of_lt hlt]
    have hxe : x = 2 ^ k + (x - 2 ^ k) := by omega
    conv_lhs => rw [hxe]
    exact or_high k a (x - 2 ^ k) (by omega) h2

/-- The sign extension of `unpack_int` on a 16-bit pattern. -/
theorem sign_extend_two (x : Nat) (hx : x < 65536) :
    long_of_bits
        (x ||| ((ULONG_MOD - (x &&& ((1 <<< (8 * 2 - 1)) % ULONG_MOD))) % ULONG_MOD))
      = if x < 32768 then (x : Int) else (x : Int) - 65536 := by
  have hm : (1 <<< (8 * 2 - 1)) % ULONG_MOD = 2 ^ 15 := by decide
  have hM : ULONG_MOD = 2 ^ 15 * (562949953421311 + 1) := by decide
  have h := sign_or 15 562949953421311 x (by omega) (by decide)
  rw [hm, hM, h]
  by_cases hlt : x < 32768
  · have hlt2 : x < 2 ^ 15 := by omega
    rw [if_pos hlt2, if_pos hlt]
    simp only [long_of_bits, ULONG_MOD, SIZEOF_LONG]
    norm_num
    omega
  · have hlt2 : ¬ x < 2 ^ 15 := by omega
    rw [if_neg hlt2, if_neg hlt]
    simp only [long_of_bits, ULONG_MOD, SIZEOF_LONG]
    norm_num
    omega

/-- The sign extension of `unpack_int` on a 32-bit pattern. -/
theorem sign_extend_four (x : Nat) (hx : x < 4294967296) :
    long_of_bits
        (x ||| ((ULONG_MOD - (x &&& ((1 <<< (8 * 4 - 1)) % ULONG_MOD))) % ULONG_MOD))
      = if x < 2147483648 then (x : Int) else (x : Int) - 4294967296 := by
  have hm : (1 <<< (8 * 4 - 1)) % ULONG_MOD = 2 ^ 31 := by decide
  have hM : ULONG_MOD = 2 ^ 31 * (8589934591 + 1) := by decide
  have h := sign_or 31 8589934591 x (by omega) (by decide)
  rw [hm, hM, h]
  by_cases hlt : x < 2147483648
  · have hlt2 : x < 2 ^ 31 := by omega
    rw [if_pos hlt2, if_pos hlt]
    simp only [long_of_bits, ULONG_MOD, SIZEOF_LONG]
    norm_num
    omega
  · have hlt2 : ¬ x < 2 ^ 31 := by omega
    rw [if_neg hlt2, if_neg hlt]
    simp only [long_of_bits, ULONG_MOD, SIZEOF_LONG]
    norm_num
    omega

theorem unpack_int_two (e : Char) (b0 b1 : Byte) (rest : List Byte) :
    unpack_int e (ordered e [b0, b1] ++ rest) 2
      = if b1.val * 256 + b0.val < 32768 then ((b1.val * 256 + b0.val : Nat) : Int)
        else ((b1.val * 256 + b0.val : Nat) : Int) - 65536 := by
  have h0 := b0.isLt
  have h1 := b1.isLt
  have hs : SIZEOF_LONG > 2 := by decide
  simp only [unpack_int, if_pos hs, unpack_loop_two]
  exact sign_extend_two _ (by omega)

theorem unpack_int_four (e : Char) (b0 b1 b2 b3 : Byte) (rest : List Byte) :
    unpack_int e (ordered e [b0, b1, b2, b3] ++ rest) 4
      = if b3.val * 256 ^ 3 + b2.val * 256 ^ 2 + b1.val * 256 + b0.val < 2147483648 then
          ((b3.val * 256 ^ 3 + b2.val * 256 ^ 2 + b1.val * 256 + b0.val : Nat) : Int)
        else ((b3.val * 256 ^ 3 + b2.val * 256 ^ 2 + b1.val * 256 + b0.val : Nat) : Int)
          - 4294967296 := by
  have h0 := b0.isLt
  have h1 := b1.isLt
  have h2 := b2.isLt
  have h3 := b3.isLt
  have hs : SIZEOF_LONG > 4 := by decide
  simp only [unpack_int, if_pos hs, unpack_loop_four]
  exact sign_extend_four _ (by omega)

/-! ## C1: unsigned round trip -/

/-- C1. Unsigned round trip: under byte order Big, Network or Little, on any open
stream (contents `buf`, cursor `pos`), writing `v` with `write_uchar`
(`0 <= v < 2^8`), `write_ushort` (`0 <= v < 2^16`) or `write_ulong`
(`0 <= v < 2^32`) succeeds, and after seeking back to `pos` the matching
`read_uchar` / `read_ushort` / `read_ulong` returns exactly `v`. -/
theorem unsigned_round_trip (e : Char)
    (he : e = ENDIAN_BIG ∨ e = ENDIAN_NETWORK ∨ e = ENDIAN_LITTLE)
    (buf : List Byte) (pos : Nat) (v : Int) (hv : 0 ≤ v) :
    (v < 2 ^ 8 →
      ∃ s1, BufferedByteStream_write_uchar (open_stream e buf pos) v = (.ok (), s1) ∧
        (BufferedByteStream_seek s1 (pos : Int) none).1 = .ok () ∧
        (BufferedByteStream_read_uchar (BufferedByteStream_seek s1 (pos : Int) none).2).1
          = .ok v) ∧
    (v < 2 ^ 16 → ∀ fuel, 2 ≤ fuel →
      ∃ s1, BufferedByteStream_write_ushort fuel (open_stream e buf pos) v = some (.ok (), s1) ∧
        (BufferedByteStream_seek s1 (pos : Int) none).1 = .ok () ∧
        (BufferedByteStream_read_ushort (BufferedByteStream_seek s1 (pos : Int) none).2).1
          = .ok v) ∧
    (v < 2 ^ 32 → ∀ fuel, 4 ≤ fuel →
      ∃ s1, BufferedByteStream_write_ulong fuel (open_stream e buf pos) v = some (.ok (), s1) ∧
        (BufferedByteStream_seek s1 (pos : Int) none).1 = .ok () ∧
        (BufferedByteStream_read_ulong (BufferedByteStream_seek s1 (pos : Int) none).2).1
          = .ok v) := by
  refine ⟨?_, ?_, ?_⟩
  · intro h
    refine ⟨_, write_uchar_ok e { buf := buf, pos := pos } hv (by omega), ?_⟩
    have hs := seek_back e { buf := buf, pos := pos } [toByte v.toNat]
    simp only at hs
    rw [hs, read_uchar_back]
    refine ⟨rfl, ?_⟩
    simp only [toByte]
    congr 1
    omega
  · intro h fuel hf
    refine ⟨_, write_ushort_ok he hf { buf := buf, pos := pos } hv (by omega), ?_⟩
    have hs := seek_back e { buf := buf, pos := pos }
      (ordered e [toByte v.toNat, toByte (v.toNat / 256)])
    simp only at hs
    rw [hs, read_ushort_back _ _ _ (by simp [ordered_length]), unpack_uint_two]
    refine ⟨rfl, ?_⟩
    simp only [toByte]
    congr 1
    omega
  · intro h fuel hf
    refine ⟨_, write_ulong_ok he hf { buf := buf, pos := pos } hv (by omega), ?_⟩
    have hs := seek_back e { buf := buf, pos := pos }
      (ordered e [toByte v.toNat, toByte (v.toNat / 256), toByte (v.toNat / 256 / 256),
        toByte (v.toNat / 256 / 256 / 256)])
    simp only at hs
    rw [hs, read_ulong_back _ _ _ (by simp [ordered_length]), unpack_uint_four]
    refine ⟨rfl, ?_⟩
    simp only [toByte]
    congr 1
    omega

/-- Witness for C1: `write_ulong(4294967295)` on a fresh stream, `seek(0)`,
`read_ulong()`. -/
theorem unsigned_round_trip_witness :
    ∃ s1, BufferedByteStream_write_ulong 4 (open_stream ENDIAN_BIG [] 0) 4294967295
        = some (.ok (), s1) ∧
      (BufferedByteStream_seek s1 ((0 : Nat) : Int) none).1 = .ok () ∧
      (BufferedByteStream_read_ulong (BufferedByteStream_seek s1 ((0 : Nat) : Int) none).2).1
        = .ok 4294967295 :=
  (unsigned_round_trip ENDIAN_BIG (Or.inl rfl) [] 0 4294967295 (by decide)).2.2
    (by decide) 4 (by decide)

/-! ## C2: signed round trip -/

/-- C2. Signed round trip: under byte order Big, Network or Little, on any open
stream (contents `buf`, cursor `pos`), writing `v` with `write_char`
(`-2^7 <= v < 2^7`), `write_short` (`-2^15 <= v < 2^15`) or `write_long`
(`-2^31 <= v < 2^31`) succeeds, and after seeking back to `pos` the matching
`read_char` / `read_short` / `read_long` returns exactly `v`, negative values
included. -/
theorem signed_round_trip (e : Char)
    (he : e = ENDIAN_BIG ∨ e = ENDIAN_NETWORK ∨ e = ENDIAN_LITTLE)
    (buf : List Byte) (pos : Nat) (v : Int) :
    (-2 ^ 7 ≤ v → v < 2 ^ 7 →
      ∃ s1, BufferedByteStream_write_char (open_stream e buf pos) v = (.ok (), s1) ∧
        (BufferedByteStream_seek s1 (pos : Int) none).1 = .ok () ∧
        (BufferedByteStream_read_char (BufferedByteStream_seek s1 (pos : Int) none).2).1
          = .ok v) ∧
    (-2 ^ 15 ≤ v → v < 2 ^ 15 → ∀ fuel, 2 ≤ fuel →
      ∃ s1, BufferedByteStream_write_short fuel (open_stream e buf pos) v = some (.ok (), s1) ∧
        (BufferedByteStream_seek s1 (pos : Int) none).1 = .ok () ∧
        (BufferedByteStream_read_short (BufferedByteStream_seek s1 (pos : Int) none).2).1
          = .ok v) ∧
    (-2 ^ 31 ≤ v → v < 2 ^ 31 → ∀ fuel, 4 ≤ fuel →
      ∃ s1, BufferedByteStream_write_long fuel (open_stream e buf pos) v = some (.ok (), s1) ∧
        (BufferedByteStream_seek s1 (pos : Int) none).1 = .ok () ∧
        ∀ stale,
          (BufferedByteStream_read_long (BufferedByteStream_seek s1 (pos : Int) none).2
            stale).1 = .ok v) := by
  refine ⟨?_, ?_, ?_⟩
  · intro hlo hhi
    refine ⟨_, write_char_ok e { buf := buf, pos := pos } (by omega) (by omega), ?_⟩
    have hs := seek_back e { buf := buf, pos := pos } [toByte (v % 256).toNat]
    simp only at hs
    rw [hs, read_char_back]
    refine ⟨rfl, ?_⟩
    simp only [toByte, char_value]
    congr 1
    split <;> omega
  · intro hlo hhi fuel hf
    refine ⟨_, write_short_ok he hf { buf := buf, pos := pos } (by omega) (by omega), ?_⟩
    have hs := seek_back e { buf := buf, pos := pos }
      (ordered e [toByte (v % 256).toNat, toByte (v / 256 % 256).toNat])
    simp only at hs
    rw [hs, read_short_back _ _ _ (by simp [ordered_length])]
    refine ⟨rfl, ?_⟩
    have hu := unpack_int_two e (toByte (v % 256).toNat) (toByte (v / 256 % 256).toNat) []
    rw [List.append_nil] at hu
    rw [hu]
    simp only [toByte]
    congr 1
    split <;> omega
  · intro hlo hhi fuel hf
    refine ⟨_, write_long_ok he hf { buf := buf, pos := pos } (by omega) (by omega), ?_⟩
    have hs := seek_back e { buf := buf, pos := pos }
      (ordered e [toByte (v % 256).toNat, toByte (v / 256 % 256).toNat,
        toByte (v / 256 / 256 % 256).toNat, toByte (v / 256 / 256 / 256 % 256).toNat])
    simp only at hs
    refine ⟨rfl, ?_⟩
    intro stale
    rw [hs, read_long_back _ _ _ _ (by simp [ordered_length]), unpack_int_four]
    simp only [toByte]
    congr 1
    split <;> omega

/-- Witness for C2: `write_short(-1)` on a fresh stream, `seek(0)`, `read_short()`. -/
theorem signed_round_trip_witness :
    ∃ s1, BufferedByteStream_write_short 2 (open_stream ENDIAN_BIG [] 0) (-1)
        = some (.ok (), s1) ∧
      (BufferedByteStream_seek s1 ((0 : Nat) : Int) none).1 = .ok () ∧
      (BufferedByteStream_read_short (BufferedByteStream_seek s1 ((0 : Nat) : Int) none).2).1
        = .ok (-1) :=
  (signed_round_trip ENDIAN_BIG (Or.inl rfl) [] 0 (-1)).2.1 (by decide) (by decide) 2
    (by decide)

/-! ## C3: the native byte order -/

/-- C3, the code at the failing input.  Under `ENDIAN_NATIVE` `write_ushort(0x1234)`
stores `34 00`, not the two low-order bytes `34 12` of the value, and reading
back gives `0x34`; `write_short(-4660)` (pattern `ED CC`) stores `CC FF`;
`write_ulong(0x12345678)` stores `78 34 00 00`. -/
theorem native_pack_drops_bytes :
    BufferedByteStream_write_ushort 2 (open_stream ENDIAN_NATIVE [] 0) 0x1234
        = some (.ok (), open_stream ENDIAN_NATIVE [0x34, 0x00] 2) ∧
      (BufferedByteStream_read_ushort (open_stream ENDIAN_NATIVE [0x34, 0x00] 0)).1
        = .ok 0x34 ∧
      BufferedByteStream_write_short 2 (open_stream ENDIAN_NATIVE [] 0) (-4660)
        = some (.ok (), open_stream ENDIAN_NATIVE [0xCC, 0xFF] 2) ∧
      (BufferedByteStream_read_short (open_stream ENDIAN_NATIVE [0xCC, 0xFF] 0)).1
        = .ok (-52) ∧
      BufferedByteStream_write_ulong 4 (open_stream ENDIAN_NATIVE [] 0) 0x12345678
        = some (.ok (), open_stream ENDIAN_NATIVE [0x78, 0x34, 0x00, 0x00] 4) := by
  decide

/-! ## C4: overflow -/

theorem pack_uint_loop_some {e : Char}
    (he : e = ENDIAN_BIG ∨ e = ENDIAN_NETWORK ∨ e = ENDIAN_LITTLE ∨ e = ENDIAN_NATIVE)
    (nb : Nat) :
    ∀ (fuel x i : Nat) (buf : List Byte), i ≤ fuel →
      ∃ r, pack_uint_loop e nb fuel x i buf = some r := by
  intro fuel
  induction fuel with
  | zero =>
    intro x i buf hi
    have h0 : i = 0 := by omega
    exact ⟨buf, by simp [pack_uint_loop, h0]⟩
  | succ f ih =>
    intro x i buf hi
    by_cases h0 : i = 0
    · exact ⟨buf, by simp [pack_uint_loop, h0]⟩
    · rcases he with h | h | h | h <;> subst h <;>
        simpa [pack_uint_loop, h0, ENDIAN_BIG, ENDIAN_NETWORK, ENDIAN_LITTLE, ENDIAN_NATIVE]
          using ih _ (i - 1) _ (by omega)

theorem pack_int_loop_some {e : Char}
    (he : e = ENDIAN_BIG ∨ e = ENDIAN_NETWORK ∨ e = ENDIAN_LITTLE ∨ e = ENDIAN_NATIVE)
    (nb : Nat) :
    ∀ (fuel : Nat) (x : Int) (i : Nat) (buf : List Byte), i ≤ fuel →
      ∃ r, pack_int_loop e nb fuel x i buf = some r := by
  intro fuel
  induction fuel with
  | zero =>
    intro x i buf hi
    have h0 : i = 0 := by omega
    exact ⟨buf, by simp [pack_int_loop, h0]⟩
  | succ f ih =>
    intro x i buf hi
    by_cases h0 : i = 0
    · exact ⟨buf, by simp [pack_int_loop, h0]⟩
    · rcases he with h | h | h | h <;> subst h <;>
        simpa [pack_int_loop, h0, ENDIAN_BIG, ENDIAN_NETWORK, ENDIAN_LITTLE, ENDIAN_NATIVE]
          using ih _ (i - 1) _ (by omega)

/-- The range check of `pack_uint` decides alone whether it raises. -/
theorem pack_uint_overflow (fuel : Nat) (e : Char) (io : Oobject) (x nb : Nat) :
    pack_uint fuel e io x nb = some (.error .OverflowError)
      ↔ (nb ≠ SIZEOF_LONG ∧ x ≥ (1 <<< (nb * 8)) % ULONG_MOD) := by
  unfold pack_uint
  split
  · simp_all
  · rename_i h
    cases hl : pack_uint_loop e nb fuel x nb (List.replicate nb 0) <;> simp [h]

/-- The range check of `pack_int` decides alone whether it raises. -/
theorem pack_int_overflow (fuel : Nat) (e : Char) (io : Oobject) (x : Int) (nb : Nat) :
    pack_int fuel e io x nb = some (.error .OverflowError)
      ↔ (nb ≠ SIZEOF_LONG ∧ (x ≥ long_of_bits (1 <<< (nb * 8 - 1))
          ∨ x < -long_of_bits (1 <<< (nb * 8 - 1)))) := by
  simp only [pack_int]
  split
  · simp_all
  · rename_i h
    cases hl : pack_int_loop e nb fuel x nb (List.replicate nb 0) <;> simp [h]

/-- With one of the four byte orders and enough fuel `pack_uint` returns. -/
theorem pack_uint_returns {e : Char}
    (he : e = ENDIAN_BIG ∨ e = ENDIAN_NETWORK ∨ e = ENDIAN_LITTLE ∨ e = ENDIAN_NATIVE)
    {fuel nb : Nat} (hf : nb ≤ fuel) (io : Oobject) (x : Nat)
    (h : ¬ (nb ≠ SIZEOF_LONG ∧ x ≥ (1 <<< (nb * 8)) % ULONG_MOD)) :
    ∃ io1, pack_uint fuel e io x nb = some (.ok io1) := by
  obtain ⟨r, hr⟩ := pack_uint_loop_some he nb fuel x nb (List.replicate nb 0) hf
  exact ⟨cwrite io (r.take nb), by rw [pack_uint, if_neg h, hr]⟩

/-- With one of the four byte orders and enough fuel `pack_int` returns. -/
theorem pack_int_returns {e : Char}
    (he : e = ENDIAN_BIG ∨ e = ENDIAN_NETWORK ∨ e = ENDIAN_LITTLE ∨ e = ENDIAN_NATIVE)
    {fuel nb : Nat} (hf : nb ≤ fuel) (io : Oobject) (x : Int)
    (h : ¬ (nb ≠ SIZEOF_LONG ∧ (x ≥ long_of_bits (1 <<< (nb * 8 - 1))
          ∨ x < -long_of_bits (1 <<< (nb * 8 - 1))))) :
    ∃ io1, pack_int fuel e io x nb = some (.ok io1) := by
  obtain ⟨r, hr⟩ := pack_int_loop_some he nb fuel x nb (List.replicate nb 0) hf
  refine ⟨cwrite io (r.take nb), ?_⟩
  simp only [pack_int]
  rw [if_neg h, hr]

theorem get_ulong_error {v : Int} (h : v < 0 ∨ 18446744073709551616 ≤ v) :
    get_ulong v = .error .OverflowError := by
  have h2 : v < 0 ∨ v ≥ (ULONG_MOD : Int) := by
    simp only [ULONG_MOD, SIZEOF_LONG]
    norm_num
    omega
  rw [get_ulong, if_pos h2]

theorem get_long_error {v : Int} (h : v < -9223372036854775808 ∨ 9223372036854775808 ≤ v) :
    get_long v = .error .OverflowError := by
  have h2 : v < LONG_MIN ∨ v > LONG_MAX := by
    simp only [LONG_MIN, LONG_MAX, SIZEOF_LONG]
    norm_num
    omega
  rw [get_long, if_pos h2]

theorem write_uchar_overflow (e : Char) (io : Oobject) (v : Int) :
    (BufferedByteStream_write_uchar { buffer := some io, endian := e } v).1
        = .error .OverflowError ↔ (v < 0 ∨ 256 ≤ v) := by
  by_cases h : v < 0 ∨ 18446744073709551616 ≤ v
  · simp only [BufferedByteStream_write_uchar, get_ulong_error h, true_iff]
    omega
  · simp only [BufferedByteStream_write_uchar, get_ulong_ok (by omega : 0 ≤ v) (by omega)]
    by_cases hv : v.toNat > 255
    · simp only [if_pos hv, true_iff]
      omega
    · simp only [if_neg hv]
      constructor
      · intro hc
        cases hc
      · intro hc
        omega

theorem write_char_overflow (e : Char) (io : Oobject) (v : Int) :
    (BufferedByteStream_write_char { buffer := some io, endian := e } v).1
        = .error .OverflowError ↔ (v < -128 ∨ 128 ≤ v) := by
  by_cases h : v < -9223372036854775808 ∨ 9223372036854775808 ≤ v
  · simp only [BufferedByteStream_write_char, get_long_error h, true_iff]
    omega
  · simp only [BufferedByteStream_write_char,
      get_long_ok (by omega : -9223372036854775808 ≤ v) (by omega)]
    by_cases hv : v < -128 ∨ v > 127
    · simp only [if_pos hv, true_iff]
      omega
    · simp only [if_neg hv]
      constructor
      · intro hc
        cases hc
      · intro hc
        omega

theorem write_ushort_overflow (fuel : Nat) (e : Char) (io : Oobject) (v : Int) :
    (BufferedByteStream_write_ushort fuel { buffer := some io, endian := e } v).map Prod.fst
        = some (.error .OverflowError) ↔ (v < 0 ∨ 65536 ≤ v) := by
  by_cases h : v < 0 ∨ 18446744073709551616 ≤ v
  · simp only [BufferedByteStream_write_ushort, get_ulong_error h, Option.map_some', true_iff]
    omega
  · simp only [BufferedByteStream_write_ushort, get_ulong_ok (by omega : 0 ≤ v) (by omega)]
    by_cases hv : v.toNat > 65535
    · simp only [if_pos hv, Option.map_some', true_iff]
      omega
    · simp only [if_neg hv]
      have hno : ¬ (v < 0 ∨ 65536 ≤ v) := by omega
      have hp := pack_uint_overflow fuel e io v.toNat 2
      have hrange : ¬ (2 ≠ SIZEOF_LONG ∧ v.toNat ≥ (1 <<< (2 * 8)) % ULONG_MOD) := by
        simp only [ULONG_MOD, SIZEOF_LONG]
        norm_num
        omega
      rcases hr : pack_uint fuel e io v.toNat 2 with _ | (ex | io1)
      · simp [hno]
      · have hne : ex ≠ .OverflowError := by
          intro hex
          rw [hr, hex] at hp
          exact hrange (hp.mp rfl)
        simp [hno, hne]
      · simp [hno]

theorem write_ulong_overflow (fuel : Nat) (e : Char) (io : Oobject) (v : Int) :
    (BufferedByteStream_write_ulong fuel { buffer := some io, endian := e } v).map Prod.fst
        = some (.error .OverflowError) ↔ (v < 0 ∨ 4294967296 ≤ v) := by
  by_cases h : v < 0 ∨ 18446744073709551616 ≤ v
  · simp only [BufferedByteStream_write_ulong, get_ulong_error h, Option.map_some', true_iff]
    omega
  · simp only [BufferedByteStream_write_ulong, get_ulong_ok (by omega : 0 ≤ v) (by omega)]
    have hp := pack_uint_overflow fuel e io v.toNat 4
    have hrange : (4 ≠ SIZEOF_LONG ∧ v.toNat ≥ (1 <<< (4 * 8)) % ULONG_MOD)
        ↔ (v < 0 ∨ 4294967296 ≤ v) := by
      simp only [ULONG_MOD, SIZEOF_LONG]
      norm_num
      omega
    rw [hrange] at hp
    rcases hr : pack_uint fuel e io v.toNat 4 with _ | (ex | io1)
    · rw [hr] at hp
      simpa using hp
    · rw [hr] at hp
      simpa using hp
    · rw [hr] at hp
      simpa using hp

theorem write_short_overflow (fuel : Nat) (e : Char) (io : Oobject) (v : Int) :
    (BufferedByteStream_write_short fuel { buffer := some io, endian := e } v).map Prod.fst
        = some (.error .OverflowError) ↔ (v < -32768 ∨ 32768 ≤ v) := by
  by_cases h : v < -9223372036854775808 ∨ 9223372036854775808 ≤ v
  · simp only [BufferedByteStream_write_short, get_long_error h, Option.map_some', true_iff]
    omega
  · simp only [BufferedByteStream_write_short,
      get_long_ok (by omega : -9223372036854775808 ≤ v) (by omega)]
    by_cases hv : v < -32768 ∨ v > 32767
    · simp only [if_pos hv, Option.map_some', true_iff]
      omega
    · simp only [if_neg hv]
      have hno : ¬ (v < -32768 ∨ 32768 ≤ v) := by omega
      have hp := pack_int_overflow fuel e io v 2
      have hrange : ¬ (2 ≠ SIZEOF_LONG ∧ (v ≥ long_of_bits (1 <<< (2 * 8 - 1))
          ∨ v < -long_of_bits (1 <<< (2 * 8 - 1)))) := by
        simp only [long_of_bits, ULONG_MOD, SIZEOF_LONG]
        norm_num
        omega
      rcases hr : pack_int fuel e io v 2 with _ | (ex | io1)
      · simp [hno]
      · have hne : ex ≠ .OverflowError := by
          intro hex
          rw [hr, hex] at hp
          exact hrange (hp.mp rfl)
        simp [hno, hne]
      · simp [hno]

theorem write_long_overflow (fuel : Nat) (e : Char) (io : Oobject) (v : Int) :
    (BufferedByteStream_write_long fuel { buffer := some io, endian := e } v).map Prod.fst
        = some (.error .OverflowError) ↔ (v < -2147483648 ∨ 2147483648 ≤ v) := by
  by_cases h : v < -9223372036854775808 ∨ 9223372036854775808 ≤ v
  · simp only [BufferedByteStream_write_long, get_long_error h, Option.map_some', true_iff]
    omega
  · simp only [BufferedByteStream_write_long,
      get_long_ok (by omega : -9223372036854775808 ≤ v) (by omega)]
    have hp := pack_int_overflow fuel e io v 4
    have hrange : (4 ≠ SIZEOF_LONG ∧ (v ≥ long_of_bits (1 <<< (4 * 8 - 1))
          ∨ v < -long_of_bits (1 <<< (4 * 8 - 1))))
        ↔ (v < -2147483648 ∨ 2147483648 ≤ v) := by
      simp only [long_of_bits, ULONG_MOD, SIZEOF_LONG]
      norm_num
      omega
    rw [hrange] at hp
    rcases hr : pack_int fuel e io v 4 with _ | (ex | io1)
    · rw [hr] at hp
      simpa using hp
    · rw [hr] at hp
      simpa using hp
    · rw [hr] at hp
      simpa using hp

theorem write_ushort_succeeds {e : Char}
    (he : e = ENDIAN_BIG ∨ e = ENDIAN_NETWORK ∨ e = ENDIAN_LITTLE ∨ e = ENDIAN_NATIVE)
    {fuel : Nat} (hf : 2 ≤ fuel) (io : Oobject) {v : Int} (h0 : 0 ≤ v) (h1 : v < 65536) :
    (BufferedByteStream_write_ushort fuel { buffer := some io, endian := e } v).map Prod.fst
      = some (.ok ()) := by
  have hv : ¬ (v.toNat > 65535) := by omega
  have hrange : ¬ (2 ≠ SIZEOF_LONG ∧ v.toNat ≥ (1 <<< (2 * 8)) % ULONG_MOD) := by
    simp only [ULONG_MOD, SIZEOF_LONG]
    norm_num
    omega
  obtain ⟨io1, h⟩ := pack_uint_returns he hf io v.toNat hrange
  simp only [BufferedByteStream_write_ushort, get_ulong_ok h0 (by omega), if_neg hv, h,
    Option.map_some']

theorem write_ulong_succeeds {e : Char}
    (he : e = ENDIAN_BIG ∨ e = ENDIAN_NETWORK ∨ e = ENDIAN_LITTLE ∨ e = ENDIAN_NATIVE)
    {fuel : Nat} (hf : 4 ≤ fuel) (io : Oobject) {v : Int} (h0 : 0 ≤ v)
    (h1 : v < 4294967296) :
    (BufferedByteStream_write_ulong fuel { buffer := some io, endian := e } v).map Prod.fst
      = some (.ok ()) := by
  have hrange : ¬ (4 ≠ SIZEOF_LONG ∧ v.toNat ≥ (1 <<< (4 * 8)) % ULONG_MOD) := by
    simp only [ULONG_MOD, SIZEOF_LONG]
    norm_num
    omega
  obtain ⟨io1, h⟩ := pack_uint_returns he hf io v.toNat hrange
  simp only [BufferedByteStream_write_ulong, get_ulong_ok h0 (by omega), h, Option.map_some']

theorem write_short_succeeds {e : Char}
    (he : e = ENDIAN_BIG ∨ e = ENDIAN_NETWORK ∨ e = ENDIAN_LITTLE ∨ e = ENDIAN_NATIVE)
    {fuel : Nat} (hf : 2 ≤ fuel) (io : Oobject) {v : Int} (h0 : -32768 ≤ v)
    (h1 : v < 32768) :
    (BufferedByteStream_write_short fuel { buffer := some io, endian := e } v).map Prod.fst
      = some (.ok ()) := by
  have hv : ¬ (v < -32768 ∨ v > 32767) := by omega
  have hrange : ¬ (2 ≠ SIZEOF_LONG ∧ (v ≥ long_of_bits (1 <<< (2 * 8 - 1))
      ∨ v < -long_of_bits (1 <<< (2 * 8 - 1)))) := by
    simp only [long_of_bits, ULONG_MOD, SIZEOF_LONG]
    norm_num
    omega
  obtain ⟨io1, h⟩ := pack_int_returns he hf io v hrange
  simp only [BufferedByteStream_write_short,
    get_long_ok (by omega : -9223372036854775808 ≤ v) (by omega), if_neg hv, h,
    Option.map_some']

theorem write_long_succeeds {e : Char}
    (he : e = ENDIAN_BIG ∨ e = ENDIAN_NETWORK ∨ e = ENDIAN_LITTLE ∨ e = ENDIAN_NATIVE)
    {fuel : Nat} (hf : 4 ≤ fuel) (io : Oobject) {v : Int} (h0 : -2147483648 ≤ v)
    (h1 : v < 2147483648) :
    (BufferedByteStream_write_long fuel { buffer := some io, endian := e } v).map Prod.fst
      = some (.ok ()) := by
  have hrange : ¬ (4 ≠ SIZEOF_LONG ∧ (v ≥ long_of_bits (1 <<< (4 * 8 - 1))
      ∨ v < -long_of_bits (1 <<< (4 * 8 - 1)))) := by
    simp only [long_of_bits, ULONG_MOD, SIZEOF_LONG]
    norm_num
    omega
  obtain ⟨io1, h⟩ := pack_int_returns he hf io v hrange
  simp only [BufferedByteStream_write_long,
    get_long_ok (by omega : -9223372036854775808 ≤ v) (by omega), h, Option.map_some']

/-- C4. Overflow iff out of range: on an open stream, for every integer `v`,
`write_uchar` / `write_ushort` / `write_ulong` raise `OverflowError` exactly when
`v` is outside `[0, 2^8)` / `[0, 2^16)` / `[0, 2^32)`, and `write_char` /
`write_short` / `write_long` exactly when `v` is outside `[-2^7, 2^7)` /
`[-2^15, 2^15)` / `[-2^31, 2^31)` (whatever the fuel and the byte order); with
`v` in range the write succeeds (for the multi-byte writes: under each of the
four byte orders, the loop being given its `n` iterations). -/
theorem overflow_iff_out_of_range (e : Char) (buf : List Byte) (pos : Nat) (v : Int)
    (fuel : Nat) :
    ((BufferedByteStream_write_uchar (open_stream e buf pos) v).1 = .error .OverflowError
        ↔ (v < 0 ∨ 2 ^ 8 ≤ v)) ∧
    ((BufferedByteStream_write_ushort fuel (open_stream e buf pos) v).map Prod.fst
        = some (.error .OverflowError) ↔ (v < 0 ∨ 2 ^ 16 ≤ v)) ∧
    ((BufferedByteStream_write_ulong fuel (open_stream e buf pos) v).map Prod.fst
        = some (.error .OverflowError) ↔ (v < 0 ∨ 2 ^ 32 ≤ v)) ∧
    ((BufferedByteStream_write_char (open_stream e buf pos) v).1 = .error .OverflowError
        ↔ (v < -2 ^ 7 ∨ 2 ^ 7 ≤ v)) ∧
    ((BufferedByteStream_write_short fuel (open_stream e buf pos) v).map Prod.fst
        = some (.error .OverflowError) ↔ (v < -2 ^ 15 ∨ 2 ^ 15 ≤ v)) ∧
    ((BufferedByteStream_write_long fuel (open_stream e buf pos) v).map Prod.fst
        = some (.error .OverflowError) ↔ (v < -2 ^ 31 ∨ 2 ^ 31 ≤ v)) ∧
    (0 ≤ v → v < 2 ^ 8 →
      (BufferedByteStream_write_uchar (open_stream e buf pos) v).1 = .ok ()) ∧
    (-2 ^ 7 ≤ v → v < 2 ^ 7 →
      (BufferedByteStream_write_char (open_stream e buf pos) v).1 = .ok ()) ∧
    (e = ENDIAN_BIG ∨ e = ENDIAN_NETWORK ∨ e = ENDIAN_LITTLE ∨ e = ENDIAN_NATIVE →
      (2 ≤ fuel → 0 ≤ v → v < 2 ^ 16 →
        (BufferedByteStream_write_ushort fuel (open_stream e buf pos) v).map Prod.fst
          = some (.ok ())) ∧
      (4 ≤ fuel → 0 ≤ v → v < 2 ^ 32 →
        (BufferedByteStream_write_ulong fuel (open_stream e buf pos) v).map Prod.fst
          = some (.ok ())) ∧
      (2 ≤ fuel → -2 ^ 15 ≤ v → v < 2 ^ 15 →
        (BufferedByteStream_write_short fuel (open_stream e buf pos) v).map Prod.fst
          = some (.ok ())) ∧
      (4 ≤ fuel → -2 ^ 31 ≤ v → v < 2 ^ 31 →
        (BufferedByteStream_write_long fuel (open_stream e buf pos) v).map Prod.fst
          = some (.ok ()))) := by
  refine ⟨?_, ?_, ?_, ?_, ?_, ?_, ?_, ?_, ?_⟩
  · rw [open_stream, write_uchar_overflow]
    norm_num
  · rw [open_stream, write_ushort_overflow]
    norm_num
  · rw [open_stream, write_ulong_overflow]
    norm_num
  · rw [open_stream, write_char_overflow]
    norm_num
  · rw [open_stream, write_short_overflow]
    norm_num
  · rw [open_stream, write_long_overflow]
    norm_num
  · intro h0 h1
    rw [open_stream, write_uchar_ok e _ h0 (by omega)]
  · intro h0 h1
    rw [open_stream, write_char_ok e _ (by omega) (by omega)]
  · intro he
    refine ⟨?_, ?_, ?_, ?_⟩
    · intro hf h0 h1
      exact write_ushort_succeeds he hf _ h0 (by omega)
    · intro hf h0 h1
      exact write_ulong_succeeds he hf _ h0 (by omega)
    · intro hf h0 h1
      exact write_short_succeeds he hf _ (by omega) (by omega)
    · intro hf h0 h1
      exact write_long_succeeds he hf _ (by omega) (by omega)

/-- Witness for C4: `write_short(32767)` succeeds on a fresh stream. -/
theorem overflow_iff_out_of_range_witness :
    (BufferedByteStream_write_short 2 (open_stream ENDIAN_NETWORK [] 0) 32767).map Prod.fst
      = some (.ok ()) :=
  ((overflow_iff_out_of_range ENDIAN_NETWORK [] 0 32767 2).2.2.2.2.2.2.2.2
    (Or.inr (Or.inl rfl))).2.2.1 (by decide) (by decide) (by decide)

/-! ## C5: unsigned byte layout -/

/-- What `cwrite` does to the storage: the cursor advances by the number of
bytes, the bytes land at the old cursor, the length becomes the greater of the
old length and the new cursor, and every other offset reads as before (a gap
reads as zero). -/
theorem cwrite_effect (io : Oobject) (c : List Byte) :
    (cwrite io c).pos = io.pos + c.length ∧
    (cwrite io c).buf.length = max io.buf.length (io.pos + c.length) ∧
    (∀ i, i < c.length → (cwrite io c).buf[io.pos + i]? = c.get? i) ∧
    (∀ j, j < io.pos → (cwrite io c).buf.getD j 0 = io.buf.getD j 0) ∧
    (∀ j, io.pos + c.length ≤ j → (cwrite io c).buf[j]? = io.buf[j]?) := by
  have hlen : (List.take io.pos
      (io.buf ++ List.replicate (io.pos - io.buf.length) (0 : Byte))).length = io.pos := by
    simp
    omega
  refine ⟨rfl, ?_, ?_, ?_, ?_⟩
  · simp only [cwrite, List.length_append, List.length_take, List.length_drop,
      List.length_replicate]
    omega
  · intro i hi
    simp only [cwrite]
    have hidx : io.pos + i - io.pos = i := by omega
    rw [List.append_assoc, List.getElem?_append_right (by omega), hlen, hidx,
      List.getElem?_append_left hi, List.get?_eq_getElem?]
  · intro j hj
    simp only [cwrite, List.getD_eq_getElem?_getD]
    rw [List.append_assoc, List.getElem?_append_left (by omega),
      List.getElem?_take_of_lt hj, List.getElem?_append]
    split
    · rfl
    · rw [List.getElem?_replicate]
      have hlt : j - io.buf.length < io.pos - io.buf.length := by omega
      simp only [hlt, if_true]
      rw [List.getElem?_eq_none (by omega)]
      rfl
  · intro j hj
    simp only [cwrite]
    rw [List.getElem?_append_right (by simp; omega), List.getElem?_drop,
      List.getElem?_append]
    simp only [List.length_append, List.length_take, List.length_replicate]
    have hidx : io.pos + c.length +
        (j - (min io.pos (io.buf.length + (io.pos - io.buf.length)) + c.length)) = j := by
      omega
    rw [hidx]
    split
    · rfl
    · rw [List.getElem?_replicate]
      have hlt : ¬ (j - io.buf.length < io.pos - io.buf.length) := by omega
      simp only [hlt, if_false]
      rw [List.getElem?_eq_none (by omega)]

theorem cwrite_stored_at (buf : List Byte) (pos : Nat) (c : List Byte) :
    stored_at buf pos c.length (cwrite { buf := buf, pos := pos } c) := by
  obtain ⟨h1, h2, _, h4, h5⟩ := cwrite_effect { buf := buf, pos := pos } c
  exact ⟨h1, h2, h4, h5⟩

/-- C5. Unsigned byte layout: for `0 <= v < 2^(8n)`, `n` in {2, 4}, under Big,
Network or Little `write_ushort` / `write_ulong` succeed on an open stream
(contents `buf`, cursor `pos`), store exactly `n` bytes at the cursor and advance
it by `n`; the byte at offset `i < n` from the old cursor is
`floor(v / 256^(n-1-i)) mod 256` under Big and Network and
`floor(v / 256^i) mod 256` under Little.  `write_ulong(4294967295)` under Big on
an empty stream stores `FF FF FF FF`. -/
theorem unsigned_byte_layout (e : Char)
    (he : e = ENDIAN_BIG ∨ e = ENDIAN_NETWORK ∨ e = ENDIAN_LITTLE)
    (buf : List Byte) (pos : Nat) (v : Int) (hv : 0 ≤ v) :
    (v < 2 ^ 16 → ∀ fuel, 2 ≤ fuel →
      ∃ io1, BufferedByteStream_write_ushort fuel (open_stream e buf pos) v
          = some (.ok (), { buffer := some io1, endian := e }) ∧
        stored_at buf pos 2 io1 ∧
        (e = ENDIAN_BIG ∨ e = ENDIAN_NETWORK → ∀ i, i < 2 →
          (io1.buf[pos + i]?).map Fin.val = some (v.toNat / 256 ^ (2 - 1 - i) % 256)) ∧
        (e = ENDIAN_LITTLE → ∀ i, i < 2 →
          (io1.buf[pos + i]?).map Fin.val = some (v.toNat / 256 ^ i % 256))) ∧
    (v < 2 ^ 32 → ∀ fuel, 4 ≤ fuel →
      ∃ io1, BufferedByteStream_write_ulong fuel (open_stream e buf pos) v
          = some (.ok (), { buffer := some io1, endian := e }) ∧
        stored_at buf pos 4 io1 ∧
        (e = ENDIAN_BIG ∨ e = ENDIAN_NETWORK → ∀ i, i < 4 →
          (io1.buf[pos + i]?).map Fin.val = some (v.toNat / 256 ^ (4 - 1 - i) % 256)) ∧
        (e = ENDIAN_LITTLE → ∀ i, i < 4 →
          (io1.buf[pos + i]?).map Fin.val = some (v.toNat / 256 ^ i % 256))) ∧
    BufferedByteStream_write_ulong 4 (open_stream ENDIAN_BIG [] 0) 4294967295
      = some (.ok (), open_stream ENDIAN_BIG [0xFF, 0xFF, 0xFF, 0xFF] 4) := by
  refine ⟨?_, ?_, by decide⟩
  · intro h fuel hf
    refine ⟨_, write_ushort_ok he hf { buf := buf, pos := pos } hv (by omega), ?_, ?_, ?_⟩
    · have hst := cwrite_stored_at buf pos (ordered e [toByte v.toNat, toByte (v.toNat / 256)])
      rw [ordered_length] at hst
      exact hst
    · intro hb i hi
      have hg := (cwrite_effect { buf := buf, pos := pos }
        (ordered e [toByte v.toNat, toByte (v.toNat / 256)])).2.2.1 i
        (by rw [ordered_length]; exact hi)
      simp only at hg
      rw [hg]
      simp only [ordered, if_pos hb, toByte]
      interval_cases i <;> simp
    · intro hl i hi
      have hb : ¬ (e = ENDIAN_BIG ∨ e = ENDIAN_NETWORK) := by
        subst hl
        decide
      have hg := (cwrite_effect { buf := buf, pos := pos }
        (ordered e [toByte v.toNat, toByte (v.toNat / 256)])).2.2.1 i
        (by rw [ordered_length]; exact hi)
      simp only at hg
      rw [hg]
      simp only [ordered, if_neg hb, toByte]
      interval_cases i <;> simp
  · intro h fuel hf
    refine ⟨_, write_ulong_ok he hf { buf := buf, pos := pos } hv (by omega), ?_, ?_, ?_⟩
    · have hst := cwrite_stored_at buf pos (ordered e [toByte v.toNat, toByte (v.toNat / 256),
        toByte (v.toNat / 256 / 256), toByte (v.toNat / 256 / 256 / 256)])
      rw [ordered_length] at hst
      exact hst
    · intro hb i hi
      have hg := (cwrite_effect { buf := buf, pos := pos }
        (ordered e [toByte v.toNat, toByte (v.toNat / 256), toByte (v.toNat / 256 / 256),
          toByte (v.toNat / 256 / 256 / 256)])).2.2.1 i
        (by rw [ordered_length]; exact hi)
      simp only at hg
      rw [hg]
      simp only [ordered, if_pos hb, toByte]
      interval_cases i <;> simp [Nat.div_div_eq_div_mul]
    · intro hl i hi
      have hb : ¬ (e = ENDIAN_BIG ∨ e = ENDIAN_NETWORK) := by
        subst hl
        decide
      have hg := (cwrite_effect { buf := buf, pos := pos }
        (ordered e [toByte v.toNat, toByte (v.toNat / 256), toByte (v.toNat / 256 / 256),
          toByte (v.toNat / 256 / 256 / 256)])).2.2.1 i
        (by rw [ordered_length]; exact hi)
      simp only at hg
      rw [hg]
      simp only [ordered, if_neg hb, toByte]
      interval_cases i <;> simp [Nat.div_div_eq_div_mul]

/-- Witness for C5: `write_ushort(0x1234)` under Big at the start of an empty
stream. -/
theorem unsigned_byte_layout_witness :
    ∃ io1, BufferedByteStream_write_ushort 2 (open_stream ENDIAN_BIG [] 0) 0x1234
        = some (.ok (), { buffer := some io1, endian := ENDIAN_BIG }) ∧
      stored_at [] 0 2 io1 ∧
      (ENDIAN_BIG = ENDIAN_BIG ∨ ENDIAN_BIG = ENDIAN_NETWORK → ∀ i, i < 2 →
        (io1.buf[0 + i]?).map Fin.val = some ((0x1234 : Int).toNat / 256 ^ (2 - 1 - i) % 256)) ∧
      (ENDIAN_BIG = ENDIAN_LITTLE → ∀ i, i < 2 →
        (io1.buf[0 + i]?).map Fin.val = some ((0x1234 : Int).toNat / 256 ^ i % 256)) :=
  (unsigned_byte_layout ENDIAN_BIG (Or.inl rfl) [] 0 0x1234 (by decide)).1 (by decide) 2
    (by decide)

/-! ## C6: signed writes are two's complement -/

theorem toByte_congr {a b : Nat} (h : a % 256 = b % 256) : toByte a = toByte b := by
  apply Fin.ext
  simpa [toByte] using h

/-- C6. Signed writes are two's complement: under Big, Network or Little, for
`v` in `[-2^15, 2^15)` `write_short(v)` leaves exactly the stream that
`write_ushort(v mod 2^16)` leaves, and for `v` in `[-2^31, 2^31)` `write_long(v)`
exactly the stream that `write_ulong(v mod 2^32)` leaves, both succeeding.
`write_short(-1)` under Big on an empty stream stores `FF FF`. -/
theorem signed_write_is_twos_complement (e : Char)
    (he : e = ENDIAN_BIG ∨ e = ENDIAN_NETWORK ∨ e = ENDIAN_LITTLE)
    (buf : List Byte) (pos : Nat) (v : Int) :
    (-2 ^ 15 ≤ v → v < 2 ^ 15 → ∀ fuel, 2 ≤ fuel →
      ∃ s1, BufferedByteStream_write_short fuel (open_stream e buf pos) v
          = some (.ok (), s1) ∧
        BufferedByteStream_write_ushort fuel (open_stream e buf pos) (v % 2 ^ 16)
          = some (.ok (), s1)) ∧
    (-2 ^ 31 ≤ v → v < 2 ^ 31 → ∀ fuel, 4 ≤ fuel →
      ∃ s1, BufferedByteStream_write_long fuel (open_stream e buf pos) v
          = some (.ok (), s1) ∧
        BufferedByteStream_write_ulong fuel (open_stream e buf pos) (v % 2 ^ 32)
          = some (.ok (), s1)) ∧
    BufferedByteStream_write_short 2 (open_stream ENDIAN_BIG [] 0) (-1)
      = some (.ok (), open_stream ENDIAN_BIG [0xFF, 0xFF] 2) := by
  refine ⟨?_, ?_, by decide⟩
  · intro hlo hhi fuel hf
    refine ⟨_, write_short_ok he hf { buf := buf, pos := pos } (by omega) (by omega), ?_⟩
    rw [open_stream, write_ushort_ok he hf { buf := buf, pos := pos }
      (by omega : 0 ≤ v % 2 ^ 16) (by omega)]
    have e0 : toByte (v % 2 ^ 16).toNat = toByte (v % 256).toNat :=
      toByte_congr (by omega)
    have e1 : toByte ((v % 2 ^ 16).toNat / 256) = toByte (v / 256 % 256).toNat :=
      toByte_congr (by omega)
    rw [e0, e1]
  · intro hlo hhi fuel hf
    refine ⟨_, write_long_ok he hf { buf := buf, pos := pos } (by omega) (by omega), ?_⟩
    rw [open_stream, write_ulong_ok he hf { buf := buf, pos := pos }
      (by omega : 0 ≤ v % 2 ^ 32) (by omega)]
    have e0 : toByte (v % 2 ^ 32).toNat = toByte (v % 256).toNat :=
      toByte_congr (by omega)
    have e1 : toByte ((v % 2 ^ 32).toNat / 256) = toByte (v / 256 % 256).toNat :=
      toByte_congr (by omega)
    have e2 : toByte ((v % 2 ^ 32).toNat / 256 / 256) = toByte (v / 256 / 256 % 256).toNat :=
      toByte_congr (by omega)
    have e3 : toByte ((v % 2 ^ 32).toNat / 256 / 256 / 256)
        = toByte (v / 256 / 256 / 256 % 256).toNat :=
      toByte_congr (by omega)
    rw [e0, e1, e2, e3]

/-- Witness for C6: `write_short(-2)` and `write_ushort(65534)` under Little. -/
theorem signed_write_is_twos_complement_witness :
    ∃ s1, BufferedByteStream_write_short 2 (open_stream ENDIAN_LITTLE [] 0) (-2)
        = some (.ok (), s1) ∧
      BufferedByteStream_write_ushort 2 (open_stream ENDIAN_LITTLE [] 0) (-2 % 2 ^ 16)
        = some (.ok (), s1) :=
  (signed_write_is_twos_complement ENDIAN_LITTLE (Or.inr (Or.inr rfl)) [] 0 (-2)).1
    (by decide) (by decide) 2 (by decide)

/-! ## C7: unsigned unpack -/

theorem cread_at (pre c post : List Byte) (n : Int) (hn : n = (c.length : Int)) :
    cread { buf := pre ++ c ++ post, pos := pre.length } n
      = (c, { buf := pre ++ c ++ post, pos := pre.length + c.length }) := by
  subst hn
  exact cread_exact pre c post

theorem read_ushort_at (e : Char) (pre c post : List Byte) (hc : c.length = 2) :
    BufferedByteStream_read_ushort (open_stream e (pre ++ c ++ post) pre.length)
      = (.ok (unpack_uint e c 2), open_stream e (pre ++ c ++ post) (pre.length + 2)) := by
  have hr := cread_at pre c post 2 (by simp [hc])
  simp only [BufferedByteStream_read_ushort, open_stream, hr]
  simp [hc]

theorem read_ulong_at (e : Char) (pre c post : List Byte) (hc : c.length = 4) :
    BufferedByteStream_read_ulong (open_stream e (pre ++ c ++ post) pre.length)
      = (.ok (unpack_uint e c 4), open_stream e (pre ++ c ++ post) (pre.length + 4)) := by
  have hr := cread_at pre c post 4 (by simp [hc])
  simp only [BufferedByteStream_read_ulong, open_stream, hr]
  simp [hc]

theorem read_short_at (e : Char) (pre c post : List Byte) (hc : c.length = 2) :
    BufferedByteStream_read_short (open_stream e (pre ++ c ++ post) pre.length)
      = (.ok (unpack_int e c 2), open_stream e (pre ++ c ++ post) (pre.length + 2)) := by
  have hr := cread_at pre c post 2 (by simp [hc])
  simp only [BufferedByteStream_read_short, open_stream, hr]
  simp [hc]

theorem read_long_at (e : Char) (pre c post stale : List Byte) (hc : c.length = 4) :
    BufferedByteStream_read_long (open_stream e (pre ++ c ++ post) pre.length) stale
      = (.ok (unpack_int e (c ++ stale) 4),
          open_stream e (pre ++ c ++ post) (pre.length + 4)) := by
  have hr := cread_at pre c post 4 (by simp [hc])
  simp only [BufferedByteStream_read_long, open_stream, hr]
  simp [hc]

theorem not_big_of_little_or_native {e : Char} (h : e = ENDIAN_LITTLE ∨ e = ENDIAN_NATIVE) :
    ¬ (e = ENDIAN_BIG ∨ e = ENDIAN_NETWORK) := by
  rcases h with h | h <;> subst h <;> decide

theorem unsigned_unpack_range_two (e : Char) (b0 b1 : Byte) :
    0 ≤ unpack_uint e [b0, b1] 2 ∧ unpack_uint e [b0, b1] 2 < 2 ^ 16 := by
  have h0 := b0.isLt
  have h1 := b1.isLt
  by_cases he : e = ENDIAN_BIG ∨ e = ENDIAN_NETWORK
  · simp only [unpack_uint, unpack_loop_big2 he]
    omega
  · simp only [unpack_uint, unpack_loop_little2 he]
    omega

theorem unsigned_unpack_range_four (e : Char) (b0 b1 b2 b3 : Byte) :
    0 ≤ unpack_uint e [b0, b1, b2, b3] 4 ∧ unpack_uint e [b0, b1, b2, b3] 4 < 2 ^ 32 := by
  have h0 := b0.isLt
  have h1 := b1.isLt
  have h2 := b2.isLt
  have h3 := b3.isLt
  by_cases he : e = ENDIAN_BIG ∨ e = ENDIAN_NETWORK
  · simp only [unpack_uint, unpack_loop_big4 he]
    omega
  · simp only [unpack_uint, unpack_loop_little4 he]
    omega

/-- C7. Unsigned unpack equals the positional reference: with the bytes
`b0 b1` (resp. `b0 b1 b2 b3`) at the cursor of an open stream, `read_ushort`
(resp. `read_ulong`) returns `b0*256 + b1` (resp.
`b0*256^3 + b1*256^2 + b2*256 + b3`) under Big and Network, and `b0 + b1*256`
(resp. `b0 + b1*256 + b2*256^2 + b3*256^3`) under Little and Native, leaving the
cursor behind the bytes; whatever the byte order, the result lies in
`[0, 2^16)` (resp. `[0, 2^32)`). -/
theorem unsigned_unpack_positional (e : Char) (pre post : List Byte) (b0 b1 b2 b3 : Byte) :
    (e = ENDIAN_BIG ∨ e = ENDIAN_NETWORK →
      BufferedByteStream_read_ushort (open_stream e (pre ++ [b0, b1] ++ post) pre.length)
        = (.ok ((b0.val : Int) * 256 + b1.val),
            open_stream e (pre ++ [b0, b1] ++ post) (pre.length + 2)) ∧
      BufferedByteStream_read_ulong
          (open_stream e (pre ++ [b0, b1, b2, b3] ++ post) pre.length)
        = (.ok ((b0.val : Int) * 256 ^ 3 + b1.val * 256 ^ 2 + b2.val * 256 + b3.val),
            open_stream e (pre ++ [b0, b1, b2, b3] ++ post) (pre.length + 4))) ∧
    (e = ENDIAN_LITTLE ∨ e = ENDIAN_NATIVE →
      BufferedByteStream_read_ushort (open_stream e (pre ++ [b0, b1] ++ post) pre.length)
        = (.ok ((b0.val : Int) + b1.val * 256),
            open_stream e (pre ++ [b0, b1] ++ post) (pre.length + 2)) ∧
      BufferedByteStream_read_ulong
          (open_stream e (pre ++ [b0, b1, b2, b3] ++ post) pre.length)
        = (.ok ((b0.val : Int) + b1.val * 256 + b2.val * 256 ^ 2 + b3.val * 256 ^ 3),
            open_stream e (pre ++ [b0, b1, b2, b3] ++ post) (pre.length + 4))) ∧
    (∃ r, (BufferedByteStream_read_ushort
          (open_stream e (pre ++ [b0, b1] ++ post) pre.length)).1 = .ok r ∧
        0 ≤ r ∧ r < 2 ^ 16) ∧
    (∃ r, (BufferedByteStream_read_ulong
          (open_stream e (pre ++ [b0, b1, b2, b3] ++ post) pre.length)).1 = .ok r ∧
        0 ≤ r ∧ r < 2 ^ 32) := by
  have h0 := b0.isLt
  have h1 := b1.isLt
  have h2 := b2.isLt
  have h3 := b3.isLt
  rw [read_ushort_at e pre [b0, b1] post rfl, read_ulong_at e pre [b0, b1, b2, b3] post rfl]
  refine ⟨?_, ?_, ?_, ?_⟩
  · intro he
    simp only [unpack_uint, unpack_loop_big2 he, unpack_loop_big4 he]
    refine ⟨?_, ?_⟩ <;> congr 2
  · intro he
    have hb := not_big_of_little_or_native he
    simp only [unpack_uint, unpack_loop_little2 hb, unpack_loop_little4 hb]
    refine ⟨?_, ?_⟩ <;> congr 2 <;> push_cast <;> ring
  · exact ⟨_, rfl, unsigned_unpack_range_two e b0 b1⟩
  · exact ⟨_, rfl, unsigned_unpack_range_four e b0 b1 b2 b3⟩

/-- Witness for C7: the bytes `12 34` read under Network. -/
theorem unsigned_unpack_positional_witness :
    BufferedByteStream_read_ushort (open_stream ENDIAN_NETWORK ([] ++ [0x12, 0x34] ++ []) 0)
      = (.ok (((0x12 : Byte).val : Int) * 256 + (0x34 : Byte).val),
          open_stream ENDIAN_NETWORK ([] ++ [0x12, 0x34] ++ []) (0 + 2)) :=
  ((unsigned_unpack_positional ENDIAN_NETWORK [] [] 0x12 0x34 0 0).1 (Or.inr rfl)).1

/-! ## C8: signed unpack -/

theorem ordered_two_cases (e : Char) (b0 b1 : Byte) :
    ([b0, b1] = ordered e [b1, b0] ∨ [b0, b1] = ordered e [b0, b1]) := by
  by_cases he : e = ENDIAN_BIG ∨ e = ENDIAN_NETWORK
  · left
    simp [ordered, if_pos he]
  · right
    simp [ordered, if_neg he]

theorem ordered_four_cases (e : Char) (b0 b1 b2 b3 : Byte) :
    ([b0, b1, b2, b3] = ordered e [b3, b2, b1, b0]
      ∨ [b0, b1, b2, b3] = ordered e [b0, b1, b2, b3]) := by
  by_cases he : e = ENDIAN_BIG ∨ e = ENDIAN_NETWORK
  · left
    simp [ordered, if_pos he]
  · right
    simp [ordered, if_neg he]

theorem unpack_int_of_uint_two (e : Char) (b0 b1 : Byte) (rest : List Byte) :
    unpack_int e ([b0, b1] ++ rest) 2
      = if unpack_uint e [b0, b1] 2 < 2 ^ 15 then unpack_uint e [b0, b1] 2
        else unpack_uint e [b0, b1] 2 - 2 ^ 16 := by
  rcases ordered_two_cases e b0 b1 with h | h <;>
    · rw [h, unpack_int_two, unpack_uint_two]
      split <;> split <;> omega

theorem unpack_int_of_uint_four (e : Char) (b0 b1 b2 b3 : Byte) (rest : List Byte) :
    unpack_int e ([b0, b1, b2, b3] ++ rest) 4
      = if unpack_uint e [b0, b1, b2, b3] 4 < 2 ^ 31 then unpack_uint e [b0, b1, b2, b3] 4
        else unpack_uint e [b0, b1, b2, b3] 4 - 2 ^ 32 := by
  rcases ordered_four_cases e b0 b1 b2 b3 with h | h <;>
    · rw [h, unpack_int_four, unpack_uint_four]
      split <;> split <;> omega

/-- C8. Signed unpack sign-extends: with two (resp. four) bytes at the cursor of
an open stream whose unsigned value under the current byte order is `u` (what
`read_ushort`, resp. `read_ulong`, returns there), `read_short` (resp.
`read_long`) returns `u` when `u < 2^15` (resp. `2^31`) and `u - 2^16` (resp.
`u - 2^32`) otherwise, a value in `[-2^15, 2^15)` (resp. `[-2^31, 2^31)`). -/
theorem signed_unpack_sign_extends (e : Char) (pre post : List Byte) (b0 b1 b2 b3 : Byte) :
    (∃ u r, (BufferedByteStream_read_ushort
          (open_stream e (pre ++ [b0, b1] ++ post) pre.length)).1 = .ok u ∧
        (BufferedByteStream_read_short
          (open_stream e (pre ++ [b0, b1] ++ post) pre.length)).1 = .ok r ∧
        r = (if u < 2 ^ 15 then u else u - 2 ^ 16) ∧ -2 ^ 15 ≤ r ∧ r < 2 ^ 15) ∧
    (∃ u r, (BufferedByteStream_read_ulong
          (open_stream e (pre ++ [b0, b1, b2, b3] ++ post) pre.length)).1 = .ok u ∧
        (∀ stale, (BufferedByteStream_read_long
          (open_stream e (pre ++ [b0, b1, b2, b3] ++ post) pre.length) stale).1 = .ok r) ∧
        r = (if u < 2 ^ 31 then u else u - 2 ^ 32) ∧ -2 ^ 31 ≤ r ∧ r < 2 ^ 31) := by
  have h2 := (unsigned_unpack_range_two e b0 b1)
  have h4 := (unsigned_unpack_range_four e b0 b1 b2 b3)
  refine ⟨⟨unpack_uint e [b0, b1] 2, _, ?_, ?_, rfl, ?_, ?_⟩,
    ⟨unpack_uint e [b0, b1, b2, b3] 4, _, ?_, ?_, rfl, ?_, ?_⟩⟩
  · rw [read_ushort_at e pre [b0, b1] post rfl]
  · rw [read_short_at e pre [b0, b1] post rfl]
    have h := unpack_int_of_uint_two e b0 b1 []
    rw [List.append_nil] at h
    rw [h]
  · split <;> omega
  · split <;> omega
  · rw [read_ulong_at e pre [b0, b1, b2, b3] post rfl]
  · intro stale
    rw [read_long_at e pre [b0, b1, b2, b3] post stale rfl, unpack_int_of_uint_four]
  · split <;> omega
  · split <;> omega

/-! ## C9: read -/

/-- C9. The contract of `read(n)`: on an open stream (contents `buf`, cursor
`pos`) with `r = len(buf) - pos` bytes remaining, `read(n)` for `n >= 1` returns
exactly the `n` bytes starting at the cursor and advances the cursor by `n` when
`n <= r`, raises `EOFError` (EndOfStream) when `r = 0`, and raises `IOError`
(ShortRead, a different exception) when `0 < r < n`; `read()` without `n`
returns all `r` remaining bytes and leaves the cursor at the end. -/
theorem read_contract (e : Char) (buf : List Byte) (pos : Nat) (n : Int) (hn : 1 ≤ n) :
    (n ≤ ((buf.length - pos : Nat) : Int) →
      BufferedByteStream_read (open_stream e buf pos) (some n)
        = (.ok ((buf.drop pos).take n.toNat), open_stream e buf (pos + n.toNat)) ∧
      (((buf.drop pos).take n.toNat).length : Int) = n) ∧
    (buf.length - pos = 0 →
      (BufferedByteStream_read (open_stream e buf pos) (some n)).1 = .error .EOFError) ∧
    (0 < buf.length - pos → ((buf.length - pos : Nat) : Int) < n →
      (BufferedByteStream_read (open_stream e buf pos) (some n)).1 = .error .IOError) ∧
    PyExc.IOError ≠ PyExc.EOFError ∧
    BufferedByteStream_read (open_stream e buf pos) none
      = (.ok (buf.drop pos), open_stream e buf (pos + (buf.length - pos))) ∧
    (buf.drop pos).length = buf.length - pos ∧
    (pos ≤ buf.length →
      (BufferedByteStream_read (open_stream e buf pos) none).2
        = open_stream e buf buf.length) := by
  have hread : ∀ obj_n : Option Int,
      BufferedByteStream_read (open_stream e buf pos) obj_n
        = (let n : Int := match obj_n with
            | none => -1
            | some v => v
          if n > ((cread { buf := buf, pos := pos } n).1.length : Int) then
            if (cread { buf := buf, pos := pos } n).1.length > 0 then
              (.error .IOError,
                { buffer := some (cread { buf := buf, pos := pos } n).2, endian := e })
            else
              (.error .EOFError,
                { buffer := some (cread { buf := buf, pos := pos } n).2, endian := e })
          else
            (.ok (cread { buf := buf, pos := pos } n).1,
              { buffer := some (cread { buf := buf, pos := pos } n).2, endian := e })) := by
    intro obj_n
    rfl
  have hall : cread { buf := buf, pos := pos } (-1)
      = (buf.drop pos, { buf := buf, pos := pos + (buf.length - pos) }) := by
    have hneg : (-1 : Int) < 0 ∨ (-1 : Int) > (buf.length : Int) - (pos : Int) :=
      Or.inl (by decide)
    simp only [cread, if_pos hneg]
    by_cases hl : (buf.length : Int) - (pos : Int) < 0
    · have hd : buf.drop pos = [] := List.drop_eq_nil_of_le (by omega)
      have hz : buf.length - pos = 0 := by omega
      simp only [if_pos hl, hd, hz]
      simp
    · have ht : ((buf.length : Int) - (pos : Int)).toNat = buf.length - pos := by omega
      simp only [if_neg hl, ht]
      rw [List.take_of_length_le (by simp)]
  refine ⟨?_, ?_, ?_, by decide, ?_, by simp, ?_⟩
  · intro hle
    have hc : ¬ (n < 0 ∨ n > (buf.length : Int) - (pos : Int)) := by omega
    have hcr : cread { buf := buf, pos := pos } n
        = ((buf.drop pos).take n.toNat, { buf := buf, pos := pos + n.toNat }) := by
      simp only [cread, if_neg hc]
    have hlen : ((buf.drop pos).take n.toNat).length = n.toNat := by
      simp only [List.length_take, List.length_drop]
      omega
    have hnot : ¬ (n > (((buf.drop pos).take n.toNat).length : Int)) := by
      rw [hlen]
      omega
    refine ⟨?_, by rw [hlen]; omega⟩
    rw [hread]
    simp only [hcr, if_neg hnot, open_stream]
  · intro hz
    have hd : buf.drop pos = [] := List.drop_eq_nil_of_le (by omega)
    have hcr : (cread { buf := buf, pos := pos } n).1 = [] := by
      simp [cread, hd]
    rw [hread]
    simp only [hcr, List.length_nil]
    have h1 : n > ((0 : Nat) : Int) := by omega
    have h2 : 0 < n := by omega
    simp [h1, h2]
  · intro hpos hlt
    have hc : n < 0 ∨ n > (buf.length : Int) - (pos : Int) := by omega
    have hl : ¬ ((buf.length : Int) - (pos : Int) < 0) := by omega
    have ht : ((buf.length : Int) - (pos : Int)).toNat = buf.length - pos := by omega
    have hcr : (cread { buf := buf, pos := pos } n).1 = buf.drop pos := by
      simp only [cread, if_pos hc, if_neg hl, ht]
      rw [List.take_of_length_le (by simp)]
    rw [hread]
    simp only [hcr, List.length_drop]
    have h1 : n > ((buf.length - pos : Nat) : Int) := by omega
    simp [h1, hpos]
  · have hneg : ¬ (((buf.length - pos : Nat) : Int) < -1) := by omega
    rw [hread]
    simp only [hall]
    simp [open_stream, hneg]
  · intro hle
    have hneg : ¬ (((buf.length - pos : Nat) : Int) < -1) := by omega
    have hend : pos + (buf.length - pos) = buf.length := by omega
    rw [hread]
    simp only [hall]
    simp [open_stream, hend, hneg]

/-- Witness for C9: `read(2)` with three bytes left, with none and with one. -/
theorem read_contract_witness :
    (BufferedByteStream_read (open_stream ENDIAN_NETWORK [1, 2, 3] 0) (some 2)
        = (.ok (([1, 2, 3] : List Byte).drop 0 |>.take (2 : Int).toNat),
            open_stream ENDIAN_NETWORK [1, 2, 3] (0 + (2 : Int).toNat)) ∧
      (((([1, 2, 3] : List Byte).drop 0).take (2 : Int).toNat).length : Int) = 2) ∧
    (BufferedByteStream_read (open_stream ENDIAN_NETWORK [] 0) (some 2)).1
      = .error .EOFError ∧
    (BufferedByteStream_read (open_stream ENDIAN_NETWORK [1] 0) (some 2)).1
      = .error .IOError :=
  ⟨(read_contract ENDIAN_NETWORK [1, 2, 3] 0 2 (by decide)).1 (by decide),
    (read_contract ENDIAN_NETWORK [] 0 2 (by decide)).2.1 (by decide),
    (read_contract ENDIAN_NETWORK [1] 0 2 (by decide)).2.2.1 (by decide) (by decide)⟩

/-! ## C10: failed reads -/

/-- C10 as stated fails: with one byte left `read(2)` raises `IOError` and leaves
the cursor at 1, not at 0, so that the byte can no longer be read; likewise
`read_ushort` and `read_ulong` raise `EOFError` having consumed the bytes that
were there. -/
theorem failed_read_moves_cursor :
    (BufferedByteStream_read (open_stream ENDIAN_NETWORK [7] 0) (some 2)).1
        = .error .IOError ∧
      (BufferedByteStream_tell (open_stream ENDIAN_NETWORK [7] 0)).1 = .ok 0 ∧
      (BufferedByteStream_tell
        (BufferedByteStream_read (open_stream ENDIAN_NETWORK [7] 0) (some 2)).2).1 = .ok 1 ∧
      (BufferedByteStream_read
        (BufferedByteStream_read (open_stream ENDIAN_NETWORK [7] 0) (some 2)).2 (some 1)).1
        = .error .EOFError ∧
      (BufferedByteStream_read_ushort (open_stream ENDIAN_NETWORK [7] 0)).1
        = .error .EOFError ∧
      (BufferedByteStream_tell
        (BufferedByteStream_read_ushort (open_stream ENDIAN_NETWORK [7] 0)).2).1 = .ok 1 ∧
      (BufferedByteStream_read_ulong (open_stream ENDIAN_NETWORK [7, 8, 9] 0)).1
        = .error .EOFError ∧
      (BufferedByteStream_tell
        (BufferedByteStream_read_ulong (open_stream ENDIAN_NETWORK [7, 8, 9] 0)).2).1
        = .ok 3 := by
  decide

/-- When `cread` returns another number of bytes than asked for, it has returned
all the bytes after the cursor and moved the cursor past them. -/
theorem cread_short (io : Oobject) (n : Int) (h : ((cread io n).1.length : Int) ≠ n) :
    cread io n
      = (io.buf.drop io.pos, { buf := io.buf, pos := io.pos + (io.buf.length - io.pos) }) := by
  by_cases hc : n < 0 ∨ n > (io.buf.length : Int) - (io.pos : Int)
  · have ht : (if (io.buf.length : Int) - (io.pos : Int) < 0 then (0 : Int)
        else (io.buf.length : Int) - (io.pos : Int)).toNat = io.buf.length - io.pos := by
      split <;> omega
    simp only [cread, if_pos hc, ht]
    rw [List.take_of_length_le (by simp)]
  · exfalso
    apply h
    simp only [cread, if_neg hc, List.length_take, List.length_drop]
    omega

theorem cread_short_fst (io : Oobject) (n : Int) (h : ((cread io n).1.length : Int) ≠ n) :
    (cread io n).2 = { buf := io.buf, pos := io.pos + (io.buf.length - io.pos) } := by
  rw [cread_short io n h]

theorem read_uchar_failed (e : Char) (buf : List Byte) (pos : Nat) (ex : PyExc)
    (h : (BufferedByteStream_read_uchar (open_stream e buf pos)).1 = .error ex) :
    (BufferedByteStream_read_uchar (open_stream e buf pos)).2
      = open_stream e buf (pos + (buf.length - pos)) := by
  have hdef : BufferedByteStream_read_uchar (open_stream e buf pos)
      = (if (cread { buf := buf, pos := pos } 1).1.length ≠ 1 then
          (.error .EOFError,
            { buffer := some (cread { buf := buf, pos := pos } 1).2, endian := e })
        else
          (.ok (((cread { buf := buf, pos := pos } 1).1.getD 0 0).val),
            { buffer := some (cread { buf := buf, pos := pos } 1).2, endian := e })) :=
    rfl
  rw [hdef] at h ⊢
  by_cases hl : (cread { buf := buf, pos := pos } 1).1.length ≠ 1
  · rw [if_pos hl]
    have hs := cread_short_fst { buf := buf, pos := pos } 1 (by exact_mod_cast hl)
    simp only at hs
    simp only [hs, open_stream]
  · rw [if_neg hl] at h
    cases h

theorem read_char_failed (e : Char) (buf : List Byte) (pos : Nat) (ex : PyExc)
    (h : (BufferedByteStream_read_char (open_stream e buf pos)).1 = .error ex) :
    (BufferedByteStream_read_char (open_stream e buf pos)).2
      = open_stream e buf (pos + (buf.length - pos)) := by
  have hdef : BufferedByteStream_read_char (open_stream e buf pos)
      = (if (cread { buf := buf, pos := pos } 1).1.length ≠ 1 then
          (.error .EOFError,
            { buffer := some (cread { buf := buf, pos := pos } 1).2, endian := e })
        else
          (.ok (char_value ((cread { buf := buf, pos := pos } 1).1.getD 0 0)),
            { buffer := some (cread { buf := buf, pos := pos } 1).2, endian := e })) :=
    rfl
  rw [hdef] at h ⊢
  by_cases hl : (cread { buf := buf, pos := pos } 1).1.length ≠ 1
  · rw [if_pos hl]
    have hs := cread_short_fst { buf := buf, pos := pos } 1 (by exact_mod_cast hl)
    simp only at hs
    simp only [hs, open_stream]
  · rw [if_neg hl] at h
    cases h

theorem read_ushort_failed (e : Char) (buf : List Byte) (pos : Nat) (ex : PyExc)
    (h : (BufferedByteStream_read_ushort (open_stream e buf pos)).1 = .error ex) :
    (BufferedByteStream_read_ushort (open_stream e buf pos)).2
      = open_stream e buf (pos + (buf.length - pos)) := by
  have hdef : BufferedByteStream_read_ushort (open_stream e buf pos)
      = (if (cread { buf := buf, pos := pos } 2).1.length ≠ 2 then
          (.error .EOFError,
            { buffer := some (cread { buf := buf, pos := pos } 2).2, endian := e })
        else
          (.ok (unpack_uint e (cread { buf := buf, pos := pos } 2).1 2),
            { buffer := some (cread { buf := buf, pos := pos } 2).2, endian := e })) :=
    rfl
  rw [hdef] at h ⊢
  by_cases hl : (cread { buf := buf, pos := pos } 2).1.length ≠ 2
  · rw [if_pos hl]
    have hs := cread_short_fst { buf := buf, pos := pos } 2 (by exact_mod_cast hl)
    simp only at hs
    simp only [hs, open_stream]
  · rw [if_neg hl] at h
    cases h

theorem read_short_failed (e : Char) (buf : List Byte) (pos : Nat) (ex : PyExc)
    (h : (BufferedByteStream_read_short (open_stream e buf pos)).1 = .error ex) :
    (BufferedByteStream_read_short (open_stream e buf pos)).2
      = open_stream e buf (pos + (buf.length - pos)) := by
  have hdef : BufferedByteStream_read_short (open_stream e buf pos)
      = (if (cread { buf := buf, pos := pos } 2).1.length ≠ 2 then
          (.error .EOFError,
            { buffer := some (cread { buf := buf, pos := pos } 2).2, endian := e })
        else
          (.ok (unpack_int e (cread { buf := buf, pos := pos } 2).1 2),
            { buffer := some (cread { buf := buf, pos := pos } 2).2, endian := e })) :=
    rfl
  rw [hdef] at h ⊢
  by_cases hl : (cread { buf := buf, pos := pos } 2).1.length ≠ 2
  · rw [if_pos hl]
    have hs := cread_short_fst { buf := buf, pos := pos } 2 (by exact_mod_cast hl)
    simp only at hs
    simp only [hs, open_stream]
  · rw [if_neg hl] at h
    cases h

theorem read_ulong_failed (e : Char) (buf : List Byte) (pos : Nat) (ex : PyExc)
    (h : (BufferedByteStream_read_ulong (open_stream e buf pos)).1 = .error ex) :
    (BufferedByteStream_read_ulong (open_stream e buf pos)).2
      = open_stream e buf (pos + (buf.length - pos)) := by
  have hdef : BufferedByteStream_read_ulong (open_stream e buf pos)
      = (if (cread { buf := buf, pos := pos } 4).1.length ≠ 4 then
          (.error .EOFError,
            { buffer := some (cread { buf := buf, pos := pos } 4).2, endian := e })
        else
          (.ok (unpack_uint e (cread { buf := buf, pos := pos } 4).1 4),
            { buffer := some (cread { buf := buf, pos := pos } 4).2, endian := e })) :=
    rfl
  rw [hdef] at h ⊢
  by_cases hl : (cread { buf := buf, pos := pos } 4).1.length ≠ 4
  · rw [if_pos hl]
    have hs := cread_short_fst { buf := buf, pos := pos } 4 (by exact_mod_cast hl)
    simp only at hs
    simp only [hs, open_stream]
  · rw [if_neg hl] at h
    cases h

theorem read_float_failed (e : Char) (buf : List Byte) (pos : Nat) (ex : PyExc)
    (h : (BufferedByteStream_read_float (open_stream e buf pos)).1 = .error ex) :
    (BufferedByteStream_read_float (open_stream e buf pos)).2
      = open_stream e buf (pos + (buf.length - pos)) := by
  have hdef : BufferedByteStream_read_float (open_stream e buf pos)
      = (if (cread { buf := buf, pos := pos } 4).1.length ≠ 4 then
          (.error .EOFError,
            { buffer := some (cread { buf := buf, pos := pos } 4).2, endian := e })
        else
          (.ok ((cread { buf := buf, pos := pos } 4).1),
            { buffer := some (cread { buf := buf, pos := pos } 4).2, endian := e })) :=
    rfl
  rw [hdef] at h ⊢
  by_cases hl : (cread { buf := buf, pos := pos } 4).1.length ≠ 4
  · rw [if_pos hl]
    have hs := cread_short_fst { buf := buf, pos := pos } 4 (by exact_mod_cast hl)
    simp only at hs
    simp only [hs, open_stream]
  · rw [if_neg hl] at h
    cases h

theorem read_double_failed (e : Char) (buf : List Byte) (pos : Nat) (ex : PyExc)
    (h : (BufferedByteStream_read_double (open_stream e buf pos)).1 = .error ex) :
    (BufferedByteStream_read_double (open_stream e buf pos)).2
      = open_stream e buf (pos + (buf.length - pos)) := by
  have hdef : BufferedByteStream_read_double (open_stream e buf pos)
      = (if (cread { buf := buf, pos := pos } 8).1.length ≠ 8 then
          (.error .EOFError,
            { buffer := some (cread { buf := buf, pos := pos } 8).2, endian := e })
        else
          (.ok ((cread { buf := buf, pos := pos } 8).1),
            { buffer := some (cread { buf := buf, pos := pos } 8).2, endian := e })) :=
    rfl
  rw [hdef] at h ⊢
  by_cases hl : (cread { buf := buf, pos := pos } 8).1.length ≠ 8
  · rw [if_pos hl]
    have hs := cread_short_fst { buf := buf, pos := pos } 8 (by exact_mod_cast hl)
    simp only at hs
    simp only [hs, open_stream]
  · rw [if_neg hl] at h
    cases h

theorem read_failed_body (e : Char) (buf : List Byte) (pos : Nat) (n : Int) (ex : PyExc)
    (h : (if n > ((cread { buf := buf, pos := pos } n).1.length : Int) then
            if (cread { buf := buf, pos := pos } n).1.length > 0 then
              ((.error .IOError : Except PyExc (List Byte)),
                ({ buffer := some (cread { buf := buf, pos := pos } n).2, endian := e } :
                  BufferedByteStream))
            else
              (.error .EOFError,
                { buffer := some (cread { buf := buf, pos := pos } n).2, endian := e })
          else
            (.ok (cread { buf := buf, pos := pos } n).1,
              { buffer := some (cread { buf := buf, pos := pos } n).2, endian := e })).1
        = .error ex) :
    (if n > ((cread { buf := buf, pos := pos } n).1.length : Int) then
            if (cread { buf := buf, pos := pos } n).1.length > 0 then
              ((.error .IOError : Except PyExc (List Byte)),
                ({ buffer := some (cread { buf := buf, pos := pos } n).2, endian := e } :
                  BufferedByteStream))
            else
              (.error .EOFError,
                { buffer := some (cread { buf := buf, pos := pos } n).2, endian := e })
          else
            (.ok (cread { buf := buf, pos := pos } n).1,
              { buffer := some (cread { buf := buf, pos := pos } n).2, endian := e })).2
      = open_stream e buf (pos + (buf.length - pos)) := by
  by_cases hl : n > ((cread { buf := buf, pos := pos } n).1.length : Int)
  · have hs := cread_short_fst { buf := buf, pos := pos } n (by omega)
    simp only at hs
    rw [if_pos hl]
    split <;> simp only [hs, open_stream]
  · rw [if_neg hl] at h
    cases h

theorem read_failed (e : Char) (buf : List Byte) (pos : Nat) (obj_n : Option Int) (ex : PyExc)
    (h : (BufferedByteStream_read (open_stream e buf pos) obj_n).1 = .error ex) :
    (BufferedByteStream_read (open_stream e buf pos) obj_n).2
      = open_stream e buf (pos + (buf.length - pos)) := by
  cases obj_n with
  | none => exact read_failed_body e buf pos (-1) ex h
  | some v => exact read_failed_body e buf pos v ex h

theorem read_utf8_string_failed (e : Char) (buf : List Byte) (pos : Nat) (len : Int)
    (ex : PyExc) (hex : ex = .EOFError ∨ ex = .IOError)
    (h : (BufferedByteStream_read_utf8_string (open_stream e buf pos) len).1 = .error ex) :
    (BufferedByteStream_read_utf8_string (open_stream e buf pos) len).2
      = open_stream e buf (pos + (buf.length - pos)) := by
  have hdef : BufferedByteStream_read_utf8_string (open_stream e buf pos) len
      = (if len = -1 then (.error .SystemError, open_stream e buf pos)
        else if ((cread { buf := buf, pos := pos } len).1.length : Int) ≠ len then
          (.error .EOFError,
            { buffer := some (cread { buf := buf, pos := pos } len).2, endian := e })
        else
          match PyUnicode_DecodeUTF8 (cread { buf := buf, pos := pos } len).1 "" with
          | .error ex1 =>
            (.error ex1,
              { buffer := some (cread { buf := buf, pos := pos } len).2, endian := e })
          | .ok t =>
            (.ok t,
              { buffer := some (cread { buf := buf, pos := pos } len).2, endian := e })) :=
    rfl
  rw [hdef] at h ⊢
  by_cases h1 : len = -1
  · rw [if_pos h1] at h
    rcases hex with hx | hx <;> subst hx <;> cases h
  · rw [if_neg h1] at h ⊢
    by_cases hl : ((cread { buf := buf, pos := pos } len).1.length : Int) ≠ len
    · have hs := cread_short_fst { buf := buf, pos := pos } len hl
      simp only at hs
      rw [if_pos hl]
      simp only [hs, open_stream]
    · rw [if_neg hl] at h
      exfalso
      unfold PyUnicode_DecodeUTF8 at h
      cases hd : utf8_decode (cread { buf := buf, pos := pos } len).1 with
      | none =>
        rw [hd] at h
        have hlook : PyCodec_LookupError "" = .error .LookupError := by decide
        rw [hlook] at h
        rcases hex with hx | hx <;> subst hx <;> cases h
      | some cs =>
        rw [hd] at h
        cases h

/-- When `cread` is asked for one byte and returns another number, nothing was
left after the cursor. -/
theorem cread_one_short (buf : List Byte) (pos : Nat)
    (h : (cread { buf := buf, pos := pos } 1).1.length ≠ 1) : buf.length - pos = 0 := by
  by_cases hc : (1 : Int) < 0 ∨ (1 : Int) > (buf.length : Int) - (pos : Int)
  · omega
  · exfalso
    apply h
    simp only [cread, if_neg hc, List.length_take, List.length_drop]
    omega

theorem read_uchar_failed_unchanged (e : Char) (buf : List Byte) (pos : Nat) (ex : PyExc)
    (h : (BufferedByteStream_read_uchar (open_stream e buf pos)).1 = .error ex) :
    (BufferedByteStream_read_uchar (open_stream e buf pos)).2 = open_stream e buf pos := by
  have hz : buf.length - pos = 0 := by
    apply cread_one_short
    intro hl
    have hdef : (BufferedByteStream_read_uchar (open_stream e buf pos)).1
        = (if (cread { buf := buf, pos := pos } 1).1.length ≠ 1 then .error .EOFError
          else .ok (((cread { buf := buf, pos := pos } 1).1.getD 0 0).val : Int)) := by
      simp only [BufferedByteStream_read_uchar, open_stream]
      split <;> rfl
    rw [hdef, if_neg (by simpa using hl)] at h
    cases h
  rw [read_uchar_failed e buf pos ex h, hz]
  rfl

theorem read_char_failed_unchanged (e : Char) (buf : List Byte) (pos : Nat) (ex : PyExc)
    (h : (BufferedByteStream_read_char (open_stream e buf pos)).1 = .error ex) :
    (BufferedByteStream_read_char (open_stream e buf pos)).2 = open_stream e buf pos := by
  have hz : buf.length - pos = 0 := by
    apply cread_one_short
    intro hl
    have hdef : (BufferedByteStream_read_char (open_stream e buf pos)).1
        = (if (cread { buf := buf, pos := pos } 1).1.length ≠ 1 then .error .EOFError
          else .ok (char_value ((cread { buf := buf, pos := pos } 1).1.getD 0 0))) := by
      simp only [BufferedByteStream_read_char, open_stream]
      split <;> rfl
    rw [hdef, if_neg (by simpa using hl)] at h
    cases h
  rw [read_char_failed e buf pos ex h, hz]
  rfl

theorem read_eof_unchanged (e : Char) (buf : List Byte) (pos : Nat) (obj_n : Option Int)
    (h : (BufferedByteStream_read (open_stream e buf pos) obj_n).1 = .error .EOFError) :
    (BufferedByteStream_read (open_stream e buf pos) obj_n).2 = open_stream e buf pos := by
  have hbody : ∀ n : Int,
      (if n > ((cread { buf := buf, pos := pos } n).1.length : Int) then
            if (cread { buf := buf, pos := pos } n).1.length > 0 then
              ((.error .IOError : Except PyExc (List Byte)),
                ({ buffer := some (cread { buf := buf, pos := pos } n).2, endian := e } :
                  BufferedByteStream))
            else
              (.error .EOFError,
                { buffer := some (cread { buf := buf, pos := pos } n).2, endian := e })
          else
            (.ok (cread { buf := buf, pos := pos } n).1,
              { buffer := some (cread { buf := buf, pos := pos } n).2, endian := e })).1
        = .error .EOFError → buf.length - pos = 0 := by
    intro n hn
    by_cases hl : n > ((cread { buf := buf, pos := pos } n).1.length : Int)
    · rw [if_pos hl] at hn
      by_cases hp : (cread { buf := buf, pos := pos } n).1.length > 0
      · rw [if_pos hp] at hn
        cases hn
      · have hs := cread_short { buf := buf, pos := pos } n (by omega)
        rw [hs] at hp
        simp only [List.length_drop] at hp
        omega
    · rw [if_neg hl] at hn
      cases hn
  have hz : buf.length - pos = 0 := by
    cases obj_n with
    | none => exact hbody (-1) h
    | some v => exact hbody v h
  rw [read_failed e buf pos obj_n _ h, hz]
  rfl

theorem read_long_never_fails (e : Char) (buf : List Byte) (pos : Nat) (stale : List Byte)
    (ex : PyExc) :
    (BufferedByteStream_read_long (open_stream e buf pos) stale).1 ≠ .error ex := by
  intro h
  cases h

/-- C10, amended. On an open stream (contents `buf`, cursor `pos`), a read that
raises `EOFError` or `IOError` leaves the stream open with the same contents and
byte order, and the cursor behind all the bytes that remained, at
`pos + (len(buf) - pos)` (subtraction truncated at 0): this holds for `read(n)`,
`read_uchar`, `read_char`, `read_ushort`, `read_short`, `read_ulong`,
`read_float`, `read_double` and `read_utf8_string`.  The cursor is therefore
unchanged exactly when no byte remained: always so when `read(n)` raises
`EOFError` and when `read_uchar` or `read_char` fail.  `read_long` raises
neither. -/
theorem failed_read_consumes_remaining (e : Char) (buf : List Byte) (pos : Nat)
    (ex : PyExc) (hex : ex = .EOFError ∨ ex = .IOError) :
    (∀ obj_n, (BufferedByteStream_read (open_stream e buf pos) obj_n).1 = .error ex →
      (BufferedByteStream_read (open_stream e buf pos) obj_n).2
        = open_stream e buf (pos + (buf.length - pos))) ∧
    (∀ obj_n, (BufferedByteStream_read (open_stream e buf pos) obj_n).1 = .error .EOFError →
      (BufferedByteStream_read (open_stream e buf pos) obj_n).2 = open_stream e buf pos) ∧
    ((BufferedByteStream_read_uchar (open_stream e buf pos)).1 = .error ex →
      (BufferedByteStream_read_uchar (open_stream e buf pos)).2 = open_stream e buf pos) ∧
    ((BufferedByteStream_read_char (open_stream e buf pos)).1 = .error ex →
      (BufferedByteStream_read_char (open_stream e buf pos)).2 = open_stream e buf pos) ∧
    ((BufferedByteStream_read_ushort (open_stream e buf pos)).1 = .error ex →
      (BufferedByteStream_read_ushort (open_stream e buf pos)).2
        = open_stream e buf (pos + (buf.length - pos))) ∧
    ((BufferedByteStream_read_short (open_stream e buf pos)).1 = .error ex →
      (BufferedByteStream_read_short (open_stream e buf pos)).2
        = open_stream e buf (pos + (buf.length - pos))) ∧
    ((BufferedByteStream_read_ulong (open_stream e buf pos)).1 = .error ex →
      (BufferedByteStream_read_ulong (open_stream e buf pos)).2
        = open_stream e buf (pos + (buf.length - pos))) ∧
    ((BufferedByteStream_read_float (open_stream e buf pos)).1 = .error ex →
      (BufferedByteStream_read_float (open_stream e buf pos)).2
        = open_stream e buf (pos + (buf.length - pos))) ∧
    ((BufferedByteStream_read_double (open_stream e buf pos)).1 = .error ex →
      (BufferedByteStream_read_double (open_stream e buf pos)).2
        = open_stream e buf (pos + (buf.length - pos))) ∧
    (∀ len, (BufferedByteStream_read_utf8_string (open_stream e buf pos) len).1 = .error ex →
      (BufferedByteStream_read_utf8_string (open_stream e buf pos) len).2
        = open_stream e buf (pos + (buf.length - pos))) ∧
    (∀ stale, (BufferedByteStream_read_long (open_stream e buf pos) stale).1 ≠ .error ex) :=
  ⟨fun obj_n h => read_failed e buf pos obj_n ex h,
    fun obj_n h => read_eof_unchanged e buf pos obj_n h,
    read_uchar_failed_unchanged e buf pos ex,
    read_char_failed_unchanged e buf pos ex,
    read_ushort_failed e buf pos ex,
    read_short_failed e buf pos ex,
    read_ulong_failed e buf pos ex,
    read_float_failed e buf pos ex,
    read_double_failed e buf pos ex,
    fun len h => read_utf8_string_failed e buf pos len ex hex h,
    fun stale => read_long_never_fails e buf pos stale ex⟩

/-- Witness for C10, amended: `read(5)` with two bytes left of three raises
`IOError` and leaves the cursor at the end. -/
theorem failed_read_consumes_remaining_witness :
    (BufferedByteStream_read (open_stream ENDIAN_NETWORK [1, 2, 3] 1) (some 5)).2
      = open_stream ENDIAN_NETWORK [1, 2, 3] (1 + (([1, 2, 3] : List Byte).length - 1)) :=
  (failed_read_consumes_remaining ENDIAN_NETWORK [1, 2, 3] 1 .IOError (Or.inr rfl)).1
    (some 5) (by decide)

/-! ## C11: typed reads on missing data -/

theorem fresh_stream_eq :
    (BufferedByteStream_init BufferedByteStream_new none).2.1
      = open_stream ENDIAN_NETWORK [] 0 := by
  decide

/-- C11, the code at the failing input.  On an empty, freshly constructed stream
`read_long` raises nothing: it returns the integer that `unpack_int` makes of the
four bytes `stale` found in memory past the (empty) contents, for instance 42 for
`00 00 00 2A`, and with two bytes `01 02` left it returns a value made of them
and of two stale bytes; `read_ulong` on the same streams raises `EOFError`. -/
theorem read_long_misses_check :
    (∀ stale, BufferedByteStream_read_long
        (BufferedByteStream_init BufferedByteStream_new none).2.1 stale
      = (.ok (unpack_int ENDIAN_NETWORK stale 4), open_stream ENDIAN_NETWORK [] 0)) ∧
    (BufferedByteStream_read_long
        (BufferedByteStream_init BufferedByteStream_new none).2.1 [0, 0, 0, 42]).1 = .ok 42 ∧
    BufferedByteStream_read_long (open_stream ENDIAN_NETWORK [1, 2] 0) [3, 4]
      = (.ok 0x01020304, open_stream ENDIAN_NETWORK [1, 2] 2) ∧
    (BufferedByteStream_read_ulong
        (BufferedByteStream_init BufferedByteStream_new none).2.1).1 = .error .EOFError ∧
    (BufferedByteStream_read_ulong (open_stream ENDIAN_NETWORK [1, 2] 0)).1
      = .error .EOFError := by
  refine ⟨?_, by decide, by decide, by decide, by decide⟩
  intro stale
  rw [fresh_stream_eq]
  rfl

/-! ## C12: the exception of a short typed read -/

/-- C12 as stated fails: with one byte of two, three of four or five of eight
left, `read_ushort`, `read_short`, `read_ulong`, `read_float` and `read_double`
raise `EOFError` (EndOfStream), not `IOError` (ShortRead). -/
theorem short_typed_read_raises_eof :
    (BufferedByteStream_read_ushort (open_stream ENDIAN_NETWORK [7] 0)).1
        = .error .EOFError ∧
      (BufferedByteStream_read_ushort (open_stream ENDIAN_NETWORK [7] 0)).1
        ≠ .error .IOError ∧
      (BufferedByteStream_read_short (open_stream ENDIAN_NETWORK [7] 0)).1
        = .error .EOFError ∧
      (BufferedByteStream_read_ulong (open_stream ENDIAN_NETWORK [7, 8, 9] 0)).1
        = .error .EOFError ∧
      (BufferedByteStream_read_float (open_stream ENDIAN_NETWORK [7, 8, 9] 0)).1
        = .error .EOFError ∧
      (BufferedByteStream_read_double (open_stream ENDIAN_NETWORK [1, 2, 3, 4, 5] 0)).1
        = .error .EOFError := by
  decide

theorem cread_length_of_short (buf : List Byte) (pos : Nat) (n : Int)
    (h : ((buf.length - pos : Nat) : Int) < n) :
    (cread { buf := buf, pos := pos } n).1.length = buf.length - pos := by
  have hc : n < 0 ∨ n > (buf.length : Int) - (pos : Int) := by omega
  have ht : (if (buf.length : Int) - (pos : Int) < 0 then (0 : Int)
      else (buf.length : Int) - (pos : Int)).toNat = buf.length - pos := by
    split <;> omega
  simp only [cread, if_pos hc, ht, List.length_take, List.length_drop]
  omega

theorem read_ushort_error_kind (e : Char) (buf : List Byte) (pos : Nat) :
    (buf.length - pos < 2 →
      (BufferedByteStream_read_ushort (open_stream e buf pos)).1 = .error .EOFError) ∧
    (BufferedByteStream_read_ushort (open_stream e buf pos)).1 ≠ .error .IOError := by
  have hdef : (BufferedByteStream_read_ushort (open_stream e buf pos)).1
      = (if (cread { buf := buf, pos := pos } 2).1.length ≠ 2 then .error .EOFError
        else .ok (unpack_uint e (cread { buf := buf, pos := pos } 2).1 2)) := by
    simp only [BufferedByteStream_read_ushort, open_stream]
    split <;> rfl
  rw [hdef]
  refine ⟨?_, ?_⟩
  · intro hk
    have hl := cread_length_of_short buf pos 2 (by omega)
    rw [if_pos (by omega)]
  · split <;> intro hc <;> cases hc

theorem read_short_error_kind (e : Char) (buf : List Byte) (pos : Nat) :
    (buf.length - pos < 2 →
      (BufferedByteStream_read_short (open_stream e buf pos)).1 = .error .EOFError) ∧
    (BufferedByteStream_read_short (open_stream e buf pos)).1 ≠ .error .IOError := by
  have hdef : (BufferedByteStream_read_short (open_stream e buf pos)).1
      = (if (cread { buf := buf, pos := pos } 2).1.length ≠ 2 then .error .EOFError
        else .ok (unpack_int e (cread { buf := buf, pos := pos } 2).1 2)) := by
    simp only [BufferedByteStream_read_short, open_stream]
    split <;> rfl
  rw [hdef]
  refine ⟨?_, ?_⟩
  · intro hk
    have hl := cread_length_of_short buf pos 2 (by omega)
    rw [if_pos (by omega)]
  · split <;> intro hc <;> cases hc

theorem read_ulong_error_kind (e : Char) (buf : List Byte) (pos : Nat) :
    (buf.length - pos < 4 →
      (BufferedByteStream_read_ulong (open_stream e buf pos)).1 = .error .EOFError) ∧
    (BufferedByteStream_read_ulong (open_stream e buf pos)).1 ≠ .error .IOError := by
  have hdef : (BufferedByteStream_read_ulong (open_stream e buf pos)).1
      = (if (cread { buf := buf, pos := pos } 4).1.length ≠ 4 then .error .EOFError
        else .ok (unpack_uint e (cread { buf := buf, pos := pos } 4).1 4)) := by
    simp only [BufferedByteStream_read_ulong, open_stream]
    split <;> rfl
  rw [hdef]
  refine ⟨?_, ?_⟩
  · intro hk
    have hl := cread_length_of_short buf pos 4 (by omega)
    rw [if_pos (by omega)]
  · split <;> intro hc <;> cases hc

theorem read_float_error_kind (e : Char) (buf : List Byte) (pos : Nat) :
    (buf.length - pos < 4 →
      (BufferedByteStream_read_float (open_stream e buf pos)).1 = .error .EOFError) ∧
    (BufferedByteStream_read_float (open_stream e buf pos)).1 ≠ .error .IOError := by
  have hdef : (BufferedByteStream_read_float (open_stream e buf pos)).1
      = (if (cread { buf := buf, pos := pos } 4).1.length ≠ 4 then .error .EOFError
        else .ok ((cread { buf := buf, pos := pos } 4).1)) := by
    simp only [BufferedByteStream_read_float, open_stream]
    split <;> rfl
  rw [hdef]
  refine ⟨?_, ?_⟩
  · intro hk
    have hl := cread_length_of_short buf pos 4 (by omega)
    rw [if_pos (by omega)]
  · split <;> intro hc <;> cases hc

theorem read_double_error_kind (e : Char) (buf : List Byte) (pos : Nat) :
    (buf.length - pos < 8 →
      (BufferedByteStream_read_double (open_stream e buf pos)).1 = .error .EOFError) ∧
    (BufferedByteStream_read_double (open_stream e buf pos)).1 ≠ .error .IOError := by
  have hdef : (BufferedByteStream_read_double (open_stream e buf pos)).1
      = (if (cread { buf := buf, pos := pos } 8).1.length ≠ 8 then .error .EOFError
        else .ok ((cread { buf := buf, pos := pos } 8).1)) := by
    simp only [BufferedByteStream_read_double, open_stream]
    split <;> rfl
  rw [hdef]
  refine ⟨?_, ?_⟩
  · intro hk
    have hl := cread_length_of_short buf pos 8 (by omega)
    rw [if_pos (by omega)]
  · split <;> intro hc <;> cases hc

/-- C12, amended.  On an open stream (contents `buf`, cursor `pos`) with fewer
bytes remaining than its width (2, 2, 4, 4, 8), each of `read_ushort`,
`read_short`, `read_ulong`, `read_float` and `read_double` raises `EOFError`
(EndOfStream), whether no byte or some bytes remain; none of them raises
`IOError` (ShortRead) in any state. -/
theorem short_typed_read_is_end_of_stream (e : Char) (buf : List Byte) (pos : Nat) :
    ((buf.length - pos < 2 →
        (BufferedByteStream_read_ushort (open_stream e buf pos)).1 = .error .EOFError) ∧
      (BufferedByteStream_read_ushort (open_stream e buf pos)).1 ≠ .error .IOError) ∧
    ((buf.length - pos < 2 →
        (BufferedByteStream_read_short (open_stream e buf pos)).1 = .error .EOFError) ∧
      (BufferedByteStream_read_short (open_stream e buf pos)).1 ≠ .error .IOError) ∧
    ((buf.length - pos < 4 →
        (BufferedByteStream_read_ulong (open_stream e buf pos)).1 = .error .EOFError) ∧
      (BufferedByteStream_read_ulong (open_stream e buf pos)).1 ≠ .error .IOError) ∧
    ((buf.length - pos < 4 →
        (BufferedByteStream_read_float (open_stream e buf pos)).1 = .error .EOFError) ∧
      (BufferedByteStream_read_float (open_stream e buf pos)).1 ≠ .error .IOError) ∧
    ((buf.length - pos < 8 →
        (BufferedByteStream_read_double (open_stream e buf pos)).1 = .error .EOFError) ∧
      (BufferedByteStream_read_double (open_stream e buf pos)).1 ≠ .error .IOError) :=
  ⟨read_ushort_error_kind e buf pos, read_short_error_kind e buf pos,
    read_ulong_error_kind e buf pos, read_float_error_kind e buf pos,
    read_double_error_kind e buf pos⟩

/-- Witness for C12, amended: `read_ulong` with three bytes left. -/
theorem short_typed_read_is_end_of_stream_witness :
    (BufferedByteStream_read_ulong (open_stream ENDIAN_LITTLE [1, 2, 3, 4, 5] 2)).1
      = .error .EOFError :=
  (short_typed_read_is_end_of_stream ENDIAN_LITTLE [1, 2, 3, 4, 5] 2).2.2.1.1 (by decide)

/-! ## C13: peek -/

theorem O_seek_abs (io : Oobject) (p : Nat) :
    O_seek io (p : Int) 0 = { buf := io.buf, pos := p } := by
  have h : ¬ ((p : Int) < 0) := by omega
  simp [O_seek, if_neg h]

theorem O_seek_end (io : Oobject) :
    O_seek io 0 2 = { buf := io.buf, pos := io.buf.length } := by
  have h : ¬ ((0 : Int) + (io.buf.length : Int) < 0) := by omega
  simp only [O_seek, if_pos, if_neg h]
  simp

/-- Asked for `n >= 0` bytes, `cread` returns the first `n` bytes after the
cursor, or all of them when fewer remain, and advances the cursor by their
number. -/
theorem cread_nonneg (buf : List Byte) (pos : Nat) (n : Int) (hn : 0 ≤ n) :
    cread { buf := buf, pos := pos } n
      = ((buf.drop pos).take n.toNat,
          { buf := buf, pos := pos + min n.toNat (buf.length - pos) }) := by
  by_cases hc : n < 0 ∨ n > (buf.length : Int) - (pos : Int)
  · have ht : (if (buf.length : Int) - (pos : Int) < 0 then (0 : Int)
        else (buf.length : Int) - (pos : Int)).toNat = buf.length - pos := by
      split <;> omega
    have hmin : min n.toNat (buf.length - pos) = buf.length - pos := by omega
    simp only [cread, if_pos hc, ht, hmin]
    rw [List.take_of_length_le (by simp), List.take_of_length_le (by simp; omega)]
  · have hmin : min n.toNat (buf.length - pos) = n.toNat := by omega
    simp only [cread, if_neg hc, hmin]

/-- C13. `peek` is non-destructive and agrees with `read`: on an open stream
(contents `buf`, cursor `pos`) `peek(k)` for `k >= 0` raises nothing, leaves the
stream as it was and returns the first `min(k, remaining)` bytes at the cursor;
when at least `k` bytes remain, `read(k)` issued right after it returns the same
bytes.  `peek()` is `peek(1)`. -/
theorem peek_is_non_destructive (e : Char) (buf : List Byte) (pos : Nat) (k : Int)
    (hk : 0 ≤ k) :
    BufferedByteStream_peek (open_stream e buf pos) (some k)
      = (.ok ((buf.drop pos).take k.toNat), open_stream e buf pos) ∧
    ((buf.drop pos).take k.toNat).length = min k.toNat (buf.length - pos) ∧
    (k ≤ ((buf.length - pos : Nat) : Int) →
      (BufferedByteStream_read (BufferedByteStream_peek (open_stream e buf pos) (some k)).2
        (some k)).1 = (BufferedByteStream_peek (open_stream e buf pos) (some k)).1) ∧
    BufferedByteStream_peek (open_stream e buf pos) none
      = BufferedByteStream_peek (open_stream e buf pos) (some 1) := by
  have hpeek : BufferedByteStream_peek (open_stream e buf pos) (some k)
      = (.ok ((buf.drop pos).take k.toNat), open_stream e buf pos) := by
    have hdef : BufferedByteStream_peek (open_stream e buf pos) (some k)
        = (.ok (cread { buf := buf, pos := pos } k).1,
            { buffer := some (O_seek (cread { buf := buf, pos := pos } k).2 (pos : Int) 0),
              endian := e }) := rfl
    rw [hdef, cread_nonneg buf pos k hk, O_seek_abs]
    rfl
  refine ⟨hpeek, by simp, ?_, rfl⟩
  intro hle
  rw [hpeek]
  have hlen : ((buf.drop pos).take k.toNat).length = k.toNat := by
    simp only [List.length_take, List.length_drop]
    omega
  have hread : BufferedByteStream_read (open_stream e buf pos) (some k)
      = (if k > ((cread { buf := buf, pos := pos } k).1.length : Int) then
          if (cread { buf := buf, pos := pos } k).1.length > 0 then
            (.error .IOError,
              { buffer := some (cread { buf := buf, pos := pos } k).2, endian := e })
          else
            (.error .EOFError,
              { buffer := some (cread { buf := buf, pos := pos } k).2, endian := e })
        else
          (.ok (cread { buf := buf, pos := pos } k).1,
            { buffer := some (cread { buf := buf, pos := pos } k).2, endian := e })) := rfl
  rw [hread, cread_nonneg buf pos k hk]
  have hnot : ¬ (k > (((buf.drop pos).take k.toNat).length : Int)) := by
    rw [hlen]
    omega
  simp only [if_neg hnot]

/-- Witness for C13: `peek(2)` in the middle of four bytes. -/
theorem peek_is_non_destructive_witness :
    BufferedByteStream_peek (open_stream ENDIAN_NETWORK [1, 2, 3, 4] 1) (some 2)
      = (.ok ((([1, 2, 3, 4] : List Byte).drop 1).take (2 : Int).toNat),
          open_stream ENDIAN_NETWORK [1, 2, 3, 4] 1) :=
  (peek_is_non_destructive ENDIAN_NETWORK [1, 2, 3, 4] 1 2 (by decide)).1

/-! ## C14 and C15: the observers -/

theorem remaining_eq (e : Char) (buf : List Byte) (pos : Nat) :
    BufferedByteStream_remaining (open_stream e buf pos)
      = (.ok ((buf.length : Int) - (pos : Int)), open_stream e buf pos) := by
  have hdef : BufferedByteStream_remaining (open_stream e buf pos)
      = (.ok (((O_seek { buf := buf, pos := pos } 0 2).pos : Int) - (pos : Int)),
          { buffer := some (O_seek (O_seek { buf := buf, pos := pos } 0 2) (pos : Int) 0),
            endian := e }) := rfl
  rw [hdef, O_seek_end, O_seek_abs]
  rfl

theorem len_eq (e : Char) (buf : List Byte) (pos : Nat) :
    BufferedByteStream___len__ (open_stream e buf pos)
      = (.ok (buf.length : Int), open_stream e buf pos) := by
  have hdef : BufferedByteStream___len__ (open_stream e buf pos)
      = (.ok ((O_seek { buf := buf, pos := pos } 0 2).pos : Int),
          { buffer := some (O_seek (O_seek { buf := buf, pos := pos } 0 2) (pos : Int) 0),
            endian := e }) := rfl
  rw [hdef, O_seek_end, O_seek_abs]
  rfl

theorem at_eof_eq (e : Char) (buf : List Byte) (pos : Nat) :
    BufferedByteStream_at_eof (open_stream e buf pos)
      = (.ok ((buf.length : Int) - (pos : Int) == 0), open_stream e buf pos) := by
  have hdef : BufferedByteStream_at_eof (open_stream e buf pos)
      = (match BufferedByteStream_remaining (open_stream e buf pos) with
        | (.ok remaining, self1) => (.ok (remaining == 0), self1)
        | (.error ex, self1) => (.error ex, self1)) := rfl
  rw [hdef, remaining_eq]

/-- C14. In every open state (contents `buf`, cursor `pos`), `remaining()`
returns `length() - tell()`, and `at_eof()` returns true exactly when
`remaining()` returns 0. -/
theorem remaining_is_length_minus_tell (e : Char) (buf : List Byte) (pos : Nat) :
    ∃ (r L p : Int) (b : Bool),
      (BufferedByteStream_remaining (open_stream e buf pos)).1 = .ok r ∧
      (BufferedByteStream___len__ (open_stream e buf pos)).1 = .ok L ∧
      (BufferedByteStream_tell (open_stream e buf pos)).1 = .ok p ∧
      (BufferedByteStream_at_eof (open_stream e buf pos)).1 = .ok b ∧
      r = L - p ∧ (b = true ↔ r = 0) := by
  refine ⟨(buf.length : Int) - (pos : Int), (buf.length : Int), (pos : Int),
    ((buf.length : Int) - (pos : Int) == 0), ?_, ?_, rfl, ?_, rfl, ?_⟩
  · rw [remaining_eq]
  · rw [len_eq]
  · rw [at_eof_eq]
  · simp

/-- C15. Observers do not move the cursor: on an open stream (contents `buf`,
cursor `pos`, byte order `e`) `len`, `remaining()`, `at_eof()`, `tell()` and
`getvalue()` raise nothing and leave the stream exactly as it was; `getvalue()`
returns all of `buf` and `len` its number of bytes, whatever the cursor. -/
theorem observers_leave_stream_unchanged (e : Char) (buf : List Byte) (pos : Nat) :
    BufferedByteStream___len__ (open_stream e buf pos)
      = (.ok (buf.length : Int), open_stream e buf pos) ∧
    (∃ r, BufferedByteStream_remaining (open_stream e buf pos)
      = (.ok r, open_stream e buf pos)) ∧
    (∃ b, BufferedByteStream_at_eof (open_stream e buf pos)
      = (.ok b, open_stream e buf pos)) ∧
    BufferedByteStream_tell (open_stream e buf pos) = (.ok (pos : Int), open_stream e buf pos) ∧
    BufferedByteStream_getvalue (open_stream e buf pos) = (.ok buf, open_stream e buf pos) :=
  ⟨len_eq e buf pos, ⟨_, remaining_eq e buf pos⟩, ⟨_, at_eof_eq e buf pos⟩, rfl, rfl⟩

/-! ## C16: seek -/

/-- C16. `seek` follows file semantics: on an open stream of contents `buf`
(length `L`) at position `p`, `seek(q, 0)` sets the position to `q`,
`seek(d, 1)` to `p + d` and `seek(d, 2)` to `L + d`, whenever that target is not
negative (in particular whenever it lies in `[0, L]`); `seek(q)` is
`seek(q, 0)`; the contents and byte order are unchanged and `tell()` afterwards
returns the new position. -/
theorem seek_file_semantics (e : Char) (buf : List Byte) (p : Nat) (q d : Int) :
    (0 ≤ q →
      BufferedByteStream_seek (open_stream e buf p) q (some 0)
        = (.ok (), open_stream e buf q.toNat) ∧
      (BufferedByteStream_tell
        (BufferedByteStream_seek (open_stream e buf p) q (some 0)).2).1 = .ok q) ∧
    (0 ≤ (p : Int) + d →
      BufferedByteStream_seek (open_stream e buf p) d (some 1)
        = (.ok (), open_stream e buf ((p : Int) + d).toNat) ∧
      (BufferedByteStream_tell
        (BufferedByteStream_seek (open_stream e buf p) d (some 1)).2).1
          = .ok ((p : Int) + d)) ∧
    (0 ≤ (buf.length : Int) + d →
      BufferedByteStream_seek (open_stream e buf p) d (some 2)
        = (.ok (), open_stream e buf ((buf.length : Int) + d).toNat) ∧
      (BufferedByteStream_tell
        (BufferedByteStream_seek (open_stream e buf p) d (some 2)).2).1
          = .ok ((buf.length : Int) + d)) ∧
    BufferedByteStream_seek (open_stream e buf p) q none
      = BufferedByteStream_seek (open_stream e buf p) q (some 0) := by
  refine ⟨?_, ?_, ?_, rfl⟩
  · intro h
    have h1 : ¬ (q < 0) := by omega
    have hs : BufferedByteStream_seek (open_stream e buf p) q (some 0)
        = (.ok (), open_stream e buf q.toNat) := by
      simp [BufferedByteStream_seek, open_stream, O_seek, if_neg h1]
    rw [hs]
    refine ⟨rfl, ?_⟩
    simp only [BufferedByteStream_tell, open_stream]
    congr 1
    omega
  · intro h
    have h1 : ¬ (d + (p : Int) < 0) := by omega
    have hs : BufferedByteStream_seek (open_stream e buf p) d (some 1)
        = (.ok (), open_stream e buf ((p : Int) + d).toNat) := by
      simp [BufferedByteStream_seek, open_stream, O_seek, if_neg h1, Int.add_comm]
    rw [hs]
    refine ⟨rfl, ?_⟩
    simp only [BufferedByteStream_tell, open_stream]
    congr 1
    omega
  · intro h
    have h1 : ¬ (d + (buf.length : Int) < 0) := by omega
    have hs : BufferedByteStream_seek (open_stream e buf p) d (some 2)
        = (.ok (), open_stream e buf ((buf.length : Int) + d).toNat) := by
      simp [BufferedByteStream_seek, open_stream, O_seek, if_neg h1, Int.add_comm]
    rw [hs]
    refine ⟨rfl, ?_⟩
    simp only [BufferedByteStream_tell, open_stream]
    congr 1
    omega

/-- Witness for C16: on four bytes at position 1, `seek(-1, 2)` leads to 3. -/
theorem seek_file_semantics_witness :
    BufferedByteStream_seek (open_stream ENDIAN_NETWORK [1, 2, 3, 4] 1) (-1) (some 2)
        = (.ok (), open_stream ENDIAN_NETWORK [1, 2, 3, 4]
            (((([1, 2, 3, 4] : List Byte).length : Nat) : Int) + (-1)).toNat) ∧
      (BufferedByteStream_tell
        (BufferedByteStream_seek (open_stream ENDIAN_NETWORK [1, 2, 3, 4] 1) (-1) (some 2)).2).1
          = .ok (((([1, 2, 3, 4] : List Byte).length : Nat) : Int) + (-1)) :=
  (seek_file_semantics ENDIAN_NETWORK [1, 2, 3, 4] 1 0 (-1)).2.2.1 (by decide)

/-! ## C17: raw write and read -/

theorem cwrite_fresh (b : List Byte) :
    cwrite { buf := [], pos := 0 } b = { buf := b, pos := b.length } := by
  simp [cwrite]

theorem cread_all_from_start (b : List Byte) :
    cread { buf := b, pos := 0 } (b.length : Int) = (b, { buf := b, pos := b.length }) := by
  have h := cread_exact [] b []
  simpa using h

/-- C17. Raw write/read round trip: for every byte sequence `b`, on a freshly
constructed empty stream `write(b)` succeeds, `getvalue()` then returns `b`, and
after `seek(0)` `read(len(b))` returns exactly `b` (leaving the contents `b` and
the cursor at the end). -/
theorem raw_write_read_round_trip (b : List Byte) :
    BufferedByteStream_write (BufferedByteStream_init BufferedByteStream_new none).2.1 b
      = (.ok (), open_stream ENDIAN_NETWORK b b.length) ∧
    (BufferedByteStream_getvalue
      (BufferedByteStream_write
        (BufferedByteStream_init BufferedByteStream_new none).2.1 b).2).1 = .ok b ∧
    BufferedByteStream_seek
        (BufferedByteStream_write
          (BufferedByteStream_init BufferedByteStream_new none).2.1 b).2 0 none
      = (.ok (), open_stream ENDIAN_NETWORK b 0) ∧
    BufferedByteStream_read
        (BufferedByteStream_seek
          (BufferedByteStream_write
            (BufferedByteStream_init BufferedByteStream_new none).2.1 b).2 0 none).2
        (some (b.length : Int))
      = (.ok b, open_stream ENDIAN_NETWORK b b.length) := by
  have hw : BufferedByteStream_write
      (BufferedByteStream_init BufferedByteStream_new none).2.1 b
        = (.ok (), open_stream ENDIAN_NETWORK b b.length) := by
    rw [fresh_stream_eq]
    simp only [BufferedByteStream_write, open_stream, cwrite_fresh]
  have hs : BufferedByteStream_seek (open_stream ENDIAN_NETWORK b b.length) 0 none
      = (.ok (), open_stream ENDIAN_NETWORK b 0) := by
    simp [BufferedByteStream_seek, open_stream, O_seek]
  refine ⟨hw, ?_, ?_, ?_⟩
  · rw [hw]
    rfl
  · rw [hw, hs]
  · rw [hw, hs]
    have hread : BufferedByteStream_read (open_stream ENDIAN_NETWORK b 0)
        (some (b.length : Int))
        = (if (b.length : Int)
              > ((cread { buf := b, pos := 0 } (b.length : Int)).1.length : Int) then
            if (cread { buf := b, pos := 0 } (b.length : Int)).1.length > 0 then
              (.error .IOError,
                { buffer := some (cread { buf := b, pos := 0 } (b.length : Int)).2,
                  endian := ENDIAN_NETWORK })
            else
              (.error .EOFError,
                { buffer := some (cread { buf := b, pos := 0 } (b.length : Int)).2,
                  endian := ENDIAN_NETWORK })
          else
            (.ok (cread { buf := b, pos := 0 } (b.length : Int)).1,
              { buffer := some (cread { buf := b, pos := 0 } (b.length : Int)).2,
                endian := ENDIAN_NETWORK })) := rfl
    rw [hread, cread_all_from_start]
    simp [open_stream]

/-! ## C18: truncate -/

/-- C18. `truncate` always clears: on an open stream (contents `buf`, cursor
`pos`, byte order `e`), whatever the size argument (`none` when omitted),
`truncate` succeeds and leaves an open, empty stream with the cursor at 0 and
the byte order `e`: `getvalue()` is empty, `len` is 0 and `tell()` is 0. -/
theorem truncate_always_clears (e : Char) (buf : List Byte) (pos : Nat)
    (obj_size : Option Int) :
    BufferedByteStream_truncate (open_stream e buf pos) obj_size
      = (.ok (), open_stream e [] 0) ∧
    (BufferedByteStream_getvalue
      (BufferedByteStream_truncate (open_stream e buf pos) obj_size).2).1 = .ok [] ∧
    (BufferedByteStream___len__
      (BufferedByteStream_truncate (open_stream e buf pos) obj_size).2).1 = .ok 0 ∧
    (BufferedByteStream_tell
      (BufferedByteStream_truncate (open_stream e buf pos) obj_size).2).1 = .ok 0 ∧
    (BufferedByteStream_truncate (open_stream e buf pos) obj_size).2.endian = e ∧
    (BufferedByteStream_truncate (open_stream e buf pos) obj_size).2.buffer ≠ none := by
  have ht : BufferedByteStream_truncate (open_stream e buf pos) obj_size
      = (.ok (), open_stream e [] 0) := rfl
  rw [ht]
  refine ⟨rfl, rfl, ?_, rfl, rfl, ?_⟩
  · rw [len_eq]
    rfl
  · simp [open_stream]

/-! ## C20: the length of a closed stream -/

/-- C20 as stated fails: after `close()`, `len` returns 0 and raises nothing. -/
theorem len_of_closed_stream_is_zero :
    (BufferedByteStream___len__
        (BufferedByteStream_close (open_stream ENDIAN_NETWORK [1, 2, 3] 1)).2).1 = .ok 0 ∧
      (BufferedByteStream___len__
        (BufferedByteStream_close (open_stream ENDIAN_NETWORK [1, 2, 3] 1)).2).1
        ≠ .error .ValueError ∧
      (BufferedByteStream_tell
        (BufferedByteStream_close (open_stream ENDIAN_NETWORK [1, 2, 3] 1)).2).1
        = .error .ValueError := by
  decide

/-- C20, amended.  On a closed stream `len` raises nothing: it returns 0 and
leaves the stream closed, unlike the methods, which raise `ValueError`. -/
theorem len_closed_returns_zero (e : Char) :
    BufferedByteStream___len__ { buffer := none, endian := e }
      = (.ok 0, { buffer := none, endian := e }) ∧
    (BufferedByteStream_close { buffer := none, endian := e }).2
      = { buffer := none, endian := e } ∧
    ∀ (buf : List Byte) (pos : Nat),
      BufferedByteStream___len__ (BufferedByteStream_close (open_stream e buf pos)).2
        = (.ok 0, { buffer := none, endian := e }) :=
  ⟨rfl, rfl, fun _ _ => rfl⟩

/-! ## C19: closed is terminal -/

/-- C19. Closed is terminal: `close()` on an open stream succeeds and leaves it
closed; on a closed stream each of `tell`, `at_eof`, `remaining`, `seek`, `peek`,
`read`, `readline`, `readlines`, `write`, `writelines`, `getvalue`, `truncate`,
`flush` and every typed `read_*` / `write_*` method raises `ValueError`
(ClosedStream), whatever its arguments, and leaves the stream closed; `close()`
on a closed stream succeeds and changes nothing. -/
theorem closed_is_terminal (e : Char) :
    (∀ buf pos, BufferedByteStream_close (open_stream e buf pos)
      = (.ok (), closed_stream e)) ∧
    BufferedByteStream_close (closed_stream e) = (.ok (), closed_stream e) ∧
    BufferedByteStream_tell (closed_stream e) = (.error .ValueError, closed_stream e) ∧
    BufferedByteStream_at_eof (closed_stream e) = (.error .ValueError, closed_stream e) ∧
    BufferedByteStream_remaining (closed_stream e)
      = (.error .ValueError, closed_stream e) ∧
    (∀ p m, BufferedByteStream_seek (closed_stream e) p m
      = (.error .ValueError, closed_stream e)) ∧
    (∀ k, BufferedByteStream_peek (closed_stream e) k
      = (.error .ValueError, closed_stream e)) ∧
    (∀ n, BufferedByteStream_read (closed_stream e) n
      = (.error .ValueError, closed_stream e)) ∧
    BufferedByteStream_readline (closed_stream e) = (.error .ValueError, closed_stream e) ∧
    (∀ h, BufferedByteStream_readlines (closed_stream e) h
      = (.error .ValueError, closed_stream e)) ∧
    (∀ b, BufferedByteStream_write (closed_stream e) b
      = (.error .ValueError, closed_stream e)) ∧
    (∀ l, BufferedByteStream_writelines (closed_stream e) l
      = (.error .ValueError, closed_stream e)) ∧
    BufferedByteStream_getvalue (closed_stream e) = (.error .ValueError, closed_stream e) ∧
    (∀ sz, BufferedByteStream_truncate (closed_stream e) sz
      = (.error .ValueError, closed_stream e)) ∧
    BufferedByteStream_flush (closed_stream e) = (.error .ValueError, closed_stream e) ∧
    BufferedByteStream_read_uchar (closed_stream e)
      = (.error .ValueError, closed_stream e) ∧
    (∀ v, BufferedByteStream_write_uchar (closed_stream e) v
      = (.error .ValueError, closed_stream e)) ∧
    BufferedByteStream_read_char (closed_stream e) = (.error .ValueError, closed_stream e) ∧
    (∀ v, BufferedByteStream_write_char (closed_stream e) v
      = (.error .ValueError, closed_stream e)) ∧
    BufferedByteStream_read_ushort (closed_stream e)
      = (.error .ValueError, closed_stream e) ∧
    (∀ fuel v, BufferedByteStream_write_ushort fuel (closed_stream e) v
      = some (.error .ValueError, closed_stream e)) ∧
    BufferedByteStream_read_short (closed_stream e)
      = (.error .ValueError, closed_stream e) ∧
    (∀ fuel v, BufferedByteStream_write_short fuel (closed_stream e) v
      = some (.error .ValueError, closed_stream e)) ∧
    BufferedByteStream_read_ulong (closed_stream e)
      = (.error .ValueError, closed_stream e) ∧
    (∀ fuel v, BufferedByteStream_write_ulong fuel (closed_stream e) v
      = some (.error .ValueError, closed_stream e)) ∧
    (∀ stale, BufferedByteStream_read_long (closed_stream e) stale
      = (.error .ValueError, closed_stream e)) ∧
    (∀ fuel v, BufferedByteStream_write_long fuel (closed_stream e) v
      = some (.error .ValueError, closed_stream e)) ∧
    BufferedByteStream_read_float (closed_stream e)
      = (.error .ValueError, closed_stream e) ∧
    (∀ pack stack x, BufferedByteStream_write_float pack stack (closed_stream e) x
      = (.error .ValueError, closed_stream e)) ∧
    BufferedByteStream_read_double (closed_stream e)
      = (.error .ValueError, closed_stream e) ∧
    (∀ pack stack x, BufferedByteStream_write_double pack stack (closed_stream e) x
      = (.error .ValueError, closed_stream e)) ∧
    (∀ len, BufferedByteStream_read_utf8_string (closed_stream e) len
      = (.error .ValueError, closed_stream e)) ∧
    (∀ t, BufferedByteStream_write_utf8_string (closed_stream e) t
      = (.error .ValueError, closed_stream e)) := by
  refine ⟨fun _ _ => rfl, rfl, rfl, rfl, rfl, fun _ _ => rfl, fun _ => rfl, fun _ => rfl,
    rfl, fun _ => rfl, fun _ => rfl, fun _ => rfl, rfl, fun _ => rfl, rfl, rfl,
    fun _ => rfl, rfl, fun _ => rfl, rfl, fun _ _ => rfl, rfl, fun _ _ => rfl, rfl,
    fun _ _ => rfl, fun _ => rfl, fun _ _ => rfl, rfl, fun _ _ _ => rfl, rfl,
    fun _ _ _ => rfl, fun _ => rfl, fun _ => rfl⟩

/-! ## C21, C22 and C23: concatenation and copy construction -/

theorem O_seek_zero (io : Oobject) : O_seek io 0 0 = { buf := io.buf, pos := 0 } := by
  simp [O_seek]

theorem cread_everything (b : List Byte) :
    cread { buf := b, pos := 0 } (-1) = (b, { buf := b, pos := b.length }) := by
  have hneg : (-1 : Int) < 0 ∨ (-1 : Int) > ((b.length : Int) - ((0 : Nat) : Int)) :=
    Or.inl (by decide)
  have hl : ¬ ((b.length : Int) - ((0 : Nat) : Int) < 0) := by omega
  simp only [cread, if_pos hneg, if_neg hl]
  simp

/-- Copying from an open source stream: all of its contents are written at the
cursor of `self`, and the source is left as it was. -/
theorem init_from_stream (se : Char) (io0 : Oobject) (b : List Byte) (p : Nat) (e : Char)
    (rewind : Int) :
    BufferedByteStream_init_ { buffer := some io0, endian := se }
        (some (.stream { buf := b, pos := p } e)) rewind
      = (.ok (),
          { buffer := some (if rewind = 1 then O_seek (cwrite io0 b) 0 0 else cwrite io0 b),
            endian := se },
          some (.stream { buf := b, pos := p } e)) := by
  have hdef : BufferedByteStream_init_ { buffer := some io0, endian := se }
        (some (.stream { buf := b, pos := p } e)) rewind
      = (.ok (),
          { buffer := some (if rewind = 1 then
              O_seek (cwrite io0 (cread (O_seek { buf := b, pos := p } 0 0) (-1)).1) 0 0
            else cwrite io0 (cread (O_seek { buf := b, pos := p } 0 0) (-1)).1),
            endian := se },
          some (.stream
            (O_seek (cread (O_seek { buf := b, pos := p } 0 0) (-1)).2 (p : Int) 0) e)) := rfl
  rw [hdef]
  simp only [O_seek_zero, cread_everything, O_seek_abs]

theorem add_streams (b1 b2 : List Byte) (p1 p2 : Nat) (e1 e2 : Char) :
    BufferedByteStream___add__ { buf := b1, pos := p1 } e1 (.stream { buf := b2, pos := p2 } e2)
      = (.ok (open_stream e1 (b1 ++ b2) 0), { buf := b1, pos := p1 },
          .stream { buf := b2, pos := p2 } e2) := by
  have hdef : BufferedByteStream___add__ { buf := b1, pos := p1 } e1
        (.stream { buf := b2, pos := p2 } e2)
      = (.ok (BufferedByteStream_seek
            (BufferedByteStream_init_
              (BufferedByteStream_init_ { buffer := some (NewOutput 128), endian := e1 }
                (some (.stream { buf := b1, pos := p1 } e1)) 0).2.1
              (some (.stream { buf := b2, pos := p2 } e2)) 1).2.1 0 none).2,
          source_storage
            (BufferedByteStream_init_ { buffer := some (NewOutput 128), endian := e1 }
              (some (.stream { buf := b1, pos := p1 } e1)) 0).2.2 { buf := b1, pos := p1 },
          .stream (source_storage
            (BufferedByteStream_init_
              (BufferedByteStream_init_ { buffer := some (NewOutput 128), endian := e1 }
                (some (.stream { buf := b1, pos := p1 } e1)) 0).2.1
              (some (.stream { buf := b2, pos := p2 } e2)) 1).2.2 { buf := b2, pos := p2 })
            e2) := rfl
  rw [hdef, init_from_stream]
  simp only [init_from_stream]
  simp [NewOutput, cwrite, O_seek, BufferedByteStream_seek, source_storage, open_stream]

theorem add_same (b1 : List Byte) (p1 : Nat) (e1 : Char) :
    BufferedByteStream___add__ { buf := b1, pos := p1 } e1 .same
      = (.ok (open_stream e1 (b1 ++ b1) 0), { buf := b1, pos := p1 }, .same) := by
  have hdef : BufferedByteStream___add__ { buf := b1, pos := p1 } e1 .same
      = (.ok (BufferedByteStream_seek
            (BufferedByteStream_init_
              (BufferedByteStream_init_ { buffer := some (NewOutput 128), endian := e1 }
                (some (.stream { buf := b1, pos := p1 } e1)) 0).2.1
              (some (.stream (source_storage
                (BufferedByteStream_init_ { buffer := some (NewOutput 128), endian := e1 }
                  (some (.stream { buf := b1, pos := p1 } e1)) 0).2.2
                { buf := b1, pos := p1 }) e1)) 1).2.1 0 none).2,
          source_storage
            (BufferedByteStream_init_
              (BufferedByteStream_init_ { buffer := some (NewOutput 128), endian := e1 }
                (some (.stream { buf := b1, pos := p1 } e1)) 0).2.1
              (some (.stream (source_storage
                (BufferedByteStream_init_ { buffer := some (NewOutput 128), endian := e1 }
                  (some (.stream { buf := b1, pos := p1 } e1)) 0).2.2
                { buf := b1, pos := p1 }) e1)) 1).2.2
            (source_storage
              (BufferedByteStream_init_ { buffer := some (NewOutput 128), endian := e1 }
                (some (.stream { buf := b1, pos := p1 } e1)) 0).2.2 { buf := b1, pos := p1 }),
          .same) := rfl
  rw [hdef, init_from_stream]
  simp only [source_storage, init_from_stream]
  simp [NewOutput, cwrite, O_seek, BufferedByteStream_seek, open_stream]

/-- C21. Concatenation result: for open streams `A` (contents `b1`, position
`p1`, byte order `e1`) and `B` (contents `b2`, position `p2`, byte order `e2`),
whatever the positions, `A + B` returns a new open stream whose `getvalue()` is
`b1` followed by `b2`, whose position is 0 and whose byte order is `e1`. -/
theorem concatenation_result (b1 b2 : List Byte) (p1 p2 : Nat) (e1 e2 : Char) :
    ∃ sum, (BufferedByteStream___add__ { buf := b1, pos := p1 } e1
        (.stream { buf := b2, pos := p2 } e2)).1 = .ok sum ∧
      sum.buffer ≠ none ∧
      (BufferedByteStream_getvalue sum).1 = .ok (b1 ++ b2) ∧
      (BufferedByteStream_tell sum).1 = .ok 0 ∧
      sum.endian = e1 := by
  refine ⟨open_stream e1 (b1 ++ b2) 0, ?_, ?_, rfl, rfl, rfl⟩
  · rw [add_streams]
  · simp [open_stream]

/-- C22. Concatenation leaves its operands untouched: after `A + B`, `A` still
has contents `b1` and position `p1` and `B` contents `b2`, position `p2` and
byte order `e2`; after `A + A`, whose result holds `b1` twice, `A` still has
contents `b1` and position `p1`.  (The byte order of the left operand is read,
never written.) -/
theorem concatenation_leaves_operands (b1 b2 : List Byte) (p1 p2 : Nat) (e1 e2 : Char) :
    (BufferedByteStream___add__ { buf := b1, pos := p1 } e1
        (.stream { buf := b2, pos := p2 } e2)).2
      = ({ buf := b1, pos := p1 }, .stream { buf := b2, pos := p2 } e2) ∧
    (BufferedByteStream___add__ { buf := b1, pos := p1 } e1 .same).2
      = ({ buf := b1, pos := p1 }, .same) ∧
    (BufferedByteStream___add__ { buf := b1, pos := p1 } e1 .same).1
      = .ok (open_stream e1 (b1 ++ b1) 0) := by
  rw [add_streams, add_same]
  exact ⟨rfl, rfl, rfl⟩

/-- C23. Copy construction: constructing a stream from an open source stream
(contents `b`, position `p`, byte order `e`) yields an open stream whose
`getvalue()` is all of `b`, whose position is 0 and whose byte order is
`ENDIAN_NETWORK`, and leaves the source with contents `b`, position `p` and byte
order `e`; constructing from a byte string `b` yields contents `b` and
position 0. -/
theorem copy_construction (b : List Byte) (p : Nat) (e : Char) :
    BufferedByteStream_init BufferedByteStream_new (some (.stream { buf := b, pos := p } e))
      = (.ok (), open_stream ENDIAN_NETWORK b 0, some (.stream { buf := b, pos := p } e)) ∧
    (BufferedByteStream_getvalue (open_stream ENDIAN_NETWORK b 0)).1 = .ok b ∧
    (BufferedByteStream_tell (open_stream ENDIAN_NETWORK b 0)).1 = .ok 0 ∧
    BufferedByteStream_init BufferedByteStream_new (some (.string b))
      = (.ok (), open_stream ENDIAN_NETWORK b 0, some (.string b)) := by
  have hnew : ∀ src, BufferedByteStream_init BufferedByteStream_new src
      = BufferedByteStream_init_
          { buffer := some (NewOutput 128), endian := ENDIAN_NETWORK } src 1 := by
    intro src
    rfl
  refine ⟨?_, rfl, rfl, ?_⟩
  · rw [hnew, init_from_stream]
    simp [NewOutput, cwrite, O_seek, open_stream]
  · rw [hnew]
    simp [BufferedByteStream_init_, NewOutput, cwrite, O_seek, open_stream]

/-! ## C24 and C25: UTF-8 text -/

theorem toByte_val_of_lt {x : Nat} (h : x < 256) : (toByte x).val = x := by
  simp [toByte, Nat.mod_eq_of_lt h]

theorem is_continuation_toByte (x : Nat) (h : x < 64) :
    is_continuation (toByte (0x80 + x)) = true := by
  have hb : (toByte (0x80 + x)).val = 0x80 + x := toByte_val_of_lt (by omega)
  simp only [is_continuation, hb, Bool.and_eq_true, decide_eq_true_eq]
  omega

/-- Decoding the UTF-8 bytes of a valid code point `v`, followed by `rest`,
gives that code point followed by what `rest` decodes to. -/
theorem utf8_decode_encode_char (v : Nat)
    (hv : v < 0xD800 ∨ (0xDFFF < v ∧ v < 0x110000)) (rest : List Byte) :
    utf8_decode_from (utf8_encode_char v ++ rest) 0 0 0
      = (utf8_decode_from rest 0 0 0).map (fun cs => Char.ofNat v :: cs) := by
  by_cases h1 : v ≤ 0x7F
  · have hb : (toByte v).val = v := toByte_val_of_lt (by omega)
    have c1 : v < 0x80 := by omega
    simp [utf8_encode_char, if_pos h1, utf8_decode_from, hb, c1]
  · by_cases h2 : v ≤ 0x7FF
    · have hb0 : (toByte (0xC0 + v / 64)).val = 0xC0 + v / 64 := toByte_val_of_lt (by omega)
      have hb1 : (toByte (0x80 + v % 64)).val = 0x80 + v % 64 := toByte_val_of_lt (by omega)
      have c1 : ¬ (0xC0 + v / 64 < 0x80) := by omega
      have c2 : ¬ (0xC0 + v / 64 < 0xC0) := by omega
      have c3 : 0xC0 + v / 64 < 0xE0 := by omega
      have hval : (0xC0 + v / 64 - 0xC0) * 64 + (0x80 + v % 64 - 0x80) = v := by omega
      have hk1 := is_continuation_toByte (v % 64) (by omega)
      have hok : utf8_valid 2 v = true := by
        simp [utf8_valid]
        omega
      simp only [utf8_encode_char, if_neg h1, if_pos h2, List.cons_append, List.nil_append,
        utf8_decode_from, hb0, hb1, if_neg c1, if_neg c2, if_pos c3, hval, hk1, hok, if_true,
        one_ne_zero, if_false]
    · by_cases h3 : v ≤ 0xFFFF
      · have hb0 : (toByte (0xE0 + v / 4096)).val = 0xE0 + v / 4096 :=
          toByte_val_of_lt (by omega)
        have hb1 : (toByte (0x80 + v / 64 % 64)).val = 0x80 + v / 64 % 64 :=
          toByte_val_of_lt (by omega)
        have hb2 : (toByte (0x80 + v % 64)).val = 0x80 + v % 64 := toByte_val_of_lt (by omega)
        have c1 : ¬ (0xE0 + v / 4096 < 0x80) := by omega
        have c2 : ¬ (0xE0 + v / 4096 < 0xC0) := by omega
        have c3 : ¬ (0xE0 + v / 4096 < 0xE0) := by omega
        have c4 : 0xE0 + v / 4096 < 0xF0 := by omega
        have hval : ((0xE0 + v / 4096 - 0xE0) * 64 + (0x80 + v / 64 % 64 - 0x80)) * 64
            + (0x80 + v % 64 - 0x80) = v := by omega
        have hk1 := is_continuation_toByte (v / 64 % 64) (by omega)
        have hk2 := is_continuation_toByte (v % 64) (by omega)
        have hok : utf8_valid 3 v = true := by
          simp [utf8_valid]
          omega
        simp only [utf8_encode_char, if_neg h1, if_neg h2, if_pos h3, List.cons_append,
          List.nil_append, utf8_decode_from, hb0, hb1, hb2, if_neg c1, if_neg c2, if_neg c3,
          if_pos c4, hval, hk1, hk2, hok, if_true, one_ne_zero, if_false]
        simp [hval, hok]
      · have hb0 : (toByte (0xF0 + v / 262144)).val = 0xF0 + v / 262144 :=
          toByte_val_of_lt (by omega)
        have hb1 : (toByte (0x80 + v / 4096 % 64)).val = 0x80 + v / 4096 % 64 :=
          toByte_val_of_lt (by omega)
        have hb2 : (toByte (0x80 + v / 64 % 64)).val = 0x80 + v / 64 % 64 :=
          toByte_val_of_lt (by omega)
        have hb3 : (toByte (0x80 + v % 64)).val = 0x80 + v % 64 := toByte_val_of_lt (by omega)
        have c1 : ¬ (0xF0 + v / 262144 < 0x80) := by omega
        have c2 : ¬ (0xF0 + v / 262144 < 0xC0) := by omega
        have c3 : ¬ (0xF0 + v / 262144 < 0xE0) := by omega
        have c4 : ¬ (0xF0 + v / 262144 < 0xF0) := by omega
        have c5 : 0xF0 + v / 262144 < 0xF8 := by omega
        have hval : (((0xF0 + v / 262144 - 0xF0) * 64 + (0x80 + v / 4096 % 64 - 0x80)) * 64
            + (0x80 + v / 64 % 64 - 0x80)) * 64 + (0x80 + v % 64 - 0x80) = v := by omega
        have hk1 := is_continuation_toByte (v / 4096 % 64) (by omega)
        have hk2 := is_continuation_toByte (v / 64 % 64) (by omega)
        have hk3 := is_continuation_toByte (v % 64) (by omega)
        have hok : utf8_valid 4 v = true := by
          simp [utf8_valid]
          omega
        simp only [utf8_encode_char, if_neg h1, if_neg h2, if_neg h3, List.cons_append,
          List.nil_append, utf8_decode_from, hb0, hb1, hb2, hb3, if_neg c1, if_neg c2,
          if_neg c3, if_neg c4, if_pos c5, hval, hk1, hk2, hk3, hok, if_true, one_ne_zero,
          if_false]
        simp [hval, hok]

/-- Decoding the UTF-8 bytes of a text, followed by `rest`, gives the code
points of the text followed by what `rest` decodes to. -/
theorem utf8_decode_encode (cs : List Char) (rest : List Byte) :
    utf8_decode_from (cs.flatMap (fun ch => utf8_encode_char ch.val.toNat) ++ rest) 0 0 0
      = (utf8_decode_from rest 0 0 0).map (fun tail => cs ++ tail) := by
  induction cs with
  | nil => simp
  | cons ch cs ih =>
    have hch : Char.ofNat ch.val.toNat = ch := Char.ofNat_toNat ch
    rw [List.flatMap_cons, List.append_assoc, utf8_decode_encode_char _ ch.valid, ih, hch,
      Option.map_map]
    rfl

theorem decode_encode_text (t : String) (errors : String) :
    PyUnicode_DecodeUTF8 (PyUnicode_AsUTF8String t) errors = .ok t := by
  have h := utf8_decode_encode t.data []
  simp only [List.append_nil] at h
  have h0 : utf8_decode_from [] 0 0 0 = some [] := by simp [utf8_decode_from]
  rw [h0] at h
  simp only [PyUnicode_DecodeUTF8, PyUnicode_AsUTF8String, utf8_decode, h, Option.map_some',
    List.append_nil]

theorem read_utf8_string_unfold (e : Char) (buf : List Byte) (pos : Nat) (len : Int)
    (h1 : len ≠ -1) (hl : ((cread { buf := buf, pos := pos } len).1.length : Int) = len) :
    BufferedByteStream_read_utf8_string (open_stream e buf pos) len
      = (match PyUnicode_DecodeUTF8 (cread { buf := buf, pos := pos } len).1 "" with
        | .error ex1 =>
          (.error ex1, { buffer := some (cread { buf := buf, pos := pos } len).2, endian := e })
        | .ok t =>
          (.ok t, { buffer := some (cread { buf := buf, pos := pos } len).2, endian := e })) := by
  have hdef : BufferedByteStream_read_utf8_string (open_stream e buf pos) len
      = (if len = -1 then (.error .SystemError, open_stream e buf pos)
        else if ((cread { buf := buf, pos := pos } len).1.length : Int) ≠ len then
          (.error .EOFError,
            { buffer := some (cread { buf := buf, pos := pos } len).2, endian := e })
        else
          match PyUnicode_DecodeUTF8 (cread { buf := buf, pos := pos } len).1 "" with
          | .error ex1 =>
            (.error ex1,
              { buffer := some (cread { buf := buf, pos := pos } len).2, endian := e })
          | .ok t =>
            (.ok t,
              { buffer := some (cread { buf := buf, pos := pos } len).2, endian := e })) :=
    rfl
  have hl2 : ¬ (((cread { buf := buf, pos := pos } len).1.length : Int) ≠ len) := by
    intro hc
    exact hc hl
  rw [hdef, if_neg h1, if_neg hl2]

/-- C24. UTF-8 round trip: for every text `t`, on an empty open stream
`write_utf8_string(t)` writes exactly the UTF-8 encoding of `t`, advancing the
position by its byte length `L`; `seek(0)` rewinds; and `read_utf8_string(L)`
then returns `t` and leaves the cursor at `L`. -/
theorem utf8_round_trip (e : Char) (t : String) :
    BufferedByteStream_write_utf8_string (open_stream e [] 0) (.unicode t)
      = (.ok (), open_stream e (PyUnicode_AsUTF8String t) (PyUnicode_AsUTF8String t).length) ∧
    BufferedByteStream_seek
        (open_stream e (PyUnicode_AsUTF8String t) (PyUnicode_AsUTF8String t).length) 0 none
      = (.ok (), open_stream e (PyUnicode_AsUTF8String t) 0) ∧
    BufferedByteStream_read_utf8_string (open_stream e (PyUnicode_AsUTF8String t) 0)
        ((PyUnicode_AsUTF8String t).length : Int)
      = (.ok t,
          open_stream e (PyUnicode_AsUTF8String t) (PyUnicode_AsUTF8String t).length) := by
  refine ⟨?_, ?_, ?_⟩
  · simp only [BufferedByteStream_write_utf8_string, open_stream, cwrite_fresh]
  · simp [BufferedByteStream_seek, open_stream, O_seek]
  · have hc := cread_all_from_start (PyUnicode_AsUTF8String t)
    rw [read_utf8_string_unfold e _ 0 _ (by omega) (by rw [hc])]
    simp only [hc, decode_encode_text]
    rfl

/-- C26 as stated fails: on a freshly constructed stream `seek(5)` succeeds and
leaves the position 5 with the length 0; a `write` issued there fills the gap. -/
theorem seek_beyond_end_breaks_invariant :
    run [.seek 5 0] (BufferedByteStream_init BufferedByteStream_new none).2.1
        = open_stream ENDIAN_NETWORK [] 5 ∧
      (BufferedByteStream_tell
        (run [.seek 5 0] (BufferedByteStream_init BufferedByteStream_new none).2.1)).1
          = .ok 5 ∧
      (BufferedByteStream___len__
        (run [.seek 5 0] (BufferedByteStream_init BufferedByteStream_new none).2.1)).1
          = .ok 0 ∧
      ¬ cursor_ok (run [.seek 5 0] (BufferedByteStream_init BufferedByteStream_new none).2.1) ∧
      run [.seek 5 0, .write [1]] (BufferedByteStream_init BufferedByteStream_new none).2.1
        = open_stream ENDIAN_NETWORK [0, 0, 0, 0, 0, 1] 6 := by
  refine ⟨by decide, by decide, by decide, ?_, by decide⟩
  have h : run [.seek 5 0] (BufferedByteStream_init BufferedByteStream_new none).2.1
      = open_stream ENDIAN_NETWORK [] 5 := by decide
  rw [h]
  simp [cursor_ok, open_stream]

theorem cursor_ok_open (e : Char) (io : Oobject) :
    cursor_ok { buffer := some io, endian := e } ↔ io.pos ≤ io.buf.length := by
  simp [cursor_ok]

theorem cread_keeps (io : Oobject) (n : Int) (h : io.pos ≤ io.buf.length) :
    (cread io n).2.pos ≤ (cread io n).2.buf.length := by
  simp only [cread]
  split
  · split <;> omega
  · omega

theorem cwrite_makes (io : Oobject) (bytes : List Byte) :
    (cwrite io bytes).pos ≤ (cwrite io bytes).buf.length := by
  obtain ⟨h1, h2, _⟩ := cwrite_effect io bytes
  rw [h1, h2]
  omega

theorem read_ushort_keeps (e : Char) (io : Oobject) (h : io.pos ≤ io.buf.length) :
    cursor_ok (BufferedByteStream_read_ushort { buffer := some io, endian := e }).2 := by
  have hk := cread_keeps io 2 h
  unfold BufferedByteStream_read_ushort
  simp only []
  split <;> exact (cursor_ok_open _ _).mpr hk

theorem read_uchar_keeps (e : Char) (io : Oobject) (h : io.pos ≤ io.buf.length) :
    cursor_ok (BufferedByteStream_read_uchar { buffer := some io, endian := e }).2 := by
  have hk := cread_keeps io 1 h
  unfold BufferedByteStream_read_uchar
  simp only []
  split <;> exact (cursor_ok_open _ _).mpr hk

theorem read_char_keeps (e : Char) (io : Oobject) (h : io.pos ≤ io.buf.length) :
    cursor_ok (BufferedByteStream_read_char { buffer := some io, endian := e }).2 := by
  have hk := cread_keeps io 1 h
  unfold BufferedByteStream_read_char
  simp only []
  split <;> exact (cursor_ok_open _ _).mpr hk

theorem read_short_keeps (e : Char) (io : Oobject) (h : io.pos ≤ io.buf.length) :
    cursor_ok (BufferedByteStream_read_short { buffer := some io, endian := e }).2 := by
  have hk := cread_keeps io 2 h
  unfold BufferedByteStream_read_short
  simp only []
  split <;> exact (cursor_ok_open _ _).mpr hk

theorem read_ulong_keeps (e : Char) (io : Oobject) (h : io.pos ≤ io.buf.length) :
    cursor_ok (BufferedByteStream_read_ulong { buffer := some io, endian := e }).2 := by
  have hk := cread_keeps io 4 h
  unfold BufferedByteStream_read_ulong
  simp only []
  split <;> exact (cursor_ok_open _ _).mpr hk

theorem read_long_keeps (e : Char) (io : Oobject) (stale : List Byte)
    (h : io.pos ≤ io.buf.length) :
    cursor_ok (BufferedByteStream_read_long { buffer := some io, endian := e } stale).2 :=
  (cursor_ok_open _ _).mpr (cread_keeps io 4 h)

theorem read_float_keeps (e : Char) (io : Oobject) (h : io.pos ≤ io.buf.length) :
    cursor_ok (BufferedByteStream_read_float { buffer := some io, endian := e }).2 := by
  have hk := cread_keeps io 4 h
  unfold BufferedByteStream_read_float
  simp only []
  split <;> exact (cursor_ok_open _ _).mpr hk

theorem read_double_keeps (e : Char) (io : Oobject) (h : io.pos ≤ io.buf.length) :
    cursor_ok (BufferedByteStream_read_double { buffer := some io, endian := e }).2 := by
  have hk := cread_keeps io 8 h
  unfold BufferedByteStream_read_double
  simp only []
  split <;> exact (cursor_ok_open _ _).mpr hk

theorem read_utf8_string_keeps (e : Char) (io : Oobject) (len : Int)
    (h : io.pos ≤ io.buf.length) :
    cursor_ok (BufferedByteStream_read_utf8_string { buffer := some io, endian := e } len).2 := by
  have hk := cread_keeps io len h
  unfold BufferedByteStream_read_utf8_string
  simp only []
  split
  · exact (cursor_ok_open _ _).mpr h
  · split
    · exact (cursor_ok_open _ _).mpr hk
    · split <;> exact (cursor_ok_open _ _).mpr hk

theorem read_keeps (e : Char) (io : Oobject) (obj_n : Option Int)
    (h : io.pos ≤ io.buf.length) :
    cursor_ok (BufferedByteStream_read { buffer := some io, endian := e } obj_n).2 := by
  cases obj_n with
  | none =>
    have hk := cread_keeps io (-1) h
    unfold BufferedByteStream_read
    simp only []
    split
    · split <;> exact (cursor_ok_open _ _).mpr hk
    · exact (cursor_ok_open _ _).mpr hk
  | some n =>
    have hk := cread_keeps io n h
    unfold BufferedByteStream_read
    simp only []
    split
    · split <;> exact (cursor_ok_open _ _).mpr hk
    · exact (cursor_ok_open _ _).mpr hk

theorem peek_keeps (e : Char) (io : Oobject) (obj_size : Option Int)
    (h : io.pos ≤ io.buf.length) :
    cursor_ok (BufferedByteStream_peek { buffer := some io, endian := e } obj_size).2 := by
  have hshape : ∀ size : Int,
      (O_seek (cread io size).2 (io.pos : Int) 0).pos
        ≤ (O_seek (cread io size).2 (io.pos : Int) 0).buf.length := by
    intro size
    rw [O_seek_abs]
    simpa [cread] using h
  cases obj_size with
  | none => exact (cursor_ok_open _ _).mpr (hshape 1)
  | some v => exact (cursor_ok_open _ _).mpr (hshape v)

theorem seek_keeps (e : Char) (io : Oobject) (pos mode : Int)
    (hw : seek_target io pos mode ≤ (io.buf.length : Int)) :
    cursor_ok (BufferedByteStream_seek { buffer := some io, endian := e } pos (some mode)).2 := by
  have hshape : (O_seek io pos mode).pos ≤ (O_seek io pos mode).buf.length := by
    simp only [seek_target] at hw
    simp only [O_seek]
    split <;> omega
  exact (cursor_ok_open _ _).mpr hshape

theorem write_uchar_keeps (e : Char) (io : Oobject) (v : Int) (h : io.pos ≤ io.buf.length) :
    cursor_ok (BufferedByteStream_write_uchar { buffer := some io, endian := e } v).2 := by
  unfold BufferedByteStream_write_uchar
  simp only []
  split
  · exact (cursor_ok_open _ _).mpr h
  · split
    · exact (cursor_ok_open _ _).mpr h
    · exact (cursor_ok_open _ _).mpr (cwrite_makes _ _)

theorem write_char_keeps (e : Char) (io : Oobject) (v : Int) (h : io.pos ≤ io.buf.length) :
    cursor_ok (BufferedByteStream_write_char { buffer := some io, endian := e } v).2 := by
  unfold BufferedByteStream_write_char
  simp only []
  split
  · exact (cursor_ok_open _ _).mpr h
  · split
    · exact (cursor_ok_open _ _).mpr h
    · exact (cursor_ok_open _ _).mpr (cwrite_makes _ _)

theorem write_keeps (e : Char) (io : Oobject) (b : List Byte) :
    cursor_ok (BufferedByteStream_write { buffer := some io, endian := e } b).2 :=
  (cursor_ok_open _ _).mpr (cwrite_makes _ _)

theorem pack_uint_keeps (fuel : Nat) (e : Char) (io io1 : Oobject) (x n : Nat)
    (h : pack_uint fuel e io x n = some (.ok io1)) : io1.pos ≤ io1.buf.length := by
  unfold pack_uint at h
  split at h
  · cases h
  · split at h
    · cases h
    · injection h with h
      injection h with h
      rw [← h]
      exact cwrite_makes _ _

theorem pack_int_keeps (fuel : Nat) (e : Char) (io io1 : Oobject) (x : Int) (n : Nat)
    (h : pack_int fuel e io x n = some (.ok io1)) : io1.pos ≤ io1.buf.length := by
  unfold pack_int at h
  simp only [] at h
  split at h
  · cases h
  · split at h
    · cases h
    · injection h with h
      injection h with h
      rw [← h]
      exact cwrite_makes _ _

theorem write_ushort_keeps (fuel : Nat) (e : Char) (io : Oobject) (v : Int)
    (h : io.pos ≤ io.buf.length) :
    cursor_ok (((BufferedByteStream_write_ushort fuel { buffer := some io, endian := e } v).map
      Prod.snd).getD { buffer := some io, endian := e }) := by
  unfold BufferedByteStream_write_ushort
  simp only []
  split
  · exact (cursor_ok_open _ _).mpr h
  · split
    · exact (cursor_ok_open _ _).mpr h
    · split
      · exact (cursor_ok_open _ _).mpr h
      · exact (cursor_ok_open _ _).mpr h
      · rename_i io1 hp
        exact (cursor_ok_open _ _).mpr (pack_uint_keeps _ _ _ _ _ _ hp)

theorem write_short_keeps (fuel : Nat) (e : Char) (io : Oobject) (v : Int)
    (h : io.pos ≤ io.buf.length) :
    cursor_ok (((BufferedByteStream_write_short fuel { buffer := some io, endian := e } v).map
      Prod.snd).getD { buffer := some io, endian := e }) := by
  unfold BufferedByteStream_write_short
  simp only []
  split
  · exact (cursor_ok_open _ _).mpr h
  · split
    · exact (cursor_ok_open _ _).mpr h
    · split
      · exact (cursor_ok_open _ _).mpr h
      · exact (cursor_ok_open _ _).mpr h
      · rename_i io1 hp
        exact (cursor_ok_open _ _).mpr (pack_int_keeps _ _ _ _ _ _ hp)

theorem write_ulong_keeps (fuel : Nat) (e : Char) (io : Oobject) (v : Int)
    (h : io.pos ≤ io.buf.length) :
    cursor_ok (((BufferedByteStream_write_ulong fuel { buffer := some io, endian := e } v).map
      Prod.snd).getD { buffer := some io, endian := e }) := by
  unfold BufferedByteStream_write_ulong
  simp only []
  split
  · exact (cursor_ok_open _ _).mpr h
  · split
    · exact (cursor_ok_open _ _).mpr h
    · exact (cursor_ok_open _ _).mpr h
    · rename_i io1 hp
      exact (cursor_ok_open _ _).mpr (pack_uint_keeps _ _ _ _ _ _ hp)

theorem write_long_keeps (fuel : Nat) (e : Char) (io : Oobject) (v : Int)
    (h : io.pos ≤ io.buf.length) :
    cursor_ok (((BufferedByteStream_write_long fuel { buffer := some io, endian := e } v).map
      Prod.snd).getD { buffer := some io, endian := e }) := by
  unfold BufferedByteStream_write_long
  simp only []
  split
  · exact (cursor_ok_open _ _).mpr h
  · split
    · exact (cursor_ok_open _ _).mpr h
    · exact (cursor_ok_open _ _).mpr h
    · rename_i io1 hp
      exact (cursor_ok_open _ _).mpr (pack_int_keeps _ _ _ _ _ _ hp)

theorem write_float_keeps (pack : Nat → Bool → List Byte) (stack : List Byte) (e : Char)
    (io : Oobject) (x : Nat) :
    cursor_ok (BufferedByteStream_write_float pack stack { buffer := some io, endian := e } x).2 :=
  (cursor_ok_open _ _).mpr (cwrite_makes _ _)

theorem write_double_keeps (pack : Nat → Bool → List Byte) (stack : List Byte) (e : Char)
    (io : Oobject) (x : Nat) :
    cursor_ok
      (BufferedByteStream_write_double pack stack { buffer := some io, endian := e } x).2 :=
  (cursor_ok_open _ _).mpr (cwrite_makes _ _)

theorem write_utf8_string_keeps (e : Char) (io : Oobject) (t : TextObj)
    (h : io.pos ≤ io.buf.length) :
    cursor_ok (BufferedByteStream_write_utf8_string { buffer := some io, endian := e } t).2 := by
  unfold BufferedByteStream_write_utf8_string
  simp only []
  split
  · exact (cursor_ok_open _ _).mpr (cwrite_makes _ _)
  · split
    · exact (cursor_ok_open _ _).mpr h
    · exact (cursor_ok_open _ _).mpr (cwrite_makes _ _)
  · exact (cursor_ok_open _ _).mpr h

theorem truncate_keeps (e : Char) (io : Oobject) (size : Option Int) :
    cursor_ok (BufferedByteStream_truncate { buffer := some io, endian := e } size).2 := by
  have hdef : (BufferedByteStream_truncate { buffer := some io, endian := e } size).2
      = { buffer := some (NewOutput 128), endian := e } := rfl
  rw [hdef]
  exact (cursor_ok_open _ _).mpr (Nat.le_refl 0)

theorem add_keeps (e : Char) (io : Oobject) (other : AddObj) (h : io.pos ≤ io.buf.length) :
    cursor_ok (apply_op (.add other) { buffer := some io, endian := e }) := by
  cases io with
  | mk b p =>
    cases other with
    | same =>
      have hdef : apply_op (.add .same) { buffer := some { buf := b, pos := p }, endian := e }
          = open_stream e (b ++ b) 0 := by
        simp only [apply_op, add_same]
      rw [hdef]
      exact (cursor_ok_open _ _).mpr (Nat.zero_le _)
    | stream o oe =>
      cases o with
      | mk b2 p2 =>
        have hdef : apply_op (.add (.stream { buf := b2, pos := p2 } oe))
              { buffer := some { buf := b, pos := p }, endian := e }
            = open_stream e (b ++ b2) 0 := by
          simp only [apply_op, add_streams]
        rw [hdef]
        exact (cursor_ok_open _ _).mpr (Nat.zero_le _)
    | not_a_stream => exact (cursor_ok_open _ _).mpr h

theorem radd_keeps (e : Char) (io : Oobject) (o : Oobject) (oe : Char) :
    cursor_ok (apply_op (.radd o oe) { buffer := some io, endian := e }) := by
  cases io with
  | mk b p =>
    cases o with
    | mk b2 p2 =>
      have hdef : apply_op (.radd { buf := b2, pos := p2 } oe)
            { buffer := some { buf := b, pos := p }, endian := e }
          = open_stream oe (b2 ++ b) 0 := by
        simp only [apply_op, add_streams]
      rw [hdef]
      exact (cursor_ok_open _ _).mpr (Nat.zero_le _)

theorem line_length_le (l : List Byte) : line_length l ≤ l.length := by
  induction l with
  | nil => exact Nat.le_refl 0
  | cons b rest ih =>
    simp only [line_length, List.length_cons]
    split <;> omega

theorem creadline_keeps (io : Oobject) (h : io.pos ≤ io.buf.length) :
    (creadline io).2.pos ≤ (creadline io).2.buf.length := by
  have hl := line_length_le (io.buf.drop io.pos)
  rw [List.length_drop] at hl
  have hdef : (creadline io).2
      = { buf := io.buf, pos := io.pos + line_length (io.buf.drop io.pos) } := rfl
  rw [hdef]
  show io.pos + line_length (io.buf.drop io.pos) ≤ io.buf.length
  omega

theorem IO_readlines_loop_keeps (hint : Int) :
    ∀ (fuel : Nat) (io : Oobject) (length : Int) (result : List (List Byte)),
      io.pos ≤ io.buf.length →
      (IO_readlines_loop hint fuel io length result).2.pos
        ≤ (IO_readlines_loop hint fuel io length result).2.buf.length := by
  intro fuel
  induction fuel with
  | zero =>
    intro io length result h
    exact h
  | succ fuel ih =>
    intro io length result h
    have hk := creadline_keeps io h
    have hdef : IO_readlines_loop hint (fuel + 1) io length result
        = if (creadline io).1.length = 0 then (result, (creadline io).2)
          else if hint > 0 ∧ length + ((creadline io).1.length : Int) ≥ hint then
            (result ++ [(creadline io).1], (creadline io).2)
          else IO_readlines_loop hint fuel (creadline io).2
            (length + ((creadline io).1.length : Int)) (result ++ [(creadline io).1]) := rfl
    rw [hdef]
    split
    · exact hk
    · split
      · exact hk
      · exact ih _ _ _ hk

theorem O_writelines_keeps (lines : List (List Byte)) :
    ∀ io : Oobject, io.pos ≤ io.buf.length →
      (O_writelines io lines).pos ≤ (O_writelines io lines).buf.length := by
  induction lines with
  | nil =>
    intro io h
    exact h
  | cons line rest ih =>
    intro io _
    exact ih (cwrite io line) (cwrite_makes io line)

theorem readline_keeps (e : Char) (io : Oobject) (h : io.pos ≤ io.buf.length) :
    cursor_ok (BufferedByteStream_readline { buffer := some io, endian := e }).2 :=
  (cursor_ok_open _ _).mpr (creadline_keeps io h)

theorem readlines_keeps (e : Char) (io : Oobject) (sizehint : Option Int)
    (h : io.pos ≤ io.buf.length) :
    cursor_ok (BufferedByteStream_readlines { buffer := some io, endian := e } sizehint).2 := by
  cases sizehint with
  | none =>
    have hdef : (BufferedByteStream_readlines { buffer := some io, endian := e } none).2
        = { buffer := some (IO_readlines_loop (int_of_long 0) (io.buf.length + 1) io 0 []).2,
            endian := e } := rfl
    rw [hdef]
    exact (cursor_ok_open _ _).mpr (IO_readlines_loop_keeps (int_of_long 0) _ io 0 [] h)
  | some v =>
    have hdef : (BufferedByteStream_readlines { buffer := some io, endian := e } (some v)).2
        = { buffer := some (IO_readlines_loop (int_of_long v) (io.buf.length + 1) io 0 []).2,
            endian := e } := rfl
    rw [hdef]
    exact (cursor_ok_open _ _).mpr (IO_readlines_loop_keeps (int_of_long v) _ io 0 [] h)

theorem writelines_keeps (e : Char) (io : Oobject) (lines : List (List Byte))
    (h : io.pos ≤ io.buf.length) :
    cursor_ok (BufferedByteStream_writelines { buffer := some io, endian := e } lines).2 :=
  (cursor_ok_open _ _).mpr (O_writelines_keeps lines io h)

theorem observers_keep (e : Char) (io : Oobject) :
    (BufferedByteStream_remaining { buffer := some io, endian := e }).2
      = { buffer := some io, endian := e } ∧
    (BufferedByteStream_at_eof { buffer := some io, endian := e }).2
      = { buffer := some io, endian := e } ∧
    (BufferedByteStream___len__ { buffer := some io, endian := e }).2
      = { buffer := some io, endian := e } := by
  cases io with
  | mk b p =>
    have h1 := remaining_eq e b p
    have h2 := at_eof_eq e b p
    have h3 := len_eq e b p
    simp only [open_stream] at h1 h2 h3
    rw [h1, h2, h3]
    exact ⟨rfl, rfl, rfl⟩

theorem apply_op_closed (op : Op) (e : Char) :
    apply_op op { buffer := none, endian := e } = { buffer := none, endian := e } := by
  cases op <;> rfl

theorem apply_op_keeps (op : Op) (s : BufferedByteStream) (h : cursor_ok s)
    (hw : within_end op s) : cursor_ok (apply_op op s) := by
  cases s with
  | mk buffer e =>
    cases buffer with
    | none =>
      rw [apply_op_closed]
      exact h
    | some io =>
      have hio : io.pos ≤ io.buf.length := (cursor_ok_open e io).mp h
      cases op with
      | seek pos mode => exact seek_keeps e io pos mode hw
      | read n => exact read_keeps e io n hio
      | peek size => exact peek_keeps e io size hio
      | write b => exact write_keeps e io b
      | read_uchar => exact read_uchar_keeps e io hio
      | read_char => exact read_char_keeps e io hio
      | read_ushort => exact read_ushort_keeps e io hio
      | read_short => exact read_short_keeps e io hio
      | read_ulong => exact read_ulong_keeps e io hio
      | read_long stale => exact read_long_keeps e io stale hio
      | read_float => exact read_float_keeps e io hio
      | read_double => exact read_double_keeps e io hio
      | read_utf8_string len => exact read_utf8_string_keeps e io len hio
      | write_uchar v => exact write_uchar_keeps e io v hio
      | write_char v => exact write_char_keeps e io v hio
      | write_ushort fuel v => exact write_ushort_keeps fuel e io v hio
      | write_short fuel v => exact write_short_keeps fuel e io v hio
      | write_ulong fuel v => exact write_ulong_keeps fuel e io v hio
      | write_long fuel v => exact write_long_keeps fuel e io v hio
      | write_float pack stack x => exact write_float_keeps pack stack e io x
      | write_double pack stack x => exact write_double_keeps pack stack e io x
      | write_utf8_string t => exact write_utf8_string_keeps e io t hio
      | truncate size => exact truncate_keeps e io size
      | add other => exact add_keeps e io other hio
      | radd o oe => exact radd_keeps e io o oe
      | readline => exact readline_keeps e io hio
      | readlines sizehint => exact readlines_keeps e io sizehint hio
      | writelines lines => exact writelines_keeps e io lines hio
      | tell => exact h
      | getvalue => exact h
      | remaining =>
        show cursor_ok (BufferedByteStream_remaining { buffer := some io, endian := e }).2
        rw [(observers_keep e io).1]
        exact h
      | at_eof =>
        show cursor_ok (BufferedByteStream_at_eof { buffer := some io, endian := e }).2
        rw [(observers_keep e io).2.1]
        exact h
      | len =>
        show cursor_ok (BufferedByteStream___len__ { buffer := some io, endian := e }).2
        rw [(observers_keep e io).2.2]
        exact h
      | flush => exact h
      | close => exact trivial

theorem run_keeps (ops : List Op) :
    ∀ s : BufferedByteStream, cursor_ok s → seeks_within_end ops s → cursor_ok (run ops s) := by
  induction ops with
  | nil =>
    intro s h _
    exact h
  | cons op ops ih =>
    intro s h hw
    exact ih (apply_op op s) (apply_op_keeps op s h hw.1) hw.2

/-- C26 (amended). Cursor invariant: a freshly constructed stream has position 0
and length 0, and after any sequence of the public operations (seek, read,
peek, readline, readlines, write, writelines, the typed reads and writes, the
text operations, truncate, the observers, close and concatenation on either
side) in which no `seek` aims beyond the end the contents have when it is
issued, the stream is closed or its position is at most its length; a `seek`
below 0 is clamped to 0. -/
theorem cursor_invariant_without_far_seeks (src : Option BufObj) (ops : List Op)
    (hsrc : src = none ∨ ∃ b, src = some (.string b))
    (hw : seeks_within_end ops (BufferedByteStream_init BufferedByteStream_new src).2.1) :
    cursor_ok (BufferedByteStream_init BufferedByteStream_new src).2.1 ∧
    cursor_ok (run ops (BufferedByteStream_init BufferedByteStream_new src).2.1) := by
  have h0 : cursor_ok (BufferedByteStream_init BufferedByteStream_new src).2.1 := by
    rcases hsrc with hs | ⟨b, hs⟩
    · subst hs
      exact (cursor_ok_open _ _).mpr (Nat.le_refl 0)
    · subst hs
      have hdef : (BufferedByteStream_init BufferedByteStream_new (some (.string b))).2.1
          = { buffer := some (O_seek (cwrite (NewOutput 128) b) 0 0),
              endian := ENDIAN_NETWORK } := rfl
      rw [hdef, O_seek_zero]
      exact (cursor_ok_open _ _).mpr (Nat.zero_le _)
  exact ⟨h0, run_keeps ops _ h0 hw⟩


/-! ## C27: failed writes leave the stream as it was -/

theorem write_uchar_error_keeps (s : BufferedByteStream) (v : Int) (x : PyExc)
    (h : (BufferedByteStream_write_uchar s v).1 = .error x) :
    (BufferedByteStream_write_uchar s v).2 = s := by
  unfold BufferedByteStream_write_uchar at h ⊢
  split
  · rfl
  · split
    · rfl
    · split
      · rfl
      · rename_i hb _ _ hg hv
        simp only [hb, hg, if_neg hv] at h
        cases h

theorem write_char_error_keeps (s : BufferedByteStream) (v : Int) (x : PyExc)
    (h : (BufferedByteStream_write_char s v).1 = .error x) :
    (BufferedByteStream_write_char s v).2 = s := by
  unfold BufferedByteStream_write_char at h ⊢
  split
  · rfl
  · split
    · rfl
    · split
      · rfl
      · rename_i hb _ _ hg hv
        simp only [hb, hg, if_neg hv] at h
        cases h

theorem write_ushort_error_keeps (fuel : Nat) (s : BufferedByteStream) (v : Int)
    (r : Result Unit) (x : PyExc)
    (hr : BufferedByteStream_write_ushort fuel s v = some r) (h : r.1 = .error x) :
    r.2 = s := by
  unfold BufferedByteStream_write_ushort at hr
  split at hr
  · cases hr
    rfl
  · split at hr
    · cases hr
      rfl
    · split at hr
      · cases hr
        rfl
      · split at hr
        · cases hr
        · cases hr
          rfl
        · cases hr
          cases h

theorem write_short_error_keeps (fuel : Nat) (s : BufferedByteStream) (v : Int)
    (r : Result Unit) (x : PyExc)
    (hr : BufferedByteStream_write_short fuel s v = some r) (h : r.1 = .error x) :
    r.2 = s := by
  unfold BufferedByteStream_write_short at hr
  split at hr
  · cases hr
    rfl
  · split at hr
    · cases hr
      rfl
    · split at hr
      · cases hr
        rfl
      · split at hr
        · cases hr
        · cases hr
          rfl
        · cases hr
          cases h

theorem write_ulong_error_keeps (fuel : Nat) (s : BufferedByteStream) (v : Int)
    (r : Result Unit) (x : PyExc)
    (hr : BufferedByteStream_write_ulong fuel s v = some r) (h : r.1 = .error x) :
    r.2 = s := by
  unfold BufferedByteStream_write_ulong at hr
  split at hr
  · cases hr
    rfl
  · split at hr
    · cases hr
      rfl
    · split at hr
      · cases hr
      · cases hr
        rfl
      · cases hr
        cases h

theorem write_long_error_keeps (fuel : Nat) (s : BufferedByteStream) (v : Int)
    (r : Result Unit) (x : PyExc)
    (hr : BufferedByteStream_write_long fuel s v = some r) (h : r.1 = .error x) :
    r.2 = s := by
  unfold BufferedByteStream_write_long at hr
  split at hr
  · cases hr
    rfl
  · split at hr
    · cases hr
      rfl
    · split at hr
      · cases hr
      · cases hr
        rfl
      · cases hr
        cases h


/-- C27. Failed writes are atomic: whenever `write_uchar`, `write_char`,
`write_ushort`, `write_short`, `write_ulong` or `write_long` fails with
`OverflowError`, the stream after the call is the stream before it: the same
contents, length, position and byte order. -/
theorem failed_write_is_atomic (fuel : Nat) (s : BufferedByteStream) (v : Int) :
    ((BufferedByteStream_write_uchar s v).1 = .error .OverflowError →
      (BufferedByteStream_write_uchar s v).2 = s) ∧
    ((BufferedByteStream_write_char s v).1 = .error .OverflowError →
      (BufferedByteStream_write_char s v).2 = s) ∧
    (∀ r, BufferedByteStream_write_ushort fuel s v = some r →
      r.1 = .error .OverflowError → r.2 = s) ∧
    (∀ r, BufferedByteStream_write_short fuel s v = some r →
      r.1 = .error .OverflowError → r.2 = s) ∧
    (∀ r, BufferedByteStream_write_ulong fuel s v = some r →
      r.1 = .error .OverflowError → r.2 = s) ∧
    (∀ r, BufferedByteStream_write_long fuel s v = some r →
      r.1 = .error .OverflowError → r.2 = s) :=
  ⟨write_uchar_error_keeps s v _, write_char_error_keeps s v _,
    fun r hr h => write_ushort_error_keeps fuel s v r _ hr h,
    fun r hr h => write_short_error_keeps fuel s v r _ hr h,
    fun r hr h => write_ulong_error_keeps fuel s v r _ hr h,
    fun r hr h => write_long_error_keeps fuel s v r _ hr h⟩

/-- C27 at `write_ushort(70000)` on the contents `01 02` with the cursor at 1:
the call raises `OverflowError` and the stream is as before. -/
theorem failed_write_is_atomic_witness :
    BufferedByteStream_write_ushort 0 (open_stream ENDIAN_NETWORK [1, 2] 1) 70000
      = some (.error .OverflowError, open_stream ENDIAN_NETWORK [1, 2] 1) ∧
    ((.error .OverflowError, open_stream ENDIAN_NETWORK [1, 2] 1) : Result Unit).2
      = open_stream ENDIAN_NETWORK [1, 2] 1 ∧
    (BufferedByteStream_write_uchar (open_stream ENDIAN_NETWORK [1, 2] 1) 70000).1
      = .error .OverflowError ∧
    (BufferedByteStream_write_uchar (open_stream ENDIAN_NETWORK [1, 2] 1) 70000).2
      = open_stream ENDIAN_NETWORK [1, 2] 1 :=
  ⟨by decide,
    (failed_write_is_atomic 0 (open_stream ENDIAN_NETWORK [1, 2] 1) 70000).2.2.1
      (.error .OverflowError, open_stream ENDIAN_NETWORK [1, 2] 1) (by decide) rfl,
    by decide,
    (failed_write_is_atomic 0 (open_stream ENDIAN_NETWORK [1, 2] 1) 70000).1 (by decide)⟩

/-! ## C28: write overwrites in place and extends -/

theorem cwrite_within (old b : List Byte) (p : Nat) (hp : p ≤ old.length) :
    cwrite { buf := old, pos := p } b
      = { buf := old.take p ++ b ++ old.drop (p + b.length), pos := p + b.length } := by
  simp [cwrite, Nat.sub_eq_zero_of_le hp]

/-- C28. The method `write` overwrites in place and extends: on an open stream
with contents `old` and position `p ≤ length old`, `write(b)` returns and leaves the
contents `old[0..p)`, then `b`, then `old[p + len b ..)` (empty when `p + len b`
reaches the end), the length `max (length old) (p + len b)` and the position
`p + len b`; the byte order stays, every offset below `p` and every offset of
`old` from `p + len b` on reads as before, and the offsets between read `b`. -/
theorem write_overwrites_and_extends (e : Char) (old b : List Byte) (p : Nat)
    (hp : p ≤ old.length) :
    BufferedByteStream_write (open_stream e old p) b
      = (.ok (), open_stream e (old.take p ++ b ++ old.drop (p + b.length)) (p + b.length)) ∧
    (old.take p ++ b ++ old.drop (p + b.length)).length = max old.length (p + b.length) ∧
    (p + b.length ≥ old.length → old.drop (p + b.length) = []) ∧
    (∀ j, j < p → (old.take p ++ b ++ old.drop (p + b.length))[j]? = old[j]?) ∧
    (∀ j, j < b.length → (old.take p ++ b ++ old.drop (p + b.length))[p + j]? = b[j]?) ∧
    (∀ j, p + b.length ≤ j → (old.take p ++ b ++ old.drop (p + b.length))[j]? = old[j]?) := by
  have htake : (old.take p).length = p := by simp [hp]
  refine ⟨?_, ?_, ?_, ?_, ?_, ?_⟩
  · have hdef : BufferedByteStream_write (open_stream e old p) b
        = (.ok (), { buffer := some (cwrite { buf := old, pos := p } b), endian := e }) := rfl
    rw [hdef, cwrite_within old b p hp]
    rfl
  · simp only [List.length_append, List.length_drop, htake]
    omega
  · intro h
    exact List.drop_eq_nil_of_le h
  · intro j hj
    rw [List.append_assoc, List.getElem?_append_left (by omega)]
    rw [List.getElem?_take_of_lt hj]
  · intro j hj
    rw [List.append_assoc, List.getElem?_append_right (by omega)]
    rw [htake, Nat.add_sub_cancel_left, List.getElem?_append_left hj]
  · intro j hj
    rw [List.getElem?_append_right (by simp only [List.length_append, htake]; omega)]
    simp only [List.length_append, htake, List.getElem?_drop]
    congr 1
    omega

/-- C28 at contents `01 02 03`, position 1 and `write` of `09 08 07`. -/
theorem write_overwrites_and_extends_witness :
    (1 : Nat) ≤ ([1, 2, 3] : List Byte).length ∧
    BufferedByteStream_write (open_stream ENDIAN_NETWORK [1, 2, 3] 1) [9, 8, 7]
      = (.ok (), open_stream ENDIAN_NETWORK [1, 9, 8, 7] 4) :=
  ⟨by decide,
    (write_overwrites_and_extends ENDIAN_NETWORK [1, 2, 3] [9, 8, 7] 1 (by decide)).1⟩


/-- C26 (amended) at `write(01 02 03)`, `seek(-5, 1)` (clamped to 0),
`read_ushort()`, `seek(0, 2)`, `write_uchar(7)`, `seek(-1, 2)`, `peek()`. -/
theorem cursor_invariant_without_far_seeks_witness :
    cursor_ok (run [.write [1, 2, 3], .seek (-5) 1, .read_ushort, .seek 0 2, .write_uchar 7,
        .seek (-1) 2, .peek none]
      (BufferedByteStream_init BufferedByteStream_new none).2.1) ∧
    run [.write [1, 2, 3], .seek (-5) 1, .read_ushort, .seek 0 2, .write_uchar 7,
        .seek (-1) 2, .peek none]
      (BufferedByteStream_init BufferedByteStream_new none).2.1
      = open_stream ENDIAN_NETWORK [1, 2, 3, 7] 3 :=
  ⟨(cursor_invariant_without_far_seeks none
      [.write [1, 2, 3], .seek (-5) 1, .read_ushort, .seek 0 2, .write_uchar 7,
        .seek (-1) 2, .peek none]
      (Or.inl rfl)
      ⟨trivial,
        (by decide : seek_target { buf := [1, 2, 3], pos := 3 } (-5) 1 ≤ ((3 : Nat) : Int)),
        trivial,
        (by decide : seek_target { buf := [1, 2, 3], pos := 2 } 0 2 ≤ ((3 : Nat) : Int)),
        trivial,
        (by decide : seek_target { buf := [1, 2, 3, 7], pos := 4 } (-1) 2 ≤ ((4 : Nat) : Int)),
        trivial, trivial⟩).2,
    by decide⟩


/-! ## C29: floats under the native byte order -/

/-- C29 fails on the code.  The `double` 1.0 has the bit pattern
`0x3FF0000000000000`; under `ENDIAN_NATIVE`, `write_float` copies the first four
bytes of that `double`, `00 00 00 00`, not the single-precision representation
`00 00 80 3F` of 1.0, and after a rewind `read_float` gets `00 00 00 00`, the
`float` 0.0.  `write_double` stores all eight bytes of the `double` and
`read_double` gets them back. -/
theorem native_write_float_copies_half_a_double (pack : Nat → Bool → List Byte)
    (stack : List Byte) :
    BufferedByteStream_write_float pack stack (open_stream ENDIAN_NATIVE [] 0)
        0x3FF0000000000000
      = (.ok (), open_stream ENDIAN_NATIVE [0, 0, 0, 0] 4) ∧
    (BufferedByteStream_seek (open_stream ENDIAN_NATIVE [0, 0, 0, 0] 4) 0 none).2
      = open_stream ENDIAN_NATIVE [0, 0, 0, 0] 0 ∧
    BufferedByteStream_read_float (open_stream ENDIAN_NATIVE [0, 0, 0, 0] 0)
      = (.ok [0, 0, 0, 0], open_stream ENDIAN_NATIVE [0, 0, 0, 0] 4) ∧
    ([0, 0, 0, 0] : List Byte) ≠ [0, 0, 0x80, 0x3F] ∧
    BufferedByteStream_write_double pack stack (open_stream ENDIAN_NATIVE [] 0)
        0x3FF0000000000000
      = (.ok (), open_stream ENDIAN_NATIVE [0, 0, 0, 0, 0, 0, 0xF0, 0x3F] 8) ∧
    BufferedByteStream_read_double (open_stream ENDIAN_NATIVE [0, 0, 0, 0, 0, 0, 0xF0, 0x3F] 0)
      = (.ok [0, 0, 0, 0, 0, 0, 0xF0, 0x3F],
          open_stream ENDIAN_NATIVE [0, 0, 0, 0, 0, 0, 0xF0, 0x3F] 8) := by
  refine ⟨?_, by decide, by decide, by decide, ?_, by decide⟩
  · have hdef : BufferedByteStream_write_float pack stack (open_stream ENDIAN_NATIVE [] 0)
          0x3FF0000000000000
        = (.ok (),
            { buffer := some (cwrite { buf := [], pos := 0 }
                (((List.range 4).map (ulong_mem 0x3FF0000000000000)).take 4)),
              endian := ENDIAN_NATIVE }) := rfl
    rw [hdef]
    decide
  · have hdef : BufferedByteStream_write_double pack stack (open_stream ENDIAN_NATIVE [] 0)
          0x3FF0000000000000
        = (.ok (),
            { buffer := some (cwrite { buf := [], pos := 0 }
                (((List.range 8).map (ulong_mem 0x3FF0000000000000)).take 8)),
              endian := ENDIAN_NATIVE }) := rfl
    rw [hdef]
    decide

/-! ## C30: the pack loops under a byte order outside the four -/

theorem pack_uint_loop_stuck (e : Char) (hb : e ≠ ENDIAN_BIG) (hn : e ≠ ENDIAN_NETWORK)
    (hl : e ≠ ENDIAN_LITTLE) (ha : e ≠ ENDIAN_NATIVE) (nb : Nat) :
    ∀ (fuel x i : Nat) (buf : List Byte), i ≠ 0 → pack_uint_loop e nb fuel x i buf = none := by
  intro fuel
  induction fuel with
  | zero =>
    intro x i buf hi
    simp [pack_uint_loop, hi]
  | succ fuel ih =>
    intro x i buf hi
    simp only [pack_uint_loop, if_neg hi, hb, hn, hl, ha, or_self, if_false]
    exact ih _ i buf hi

theorem pack_int_loop_stuck (e : Char) (hb : e ≠ ENDIAN_BIG) (hn : e ≠ ENDIAN_NETWORK)
    (hl : e ≠ ENDIAN_LITTLE) (ha : e ≠ ENDIAN_NATIVE) (nb : Nat) :
    ∀ (fuel : Nat) (x : Int) (i : Nat) (buf : List Byte), i ≠ 0 →
      pack_int_loop e nb fuel x i buf = none := by
  intro fuel
  induction fuel with
  | zero =>
    intro x i buf hi
    simp [pack_int_loop, hi]
  | succ fuel ih =>
    intro x i buf hi
    simp only [pack_int_loop, if_neg hi, hb, hn, hl, ha, or_self, if_false]
    exact ih _ i buf hi

/-- C30 fails on the code.  With the `endian` member set to `'x'`, a character
other than `'!'`, `'@'`, `'<'` and `'>'`, no `case` of the `switch` matches and
`i` is never decremented: whatever the fuel, the loops of `pack_uint` and
`pack_int` do not come to an end for the in-range value 1 and 2 or 4 bytes, and
`write_ushort`, `write_short`, `write_ulong` and `write_long` do not return. -/
theorem pack_loops_do_not_end (fuel : Nat) (io : Oobject) :
    pack_uint_loop 'x' 2 fuel 1 2 [0, 0] = none ∧
    pack_int_loop 'x' 4 fuel 1 4 [0, 0, 0, 0] = none ∧
    pack_uint fuel 'x' io 1 2 = none ∧
    pack_uint fuel 'x' io 1 4 = none ∧
    pack_int fuel 'x' io 1 2 = none ∧
    pack_int fuel 'x' io 1 4 = none ∧
    BufferedByteStream_write_ushort fuel { buffer := some io, endian := 'x' } 1 = none ∧
    BufferedByteStream_write_short fuel { buffer := some io, endian := 'x' } 1 = none ∧
    BufferedByteStream_write_ulong fuel { buffer := some io, endian := 'x' } 1 = none ∧
    BufferedByteStream_write_long fuel { buffer := some io, endian := 'x' } 1 = none := by
  have hu : ∀ nb x i buf, i ≠ 0 → pack_uint_loop 'x' nb fuel x i buf = none :=
    fun nb => pack_uint_loop_stuck 'x' (by decide) (by decide) (by decide) (by decide) nb fuel
  have hi : ∀ nb x i buf, i ≠ 0 → pack_int_loop 'x' nb fuel x i buf = none :=
    fun nb => pack_int_loop_stuck 'x' (by decide) (by decide) (by decide) (by decide) nb fuel
  have hu2 : pack_uint fuel 'x' io 1 2 = none := by
    have hr : ¬ ((2 : Nat) ≠ SIZEOF_LONG ∧ (1 : Nat) ≥ (1 <<< (2 * 8)) % ULONG_MOD) := by decide
    simp only [pack_uint, if_neg hr, hu 2 1 2 _ (by decide)]
  have hu4 : pack_uint fuel 'x' io 1 4 = none := by
    have hr : ¬ ((4 : Nat) ≠ SIZEOF_LONG ∧ (1 : Nat) ≥ (1 <<< (4 * 8)) % ULONG_MOD) := by decide
    simp only [pack_uint, if_neg hr, hu 4 1 4 _ (by decide)]
  have hi2 : pack_int fuel 'x' io 1 2 = none := by
    have hr : ¬ ((2 : Nat) ≠ SIZEOF_LONG ∧ ((1 : Int) ≥ long_of_bits (1 <<< (2 * 8 - 1)) ∨
        (1 : Int) < -long_of_bits (1 <<< (2 * 8 - 1)))) := by decide
    simp only [pack_int, if_neg hr, hi 2 1 2 _ (by decide)]
  have hi4 : pack_int fuel 'x' io 1 4 = none := by
    have hr : ¬ ((4 : Nat) ≠ SIZEOF_LONG ∧ ((1 : Int) ≥ long_of_bits (1 <<< (4 * 8 - 1)) ∨
        (1 : Int) < -long_of_bits (1 <<< (4 * 8 - 1)))) := by decide
    simp only [pack_int, if_neg hr, hi 4 1 4 _ (by decide)]
  have hg : get_ulong 1 = .ok 1 := by decide
  have hgl : get_long 1 = .ok 1 := by decide
  refine ⟨hu 2 1 2 _ (by decide), hi 4 1 4 _ (by decide), hu2, hu4, hi2, hi4, ?_, ?_, ?_, ?_⟩
  · have hv : ¬ ((1 : Nat) > 65535) := by decide
    simp only [BufferedByteStream_write_ushort, hg, if_neg hv, hu2]
  · have hv : ¬ ((1 : Int) < -32768 ∨ (1 : Int) > 32767) := by decide
    simp only [BufferedByteStream_write_short, hgl, if_neg hv, hi2]
  · simp only [BufferedByteStream_write_ulong, hg, hu4]
  · simp only [BufferedByteStream_write_long, hgl, hi4]

end Cpyamf
